import Mathlib

/-!
# rdr::ZlibOutStream — a shallow embedding of `common/rdr/ZlibOutStream.cxx`

The compressing output stream keeps a fixed block of `bufSize` bytes
(`start .. end`), a write cursor `ptr`, a running `offset`, a zlib `z_stream`
and a borrowed `underlying` stream.  Pointers into the block are modelled as
offsets from `start`; the block itself is a map from offsets to bytes, so a
read through a stale `next_in` sees whatever the block holds at that place.

The zlib library (`deflateInit`, `::deflate`, `deflateParams`) is not part of
the file: it is a parameter `Zlib σ` of every operation.  Loops (`do … while`
in `deflate`, `while` in `overrun`) take a bound on their iterations; when the
bound is used up the outcome is `Halt.fuel`, which is not an exception of the
program but the sign that the loop was still running.

`offset` is a `size_t` in the source and a `Nat` here: wrap-around at `2^64`
bytes is outside the model.  zlib's `avail_out` is a `uInt` of 32 bits, narrower
than `size_t`: the `size_t` stored into it in `deflate` is taken modulo `2^32`.
`avail_in` is a `uInt` too; it receives `ptr - start`, which is at most the
size of the block (16384 bytes as constructed), and is kept as it is.

The underlying stream has a buffer of its own, again a map from offsets to
bytes: zlib stores its output there through `next_out`, and a commit takes the
bytes from there.
-/

namespace rdr

/-! ## Bytes, constants, the zlib interface -/

/-- A byte (`rdr::U8`).  Bytes are only copied and compared, never computed with. -/
abbrev U8 := Nat

/-- The source's `enum { DEFAULT_BUF_SIZE = 16384 }`. -/
abbrev DEFAULT_BUF_SIZE : Nat := 16384

/-- The zlib.h flush mode `Z_NO_FLUSH`. -/
abbrev Z_NO_FLUSH : Int := 0
/-- The zlib.h flush mode `Z_SYNC_FLUSH`. -/
abbrev Z_SYNC_FLUSH : Int := 2
/-- The zlib.h return code `Z_OK`. -/
abbrev Z_OK : Int := 0
/-- The zlib.h return code `Z_BUF_ERROR`. -/
abbrev Z_BUF_ERROR : Int := -5
/-- The zlib.h level `Z_DEFAULT_COMPRESSION`. -/
abbrev Z_DEFAULT_COMPRESSION : Int := -1
/-- The zlib.h strategy `Z_DEFAULT_STRATEGY`. -/
abbrev Z_DEFAULT_STRATEGY : Int := 0

/-- The number of values of zlib's `uInt` (zconf.h: `unsigned int`, 32 bits):
`2^32`.  A `size_t` stored in a `uInt` is taken modulo this. -/
abbrev UINT_RANGE : Nat := 4294967296

/-- What a call into zlib reports: the return code, how many bytes it took
from `next_in`, the bytes it stored at `next_out`, and its new internal state. -/
structure ZRet (σ : Type) where
  rc : Int
  nin : Nat
  out : List U8
  state : σ

/-- The zlib entry points the stream uses, as functions of the library's
internal state `σ`, the bytes visible at `next_in` (`avail_in` of them) and
`avail_out`.
* `deflateInit level` gives the return code and the initial state;
* `deflate st input avail_out flush`;
* `deflateParams st input avail_out level strategy`. -/
structure Zlib (σ : Type) where
  deflateInit : Int → Int × σ
  deflate : σ → List U8 → Nat → Int → ZRet σ
  deflateParams : σ → List U8 → Nat → Int → Int → ZRet σ

/-- The library keeps to its calling convention: it takes no more input than
`avail_in` and stores no more output than `avail_out`. -/
structure Zlib.Sane {σ : Type} (z : Zlib σ) : Prop where
  deflate_nin : ∀ st inp ao fl, (z.deflate st inp ao fl).nin ≤ inp.length
  deflate_out : ∀ st inp ao fl, (z.deflate st inp ao fl).out.length ≤ ao
  params_nin : ∀ st inp ao lv sg, (z.deflateParams st inp ao lv sg).nin ≤ inp.length
  params_out : ∀ st inp ao lv sg, (z.deflateParams st inp ao lv sg).out.length ≤ ao

/-! ## Blocks of memory -/

/-- The `n` bytes of the block from offset `pos` on. -/
def readMem (buf : Nat → U8) (pos n : Nat) : List U8 :=
  (List.range n).map (fun i => buf (pos + i))

/-- The C library's `memmove(start + dst, start + src, n)`. -/
def memmove (buf : Nat → U8) (dst src n : Nat) : Nat → U8 :=
  fun i => if dst ≤ i ∧ i < dst + n then buf (src + (i - dst)) else buf i

/-- Storing the bytes `bs` at offset `pos` of the block. -/
def writeMem (buf : Nat → U8) (pos : Nat) (bs : List U8) : Nat → U8 :=
  fun i => if pos ≤ i ∧ i < pos + bs.length then bs.getD (i - pos) (buf i) else buf i

/-! ## The underlying stream -/

/-- Modelled from the spec: the downstream sink (`rdr::OutStream`, declared in
a header that is not part of the sources).  Section 6 of the spec gives its
interface: `reserve(minBytes)` (fails if `minBytes` exceeds the total
capacity), `commit(bytesWritten)`, `availableSpace()`, `cork(enable)`.
`sent` is every byte committed so far, in order; `ptr` is the fill of the
sink's own buffer of `bufSize` bytes, and `buf` is what that buffer holds (a
map from offsets to bytes): the region `reserve` hands out starts at offset
`ptr` of it. -/
structure OutStream where
  sent : List U8
  bufSize : Nat
  ptr : Nat
  corked : Bool
  buf : Nat → U8

/-- Modelled from the spec: `reserve(n)` of the sink (`getptr(n)`).  It fails when
`n` exceeds the sink's capacity, and otherwise makes room for `n` bytes, by
handing its buffered bytes on when the free space is too small. -/
def OutStream.getptr (os : OutStream) (n : Nat) : Option OutStream :=
  if n > os.bufSize then none
  else if n > os.bufSize - os.ptr then some { os with ptr := 0 }
  else some os

/-- Modelled from the spec: `availableSpace()` of the sink (`avail()`). -/
def OutStream.avail (os : OutStream) : Nat := os.bufSize - os.ptr

/-- The bytes `bs` are stored at offset `pos` of the sink's buffer, as zlib does
through `next_out`.  Nothing is committed by this. -/
def OutStream.store (os : OutStream) (pos : Nat) (bs : List U8) : OutStream :=
  { os with buf := writeMem os.buf pos bs }

/-- Modelled from the spec: `commit(n)` of the sink (`setptr(n)`): the first `n`
bytes of the region handed out by `getptr`, as the sink's buffer holds them
now, become part of the stream. -/
def OutStream.setptr (os : OutStream) (n : Nat) : OutStream :=
  { os with ptr := os.ptr + n, sent := os.sent ++ readMem os.buf os.ptr n }

/-- Modelled from the spec: `cork(enable)` of the sink. -/
def OutStream.cork (os : OutStream) (enable : Bool) : OutStream :=
  { os with corked := enable }

/-! ## The stream state -/

/-- One call that leaves the stream: into zlib or into the underlying stream.
The stream's `log` lists them in order. -/
inductive Call where
  | deflate (flush : Int) (avail_in avail_out : Nat) (rc : Int) (nin nout : Nat)
  | deflateParams (level strategy : Int) (rc : Int) (nin nout : Nat)
  | getptr (n : Nat)
  | setptr (n : Nat)
  | cork (enable : Bool)
deriving DecidableEq

/-- The fields of zlib's `z_stream` the source touches.  `next_in` is an offset
from `start`; before the first flush it is `Z_NULL` with `avail_in = 0`, which
is offset `0` here (nothing is read through it while `avail_in = 0`).
`next_out` is an offset into the buffer of the underlying stream, and
`avail_out` is a `uInt`, below `UINT_RANGE`; neither is set before the first
call of `deflate`, which is `0` here.
`total_in` and `total_out` record every byte zlib has taken and produced. -/
structure z_stream (σ : Type) where
  next_in : Nat
  avail_in : Nat
  next_out : Nat
  avail_out : Nat
  state : σ
  total_in : List U8
  total_out : List U8

/-- The members of `rdr::ZlibOutStream`.  `buf` is the block `start[0 .. bufSize)`,
`ptr` is `ptr - start`, and `end` is `start + bufSize`.  `log` is the record of
outgoing calls. -/
structure ZlibOutStream (σ : Type) where
  underlying : Option OutStream
  compressionLevel : Int
  newLevel : Int
  bufSize : Nat
  offset : Nat
  zs : z_stream σ
  buf : Nat → U8
  ptr : Nat
  corked : Bool
  log : List Call

/-- Why an operation did not return normally.  All but `fuel` are exceptions
thrown by the source (or by the sink it calls); `fuel` says that a loop was
still running when the iteration bound was reached. -/
inductive Halt where
  | deflateInitFailed
  | underlyingNotSet
  | bufferSizeExceeded
  | deflateFailed
  | deflateParamsFailed
  | sinkRefused
  | nullUnderlying
  | commitTooLarge
  | fuel
deriving DecidableEq

/-- The state an operation leaves and, when it did not return normally, why.
An exception leaves the members as they were when it was thrown. -/
structure Outcome (σ : Type) where
  st : ZlibOutStream σ
  halt : Option Halt

variable {σ : Type}

/-! ## The operations of `ZlibOutStream.cxx` -/

/-- The constructor `ZlibOutStream::ZlibOutStream(os, compressLevel)`; `mem` is
the content of the freshly allocated block. -/
def ZlibOutStream.new (z : Zlib σ) (os : Option OutStream) (compressLevel : Int)
    (mem : Nat → U8) : Except Halt (ZlibOutStream σ) :=
  let r := z.deflateInit compressLevel
  if r.1 ≠ Z_OK then .error .deflateInitFailed
  else .ok
    { underlying := os, compressionLevel := compressLevel, newLevel := compressLevel,
      bufSize := DEFAULT_BUF_SIZE, offset := 0,
      zs := { next_in := 0, avail_in := 0, next_out := 0, avail_out := 0, state := r.2,
              total_in := [], total_out := [] },
      buf := mem, ptr := 0, corked := false, log := [] }

/-- The method `ZlibOutStream::setUnderlying`. -/
def setUnderlying (s : ZlibOutStream σ) (os : Option OutStream) : ZlibOutStream σ :=
  { s with underlying := os }

/-- The method `ZlibOutStream::setCompressionLevel`. -/
def setCompressionLevel (s : ZlibOutStream σ) (level : Int) : ZlibOutStream σ :=
  let level := if level < -1 ∨ level > 9 then -1 else level
  { s with newLevel := level }

/-- The method `ZlibOutStream::length`: `offset + ptr - start`. -/
def length (s : ZlibOutStream σ) : Nat := s.offset + s.ptr

/-- Modelled from the spec: `OutStream::avail()` of the stream itself,
`end - ptr` (section 6, `availableSpace()`). -/
def avail (s : ZlibOutStream σ) : Nat := s.bufSize - s.ptr

/-- The call `rc = ::deflate(zs, flush)` of line 160, in a round of the loop in
which the sink's `getptr(1)` left the sink as `os1`.  zlib sees the input window
and `zs->avail_out`: line 153 stores `chunk = underlying->avail()`, a `size_t`,
in that `uInt`. -/
def deflateReply (z : Zlib σ) (flush : Int) (os1 : OutStream) (s : ZlibOutStream σ) : ZRet σ :=
  z.deflate s.zs.state (readMem s.buf s.zs.next_in s.zs.avail_in)
    (os1.avail % UINT_RANGE) flush

/-- The stream right after the call of line 160: zlib has advanced `next_in`
and `next_out` and lowered `avail_in` and `avail_out` by what it took and what
it stored, and the bytes it stored are in the sink's buffer, from the start of
the region (`next_out = underlying->getptr(1)`, offset `ptr` of the sink) on.
A library that keeps the calling convention stores at most `avail_out` bytes;
for one that does not, the subtraction stops at `0` here. -/
def afterDeflate (z : Zlib σ) (flush : Int) (os1 : OutStream) (s : ZlibOutStream σ) :
    ZlibOutStream σ :=
  let r := deflateReply z flush os1 s
  { s with
    underlying := some (os1.store os1.ptr r.out),
    zs := { next_in := s.zs.next_in + r.nin, avail_in := s.zs.avail_in - r.nin,
            next_out := os1.ptr + r.out.length,
            avail_out := os1.avail % UINT_RANGE - r.out.length, state := r.state,
            total_in := s.zs.total_in ++ (readMem s.buf s.zs.next_in s.zs.avail_in).take r.nin,
            total_out := s.zs.total_out ++ r.out },
    log := s.log ++ [.getptr 1,
      .deflate flush s.zs.avail_in (os1.avail % UINT_RANGE) r.rc r.nin r.out.length] }

/-- The amount of line 174, `chunk - zs->avail_out`: `chunk` is the `size_t`
that `underlying->avail()` returned, `zs->avail_out` what zlib left of the
`uInt` it was given. -/
def commitAmount (z : Zlib σ) (flush : Int) (os1 : OutStream) (s : ZlibOutStream σ) : Nat :=
  os1.avail - (afterDeflate z flush os1 s).zs.avail_out

/-- The sink after line 174, `underlying->setptr(chunk - zs->avail_out)`. -/
def sinkAfterSetptr (z : Zlib σ) (flush : Int) (os1 : OutStream) (s : ZlibOutStream σ) :
    OutStream :=
  (os1.store os1.ptr (deflateReply z flush os1 s).out).setptr (commitAmount z flush os1 s)

/-- The stream after line 174. -/
def afterSetptr (z : Zlib σ) (flush : Int) (os1 : OutStream) (s : ZlibOutStream σ) :
    ZlibOutStream σ :=
  { afterDeflate z flush os1 s with
    underlying := some (sinkAfterSetptr z flush os1 s),
    log := (afterDeflate z flush os1 s).log ++ [.setptr (commitAmount z flush os1 s)] }

/-- The `do … while (zs->avail_out == 0)` loop of `ZlibOutStream::deflate`, run
for at most the given number of iterations; `os` is the underlying stream. -/
def deflateLoop (z : Zlib σ) (flush : Int) :
    Nat → OutStream → ZlibOutStream σ → Outcome σ
  | 0, os, s => ⟨{ s with underlying := some os }, some .fuel⟩
  | fuel + 1, os, s =>
    match os.getptr 1 with
    | none =>
      ⟨{ s with underlying := some os, log := s.log ++ [.getptr 1] }, some .sinkRefused⟩
    | some os1 =>
      if (deflateReply z flush os1 s).rc < 0 then
        if (deflateReply z flush os1 s).rc = Z_BUF_ERROR ∧ flush ≠ Z_NO_FLUSH then
          ⟨afterDeflate z flush os1 s, none⟩
        else
          ⟨afterDeflate z flush os1 s, some .deflateFailed⟩
      else
        if (afterDeflate z flush os1 s).zs.avail_out = 0 then
          deflateLoop z flush fuel (sinkAfterSetptr z flush os1 s) (afterSetptr z flush os1 s)
        else ⟨afterSetptr z flush os1 s, none⟩

/-- The method `ZlibOutStream::deflate(int flush)`. -/
def deflate (z : Zlib σ) (fuel : Nat) (s : ZlibOutStream σ) (flush : Int) : Outcome σ :=
  match s.underlying with
  | none => ⟨s, some .underlyingNotSet⟩
  | some os =>
    if flush = Z_NO_FLUSH ∧ s.zs.avail_in = 0 then ⟨s, none⟩
    else deflateLoop z flush fuel os s

/-- Lines 194–203 of `checkCompressionLevel`: the call of `deflateParams` with the
new level, the test of its return code, and the adoption of the level.  zlib
sees the `z_stream` as the sync flush before left it; what it stores goes to
the sink's buffer at `next_out` and is not committed. -/
def changeLevel (z : Zlib σ) (s1 : ZlibOutStream σ) : Outcome σ :=
  let input := readMem s1.buf s1.zs.next_in s1.zs.avail_in
  let r := z.deflateParams s1.zs.state input s1.zs.avail_out s1.newLevel Z_DEFAULT_STRATEGY
  let zs1 : z_stream σ :=
    { next_in := s1.zs.next_in + r.nin, avail_in := s1.zs.avail_in - r.nin,
      next_out := s1.zs.next_out + r.out.length,
      avail_out := s1.zs.avail_out - r.out.length, state := r.state,
      total_in := s1.zs.total_in ++ input.take r.nin,
      total_out := s1.zs.total_out ++ r.out }
  let s2 : ZlibOutStream σ :=
    { s1 with underlying := s1.underlying.map (fun os => os.store s1.zs.next_out r.out),
              zs := zs1,
              log := s1.log ++
                [.deflateParams s1.newLevel Z_DEFAULT_STRATEGY r.rc r.nin r.out.length] }
  if r.rc < 0 ∧ r.rc ≠ Z_BUF_ERROR then ⟨s2, some .deflateParamsFailed⟩
  else ⟨{ s2 with compressionLevel := s2.newLevel }, none⟩

/-- The method `ZlibOutStream::checkCompressionLevel`. -/
def checkCompressionLevel (z : Zlib σ) (fuel : Nat) (s : ZlibOutStream σ) : Outcome σ :=
  if s.newLevel ≠ s.compressionLevel then
    let d := deflate z fuel s Z_SYNC_FLUSH
    match d.halt with
    | some _ => d
    | none => changeLevel z d.st
  else ⟨s, none⟩

/-- Lines 91–92 of `flush`: `zs->next_in = start; zs->avail_in = ptr - start`. -/
def flushInput (s : ZlibOutStream σ) : ZlibOutStream σ :=
  { s with zs := { s.zs with next_in := 0, avail_in := s.ptr } }

/-- The flush mode of line 99: `corked ? Z_NO_FLUSH : Z_SYNC_FLUSH`. -/
def flushMode (s : ZlibOutStream σ) : Int :=
  if s.corked then Z_NO_FLUSH else Z_SYNC_FLUSH

/-- Lines 101–110 of `flush`: when zlib took everything, the cursor goes back to
`start`; otherwise what is left (`next_in .. ptr`) is moved to `start`. -/
def flushShift (s2 : ZlibOutStream σ) : ZlibOutStream σ :=
  if s2.zs.avail_in = 0 then
    { s2 with offset := s2.offset + s2.ptr, ptr := 0 }
  else
    { s2 with buf := memmove s2.buf 0 s2.zs.next_in (s2.ptr - s2.zs.next_in),
              offset := s2.offset + s2.zs.next_in,
              ptr := s2.ptr - s2.zs.next_in }

/-- The method `ZlibOutStream::flush`. -/
def flush (z : Zlib σ) (fuel : Nat) (s : ZlibOutStream σ) : Outcome σ :=
  let c := checkCompressionLevel z fuel s
  match c.halt with
  | some _ => c
  | none =>
    let d := deflate z fuel (flushInput c.st) (flushMode c.st)
    match d.halt with
    | some _ => d
    | none => ⟨flushShift d.st, none⟩

/-- The method `ZlibOutStream::cork`: the base class records the flag, then the
underlying stream is corked too.  With no underlying stream the second step
dereferences a null pointer (`Halt.nullUnderlying`). -/
def cork (s : ZlibOutStream σ) (enable : Bool) : Outcome σ :=
  let s1 : ZlibOutStream σ := { s with corked := enable }
  match s1.underlying with
  | none => ⟨s1, some .nullUnderlying⟩
  | some os =>
    ⟨{ s1 with underlying := some (os.cork enable), log := s1.log ++ [.cork enable] }, none⟩

/-- The `while (avail() < needed)` loop of `ZlibOutStream::overrun`, run for at
most the given number of iterations; `fuel` bounds the loops inside `flush`. -/
def overrunLoop (z : Zlib σ) (fuel : Nat) (needed : Nat) :
    Nat → ZlibOutStream σ → Outcome σ
  | 0, s => if avail s < needed then ⟨s, some .fuel⟩ else ⟨s, none⟩
  | n + 1, s =>
    if avail s < needed then
      let f := flush z fuel { s with corked := true }
      match f.halt with
      | some _ => f
      | none => overrunLoop z fuel needed n { f.st with corked := false }
    else ⟨s, none⟩

/-- The method `ZlibOutStream::overrun(size_t needed)`. -/
def overrun (z : Zlib σ) (fuel : Nat) (s : ZlibOutStream σ) (needed : Nat) : Outcome σ :=
  if needed > s.bufSize then ⟨s, some .bufferSizeExceeded⟩
  else
    let c := checkCompressionLevel z fuel s
    match c.halt with
    | some _ => c
    | none => overrunLoop z fuel needed fuel c.st

/-! ## The producer's side and traces of calls -/

/-- Modelled from the spec: the producer's `reserve(n)` on the stream itself
(`getptr(n)` of the base class, which is not among the sources).  Section 4.1:
a reservation that exceeds the free space runs the overrun protocol. -/
def reserve (z : Zlib σ) (fuel : Nat) (s : ZlibOutStream σ) (n : Nat) : Outcome σ :=
  if n > avail s then overrun z fuel s n else ⟨s, none⟩

/-- Modelled from the spec: the producer's `commit` of the bytes `bs` it stored
at the cursor (`setptr(n)` of the base class): the cursor advances by exactly
`bs.length`, which must not exceed the free space. -/
def commit (s : ZlibOutStream σ) (bs : List U8) : Outcome σ :=
  if bs.length ≤ avail s then
    ⟨{ s with buf := writeMem s.buf s.ptr bs, ptr := s.ptr + bs.length }, none⟩
  else ⟨s, some .commitTooLarge⟩

/-- A producer write of one chunk: reserve its length, store it, commit it. -/
def write (z : Zlib σ) (fuel : Nat) (s : ZlibOutStream σ) (bs : List U8) : Outcome σ :=
  let r := reserve z fuel s bs.length
  match r.halt with
  | some _ => r
  | none => commit r.st bs

/-- The calls a producer can make on the stream. -/
inductive Op where
  | write (bs : List U8)
  | flush
  | overrun (needed : Nat)
  | cork (enable : Bool)
  | setCompressionLevel (level : Int)
  | setUnderlying (os : Option OutStream)

/-- One producer call. -/
def step (z : Zlib σ) (fuel : Nat) (s : ZlibOutStream σ) : Op → Outcome σ
  | .write bs => write z fuel s bs
  | .flush => flush z fuel s
  | .overrun needed => overrun z fuel s needed
  | .cork enable => cork s enable
  | .setCompressionLevel level => ⟨setCompressionLevel s level, none⟩
  | .setUnderlying os => ⟨setUnderlying s os, none⟩

/-- A sequence of producer calls; it ends at the first call that does not return. -/
def run (z : Zlib σ) (fuel : Nat) : ZlibOutStream σ → List Op → Outcome σ
  | s, [] => ⟨s, none⟩
  | s, op :: ops =>
    let r := step z fuel s op
    match r.halt with
    | some _ => r
    | none => run z fuel r.st ops

/-- The bytes the producer writes in a sequence of calls, in order. -/
def written : List Op → List U8
  | [] => []
  | .write bs :: ops => bs ++ written ops
  | _ :: ops => written ops

/-- The bytes the stream still holds: `start .. ptr`. -/
def buffered (s : ZlibOutStream σ) : List U8 := readMem s.buf 0 s.ptr

/-! ## A small stand-in for zlib, for the examples -/

/-- A stand-in library that stores bytes unchanged.  Its state is the input it
has taken but not yet put out.  With `Z_NO_FLUSH` it takes at most `lim` bytes
a call (all of them when `lim = none`) and holds them back; with any other
flush mode it takes all the input and puts out as much as fits, and it answers
`Z_BUF_ERROR` when it has nothing to put out. -/
def storeZ (lim : Option Nat) : Zlib (List U8) where
  deflateInit := fun _ => (Z_OK, [])
  deflate := fun pend inp ao fl =>
    if fl = Z_NO_FLUSH then
      let k := match lim with
        | some l => min l inp.length
        | none => inp.length
      ⟨Z_OK, k, [], pend ++ inp.take k⟩
    else if pend ++ inp = [] then ⟨Z_BUF_ERROR, 0, [], []⟩
    else ⟨Z_OK, inp.length, (pend ++ inp).take ao, (pend ++ inp).drop ao⟩
  deflateParams := fun pend _ _ _ _ => ⟨Z_OK, 0, [], pend⟩

/-- A sink with room for eight bytes, its buffer zeroed, and nothing sent yet. -/
def sink8 : OutStream :=
  { sent := [], bufSize := 8, ptr := 0, corked := false, buf := fun _ => 0 }

/-- A stream of four bytes capacity holding `7, 9`, with `sink8` underneath. -/
def demo (corked : Bool) (level newLevel : Int) : ZlibOutStream (List U8) :=
  { underlying := some sink8, compressionLevel := level, newLevel := newLevel,
    bufSize := 4, offset := 10,
    zs := { next_in := 0, avail_in := 0, next_out := 0, avail_out := 0, state := [],
            total_in := [], total_out := [] },
    buf := fun i => if i = 0 then 7 else if i = 1 then 9 else 0,
    ptr := 2, corked := corked, log := [] }

/-- A corked stream with nothing buffered and no underlying stream. -/
def demoUnbound : ZlibOutStream (List U8) :=
  { demo true 6 6 with underlying := none, ptr := 0 }

/-- The stream the constructor builds over `sink8` at level 6, the block zeroed. -/
def freshStream : ZlibOutStream (List U8) :=
  { underlying := some sink8, compressionLevel := 6, newLevel := 6,
    bufSize := DEFAULT_BUF_SIZE, offset := 0,
    zs := { next_in := 0, avail_in := 0, next_out := 0, avail_out := 0, state := [],
            total_in := [], total_out := [] },
    buf := fun _ => 0, ptr := 0, corked := false, log := [] }

/-- The producer corks a new stream, writes `7, 9`, flushes — zlib takes one byte
of the two — and then asks for level 1. -/
def shortDrainOps : List Op :=
  [.cork true, .write [7, 9], .flush, .setCompressionLevel 1]

/-- The state `shortDrainOps` leads to when zlib takes one byte a call. -/
def shortDrained : ZlibOutStream (List U8) :=
  (run (storeZ (some 1)) 5 freshStream shortDrainOps).st

/-- A stream built with no underlying stream holds `7, 9`; its `flush()` throws
(no underlying stream), after which the caller sets `sink8` as the underlying
stream and asks for level 1.  The library takes all the input it is given. -/
def reboundAfterThrow : ZlibOutStream (List U8) :=
  setCompressionLevel
    (setUnderlying
      (flush (storeZ none) 5
        (run (storeZ none) 5 { freshStream with underlying := none } [.write [7, 9]]).st).st
      (some sink8))
    1

/-- A new stream that was corked and then given the two bytes `7, 9`. -/
def corkedTwo : ZlibOutStream (List U8) :=
  (run (storeZ (some 1)) 5 freshStream [.cork true, .write [7, 9]]).st

/-! ## What is asked of zlib for the round trip -/

/-- zlib's documented behaviour on input: when `deflate` returns with room left
in the output it has taken all the input it was given, and it answers
`Z_BUF_ERROR` (no progress possible) to a call with output room only when there
was no input. -/
structure Zlib.Greedy (z : Zlib σ) : Prop where
  takes_all : ∀ st inp ao fl, 0 ≤ (z.deflate st inp ao fl).rc →
    (z.deflate st inp ao fl).out.length < ao → (z.deflate st inp ao fl).nin = inp.length
  refuses_empty : ∀ st inp ao fl, (z.deflate st inp ao fl).rc = Z_BUF_ERROR → 0 < ao →
    inp = []

/-- Modelled from the spec: the compressor is "an external, already-correct
streaming compression algorithm" (section 1), with `dec` as its decompressor.
`J st fed out` relates zlib's state to all the input taken (`fed`) and all the
output delivered (`out`) so far.  It holds at the start, every successful
`deflate` extends it, and a refused call on an empty input window keeps it.
When a sync flush completes — it returns with output room left, or it is
refused although it had output room, because nothing is left to flush — the
output decompresses to the input.  A level change keeps the relation when it is
made on an empty input window with nothing held back, that is, when the output
delivered decompresses to the input taken.  Nothing is asked of a call that is
refused for lack of output room, nor of a level change while zlib holds input
back. -/
structure Zlib.Lossless (z : Zlib σ) (dec : List U8 → List U8)
    (J : σ → List U8 → List U8 → Prop) : Prop where
  init : ∀ lv, (z.deflateInit lv).1 = Z_OK → J (z.deflateInit lv).2 [] []
  deflate_ok : ∀ st fed out inp ao fl, J st fed out → 0 ≤ (z.deflate st inp ao fl).rc →
    J (z.deflate st inp ao fl).state (fed ++ inp.take (z.deflate st inp ao fl).nin)
      (out ++ (z.deflate st inp ao fl).out)
  deflate_refused : ∀ st fed out ao fl, J st fed out →
    (z.deflate st [] ao fl).rc = Z_BUF_ERROR → J (z.deflate st [] ao fl).state fed out
  params : ∀ st fed out ao lv sg, J st fed out → dec out = fed →
    ¬ ((z.deflateParams st [] ao lv sg).rc < 0 ∧ (z.deflateParams st [] ao lv sg).rc ≠ Z_BUF_ERROR) →
    J (z.deflateParams st [] ao lv sg).state fed out
  flushed : ∀ st fed out inp ao, J st fed out →
    0 ≤ (z.deflate st inp ao Z_SYNC_FLUSH).rc →
    (z.deflate st inp ao Z_SYNC_FLUSH).out.length < ao →
    dec (out ++ (z.deflate st inp ao Z_SYNC_FLUSH).out) = fed ++ inp
  nothing_to_flush : ∀ st fed out ao, J st fed out → 0 < ao →
    (z.deflate st [] ao Z_SYNC_FLUSH).rc = Z_BUF_ERROR → dec out = fed

/-- The stream and zlib agree with the producer: an underlying stream is set,
its buffer is smaller than `2^32` bytes, zlib's input window is empty, zlib's
state accounts for the input taken and the bytes sent, and the input taken
followed by the buffered bytes is `W`. -/
def Linked (J : σ → List U8 → List U8 → Prop) (W : List U8) (s : ZlibOutStream σ) : Prop :=
  ∃ os, s.underlying = some os ∧ os.bufSize < UINT_RANGE ∧ s.zs.avail_in = 0 ∧
    J s.zs.state s.zs.total_in os.sent ∧ s.zs.total_in ++ buffered s = W

/-- Whether a producer call sets the underlying stream anew. -/
def Op.rebinds : Op → Bool
  | .setUnderlying _ => true
  | _ => false

/-- The decompressor that goes with `storeZ`: the bytes are stored unchanged. -/
def storeDec (bs : List U8) : List U8 := bs

/-- The relation between the state of `storeZ`, its input and its output. -/
def storeJ (pend fed out : List U8) : Prop := out ++ pend = fed

/-- A producer session: two writes, one of them corked, a level change, a
corked flush, an overrun for the whole capacity, and the uncork. -/
def sessionOps : List Op :=
  [.write [7, 9], .cork true, .write [1], .setCompressionLevel 3, .flush, .write [4],
   .overrun 16384, .cork false]

/-- A stand-in library that takes one byte in its first call and answers every
later call with `Z_BUF_ERROR`.  Its state is empty until the first call. -/
def onceZ : Zlib (List U8) where
  deflateInit := fun _ => (Z_OK, [])
  deflate := fun st inp _ _ =>
    if st = [] then ⟨Z_OK, min 1 inp.length, [], [1]⟩ else ⟨Z_BUF_ERROR, 0, [], st⟩
  deflateParams := fun st _ _ _ _ => ⟨Z_OK, 0, [], st⟩

/-! ## Names for the later properties -/

/-- What `deflateParams` answers in `checkCompressionLevel`, given that the sync
flush before it has run: the call of line 194 on the `z_stream` that flush left. -/
def levelChangeReply (z : Zlib σ) (fuel : Nat) (s : ZlibOutStream σ) : ZRet σ :=
  z.deflateParams (deflate z fuel s Z_SYNC_FLUSH).st.zs.state
    (readMem (deflate z fuel s Z_SYNC_FLUSH).st.buf
      (deflate z fuel s Z_SYNC_FLUSH).st.zs.next_in
      (deflate z fuel s Z_SYNC_FLUSH).st.zs.avail_in)
    (deflate z fuel s Z_SYNC_FLUSH).st.zs.avail_out
    (deflate z fuel s Z_SYNC_FLUSH).st.newLevel Z_DEFAULT_STRATEGY

/-- The stand-in `storeZ none` with a `deflateParams` that answers `rc`. -/
def paramsZ (rc : Int) : Zlib (List U8) :=
  { storeZ none with deflateParams := fun pend _ _ _ _ => ⟨rc, 0, [], pend⟩ }

/-- The flush modes of the `deflate` calls in a list of calls, in order. -/
def deflateModes : List Call → List Int
  | [] => []
  | .deflate fl _ _ _ _ _ :: l => fl :: deflateModes l
  | _ :: l => deflateModes l

/-- The number of `deflateParams` calls in a list of calls. -/
def paramsCalls : List Call → Nat
  | [] => 0
  | .deflateParams _ _ _ _ _ :: l => paramsCalls l + 1
  | _ :: l => paramsCalls l

/-- The sum of the amounts passed to the sink's `setptr` in a list of calls. -/
def committed : List Call → Nat
  | [] => 0
  | .setptr n :: l => n + committed l
  | _ :: l => committed l

/-- The number of bytes zlib stored at `next_out` over the `deflate` calls in a
list of calls. -/
def produced : List Call → Nat
  | [] => 0
  | .deflate _ _ _ _ _ nout :: l => nout + produced l
  | _ :: l => produced l

/-- The calls made on the way from state `s` to state `t`: what `t.log` has
beyond `s.log`. -/
def callsSince (s t : ZlibOutStream σ) : List Call := t.log.drop s.log.length

/-- Every `deflate` call in the list was made with flush mode `fl`. -/
def onlyMode (fl : Int) (l : List Call) : Prop := ∀ m ∈ deflateModes l, m = fl

/-- The calls of a drain: the log only grows, every `deflate` call has the mode
of the drain, and there is no `deflateParams` call. -/
def DrainOnly (fl : Int) (s t : ZlibOutStream σ) : Prop :=
  ∃ added, t.log = s.log ++ added ∧ onlyMode fl added ∧ paramsCalls added = 0

/-- zlib's meaning of `Z_BUF_ERROR` ("no progress was possible"): a `deflate`
call answered with it has stored nothing at `next_out`. -/
structure Zlib.Stalls (z : Zlib σ) : Prop where
  no_output : ∀ st inp ao fl, (z.deflate st inp ao fl).rc = Z_BUF_ERROR →
    (z.deflate st inp ao fl).out = []

/-- The calls of one `deflate(flush)` invocation that returns, step by step.
Each step asks the sink for a region (`getptr(1)`, of `chunk` bytes) and calls
zlib's `deflate` on it.
* `last`: zlib stored `nout < chunk` bytes; `nout` bytes are committed and the
  loop ends.
* `refused`: zlib answered `Z_BUF_ERROR` to a forced flush, storing nothing;
  nothing is committed and the loop ends.
* `more`: zlib filled the region (`nout = chunk`); `chunk` bytes are committed
  and further steps follow. -/
inductive DrainSteps (fl : Int) : List Call → Prop
  | last (ai chunk : Nat) (rc : Int) (nin nout : Nat) : 0 ≤ rc → nout < chunk →
      DrainSteps fl [.getptr 1, .deflate fl ai chunk rc nin nout, .setptr nout]
  | refused (ai chunk nin : Nat) : fl ≠ Z_NO_FLUSH → 0 < chunk →
      DrainSteps fl [.getptr 1, .deflate fl ai chunk Z_BUF_ERROR nin 0]
  | more (ai chunk : Nat) (rc : Int) (nin : Nat) (rest : List Call) : 0 ≤ rc →
      DrainSteps fl rest →
      DrainSteps fl (.getptr 1 :: .deflate fl ai chunk rc nin chunk :: .setptr chunk :: rest)

/-- A sink with room for a single byte, its buffer zeroed. -/
def sink1 : OutStream :=
  { sent := [], bufSize := 1, ptr := 0, corked := false, buf := fun _ => 0 }

/-- The premise of overrun convergence, for the first `n` rounds of the loop of
`overrun(needed)` from state `s`: as long as the loop goes on, its drain
(`flush()` with `corked` set) returns and leaves the cursor lower than it was,
that is, zlib took at least one byte. -/
def drainsProgress (z : Zlib σ) (fuel needed : Nat) : Nat → ZlibOutStream σ → Bool
  | 0, _ => true
  | n + 1, s =>
    if avail s < needed then
      (flush z fuel { s with corked := true }).halt.isNone &&
      decide ((flush z fuel { s with corked := true }).st.ptr < s.ptr) &&
      drainsProgress z fuel needed n
        { (flush z fuel { s with corked := true }).st with corked := false }
    else true

/-- The producer corks a new stream, writes `7, 9` and reserves the whole
capacity, which overruns. -/
def corkedOverrunOps : List Op := [.cork true, .write [7, 9], .overrun 16384]

/-- The two-byte stream `demo`, uncorked, over the one-byte sink, with zlib's
input window set to the buffer. -/
def demoNarrow : ZlibOutStream (List U8) :=
  flushInput { demo false 6 6 with underlying := some sink1 }

/-- A stand-in library that ends every forced flush with the marker byte `0`,
so that it answers a repeated forced flush with success.  Its state is the
output it has not yet put out; with `Z_NO_FLUSH` it takes all the input and
holds it back. -/
def markZ : Zlib (List U8) where
  deflateInit := fun _ => (Z_OK, [])
  deflate := fun pend inp ao fl =>
    if fl = Z_NO_FLUSH then ⟨Z_OK, inp.length, [], pend ++ inp⟩
    else ⟨Z_OK, inp.length, (pend ++ inp ++ [0]).take ao, (pend ++ inp ++ [0]).drop ao⟩
  deflateParams := fun pend _ _ _ _ => ⟨Z_OK, 0, [], pend⟩

/-- A sink whose buffer, zeroed and empty, has room for `2^32 + 8` bytes. -/
def sinkWide : OutStream :=
  { sent := [], bufSize := 4294967304, ptr := 0, corked := false, buf := fun _ => 0 }

/-- The stream the constructor builds over `sinkWide` at level 6, the block
zeroed. -/
def freshWide : ZlibOutStream (List U8) :=
  { freshStream with underlying := some sinkWide }

/-- A stand-in library that stores bytes unchanged and follows zlib.h where
`storeZ` does not.  Its state is the input it has taken but not yet put out.
With no output room it answers `Z_BUF_ERROR` and takes nothing; with
`Z_NO_FLUSH` it takes all the input and holds it back; with any other flush
mode it takes all the input and puts out as much as fits, and it answers
`Z_BUF_ERROR` when it has nothing to put out.  Its `deflateParams` puts out
what is held back, as far as it fits (the implicit flush of a parameter
change). -/
def heldZ : Zlib (List U8) where
  deflateInit := fun _ => (Z_OK, [])
  deflate := fun pend inp ao fl =>
    if ao = 0 then ⟨Z_BUF_ERROR, 0, [], pend⟩
    else if fl = Z_NO_FLUSH then ⟨Z_OK, inp.length, [], pend ++ inp⟩
    else if pend ++ inp = [] then ⟨Z_BUF_ERROR, 0, [], []⟩
    else ⟨Z_OK, inp.length, (pend ++ inp).take ao, (pend ++ inp).drop ao⟩
  deflateParams := fun pend _ ao _ _ => ⟨Z_OK, 0, pend.take ao, pend.drop ao⟩

/-! ## Frame facts: what the drain leaves alone -/

/-- The members that neither zlib nor the underlying stream can touch. -/
def SameBuffer (s t : ZlibOutStream σ) : Prop :=
  t.ptr = s.ptr ∧ t.offset = s.offset ∧ t.buf = s.buf ∧ t.newLevel = s.newLevel ∧
  t.bufSize = s.bufSize ∧ t.corked = s.corked

theorem SameBuffer.rfl_ (s : ZlibOutStream σ) : SameBuffer s s :=
  ⟨rfl, rfl, rfl, rfl, rfl, rfl⟩

theorem SameBuffer.trans_ {s t u : ZlibOutStream σ} (h1 : SameBuffer s t)
    (h2 : SameBuffer t u) : SameBuffer s u := by
  unfold SameBuffer at h1 h2 ⊢
  refine ⟨?_, ?_, ?_, ?_, ?_, ?_⟩
  · rw [h2.1, h1.1]
  · rw [h2.2.1, h1.2.1]
  · rw [h2.2.2.1, h1.2.2.1]
  · rw [h2.2.2.2.1, h1.2.2.2.1]
  · rw [h2.2.2.2.2.1, h1.2.2.2.2.1]
  · rw [h2.2.2.2.2.2, h1.2.2.2.2.2]

theorem readMem_length (buf : Nat → U8) (pos n : Nat) : (readMem buf pos n).length = n := by
  simp [readMem]

theorem afterDeflate_frame (z : Zlib σ) (fl : Int) (os1 : OutStream) (s : ZlibOutStream σ) :
    SameBuffer s (afterDeflate z fl os1 s) ∧
    (afterDeflate z fl os1 s).compressionLevel = s.compressionLevel :=
  ⟨⟨rfl, rfl, rfl, rfl, rfl, rfl⟩, rfl⟩

theorem afterSetptr_frame (z : Zlib σ) (fl : Int) (os1 : OutStream) (s : ZlibOutStream σ) :
    SameBuffer s (afterSetptr z fl os1 s) ∧
    (afterSetptr z fl os1 s).compressionLevel = s.compressionLevel ∧
    (afterSetptr z fl os1 s).zs = (afterDeflate z fl os1 s).zs :=
  ⟨⟨rfl, rfl, rfl, rfl, rfl, rfl⟩, rfl, rfl⟩

theorem deflateLoop_frame (z : Zlib σ) (fl : Int) (fuel : Nat) (os : OutStream)
    (s : ZlibOutStream σ) :
    SameBuffer s (deflateLoop z fl fuel os s).st ∧
    (deflateLoop z fl fuel os s).st.compressionLevel = s.compressionLevel ∧
    (∃ os1, (deflateLoop z fl fuel os s).st.underlying = some os1) := by
  induction fuel generalizing os s with
  | zero => exact ⟨⟨rfl, rfl, rfl, rfl, rfl, rfl⟩, rfl, os, rfl⟩
  | succ n ih =>
    unfold deflateLoop
    split
    · exact ⟨⟨rfl, rfl, rfl, rfl, rfl, rfl⟩, rfl, os, rfl⟩
    · rename_i os1 _
      split
      · split
        · exact ⟨⟨rfl, rfl, rfl, rfl, rfl, rfl⟩, rfl, _, rfl⟩
        · exact ⟨⟨rfl, rfl, rfl, rfl, rfl, rfl⟩, rfl, _, rfl⟩
      · split
        · refine ⟨SameBuffer.trans_ ?_ (ih _ _).1, (ih _ _).2.1.trans rfl, (ih _ _).2.2⟩
          exact ⟨rfl, rfl, rfl, rfl, rfl, rfl⟩
        · exact ⟨⟨rfl, rfl, rfl, rfl, rfl, rfl⟩, rfl, _, rfl⟩

theorem readMem_add (buf : Nat → U8) (pos a b : Nat) :
    readMem buf pos (a + b) = readMem buf pos a ++ readMem buf (pos + a) b := by
  simp only [readMem, List.range_add, List.map_append, List.map_map]
  congr 1
  apply List.map_congr_left
  intro i _
  simp [Nat.add_assoc]

theorem readMem_take (buf : Nat → U8) (pos n k : Nat) (h : k ≤ n) :
    (readMem buf pos n).take k = readMem buf pos k := by
  obtain ⟨d, rfl⟩ := Nat.exists_eq_add_of_le h
  rw [readMem_add, List.take_left']
  exact readMem_length _ _ _

theorem readMem_drop (buf : Nat → U8) (pos n k : Nat) (h : k ≤ n) :
    (readMem buf pos n).drop k = readMem buf (pos + k) (n - k) := by
  obtain ⟨d, rfl⟩ := Nat.exists_eq_add_of_le h
  rw [readMem_add, List.drop_left']
  · simp
  · exact readMem_length _ _ _

/-- Under the calling convention one call of zlib moves `next_in` forward inside
the window it was given, and `total_in` grows by exactly the bytes passed over. -/
theorem afterDeflate_window (z : Zlib σ) (hz : z.Sane) (fl : Int) (os1 : OutStream)
    (s : ZlibOutStream σ) :
    (afterDeflate z fl os1 s).zs.next_in + (afterDeflate z fl os1 s).zs.avail_in
      = s.zs.next_in + s.zs.avail_in ∧
    s.zs.next_in ≤ (afterDeflate z fl os1 s).zs.next_in ∧
    (afterDeflate z fl os1 s).zs.total_in
      = s.zs.total_in ++
        readMem s.buf s.zs.next_in ((afterDeflate z fl os1 s).zs.next_in - s.zs.next_in) := by
  have hn := hz.deflate_nin s.zs.state (readMem s.buf s.zs.next_in s.zs.avail_in)
    (os1.avail % UINT_RANGE) fl
  simp only [readMem_length] at hn
  unfold afterDeflate deflateReply
  dsimp only
  refine ⟨by omega, by omega, ?_⟩
  rw [readMem_take _ _ _ _ hn, Nat.add_sub_cancel_left]

/-- Under the calling convention the drain loop moves `next_in` forward inside
the window it was given, and `total_in` grows by exactly the bytes passed over. -/
theorem deflateLoop_window (z : Zlib σ) (hz : z.Sane) (fl : Int) (fuel : Nat)
    (os : OutStream) (s : ZlibOutStream σ) :
    (deflateLoop z fl fuel os s).st.zs.next_in + (deflateLoop z fl fuel os s).st.zs.avail_in
      = s.zs.next_in + s.zs.avail_in ∧
    s.zs.next_in ≤ (deflateLoop z fl fuel os s).st.zs.next_in ∧
    (deflateLoop z fl fuel os s).st.zs.total_in
      = s.zs.total_in ++
        readMem s.buf s.zs.next_in ((deflateLoop z fl fuel os s).st.zs.next_in - s.zs.next_in) := by
  induction fuel generalizing os s with
  | zero => simp [deflateLoop, readMem]
  | succ n ih =>
    unfold deflateLoop
    split
    · simp [readMem]
    · rename_i os1 _
      obtain ⟨a1, a2, a3⟩ := afterDeflate_window z hz fl os1 s
      split
      · split
        · exact ⟨a1, a2, a3⟩
        · exact ⟨a1, a2, a3⟩
      · split
        · obtain ⟨h1, h2, h3⟩ := ih (sinkAfterSetptr z fl os1 s) (afterSetptr z fl os1 s)
          have e1 : (afterSetptr z fl os1 s).zs = (afterDeflate z fl os1 s).zs := rfl
          have e2 : (afterSetptr z fl os1 s).buf = s.buf := rfl
          rw [e1] at h1 h2 h3
          rw [e2] at h3
          refine ⟨h1.trans a1, Nat.le_trans a2 h2, ?_⟩
          rw [h3, a3, List.append_assoc]
          generalize (deflateLoop z fl n _ _).st.zs.next_in = q at h2 ⊢
          generalize (afterDeflate z fl os1 s).zs.next_in = a at a2 h2 ⊢
          rw [show q - s.zs.next_in = (a - s.zs.next_in) + (q - a) by omega, readMem_add,
            show s.zs.next_in + (a - s.zs.next_in) = a by omega]
        · exact ⟨a1, a2, a3⟩

theorem deflate_frame (z : Zlib σ) (fuel : Nat) (s : ZlibOutStream σ) (fl : Int) :
    SameBuffer s (deflate z fuel s fl).st ∧
    (deflate z fuel s fl).st.compressionLevel = s.compressionLevel := by
  unfold deflate
  split
  · exact ⟨SameBuffer.rfl_ s, rfl⟩
  · split
    · exact ⟨SameBuffer.rfl_ s, rfl⟩
    · exact ⟨(deflateLoop_frame z fl fuel _ s).1, (deflateLoop_frame z fl fuel _ s).2.1⟩

theorem deflate_window (z : Zlib σ) (hz : z.Sane) (fuel : Nat) (s : ZlibOutStream σ)
    (fl : Int) :
    (deflate z fuel s fl).st.zs.next_in + (deflate z fuel s fl).st.zs.avail_in
      = s.zs.next_in + s.zs.avail_in ∧
    s.zs.next_in ≤ (deflate z fuel s fl).st.zs.next_in ∧
    (deflate z fuel s fl).st.zs.total_in
      = s.zs.total_in ++
        readMem s.buf s.zs.next_in ((deflate z fuel s fl).st.zs.next_in - s.zs.next_in) := by
  unfold deflate
  split
  · simp [readMem]
  · split
    · simp [readMem]
    · exact deflateLoop_window z hz fl fuel _ s

theorem changeLevel_frame (z : Zlib σ) (s : ZlibOutStream σ) :
    SameBuffer s (changeLevel z s).st ∧
    (∀ os, s.underlying = some os →
      ∃ os1, (changeLevel z s).st.underlying = some os1 ∧ os1.sent = os.sent ∧
        os1.bufSize = os.bufSize ∧ os1.ptr = os.ptr ∧ os1.corked = os.corked) := by
  unfold changeLevel
  dsimp only
  split
  · refine ⟨⟨rfl, rfl, rfl, rfl, rfl, rfl⟩, ?_⟩
    intro os hu
    rw [hu]
    exact ⟨_, rfl, rfl, rfl, rfl, rfl⟩
  · refine ⟨⟨rfl, rfl, rfl, rfl, rfl, rfl⟩, ?_⟩
    intro os hu
    rw [hu]
    exact ⟨_, rfl, rfl, rfl, rfl, rfl⟩

theorem changeLevel_level (z : Zlib σ) (s : ZlibOutStream σ)
    (h : (changeLevel z s).halt = none) :
    (changeLevel z s).st.compressionLevel = s.newLevel := by
  unfold changeLevel at h ⊢
  dsimp only at h ⊢
  split
  · rename_i hbad
    rw [if_pos hbad] at h
    cases h
  · rfl

theorem checkCompressionLevel_eq_of_ne (z : Zlib σ) (fuel : Nat) (s : ZlibOutStream σ)
    (hl : s.newLevel ≠ s.compressionLevel) :
    checkCompressionLevel z fuel s
      = match (deflate z fuel s Z_SYNC_FLUSH).halt with
        | some _ => deflate z fuel s Z_SYNC_FLUSH
        | none => changeLevel z (deflate z fuel s Z_SYNC_FLUSH).st := by
  unfold checkCompressionLevel
  rw [if_pos hl]

theorem checkCompressionLevel_eq_of_eq (z : Zlib σ) (fuel : Nat) (s : ZlibOutStream σ)
    (hl : s.newLevel = s.compressionLevel) :
    checkCompressionLevel z fuel s = ⟨s, none⟩ := by
  unfold checkCompressionLevel
  rw [if_neg (not_not.mpr hl)]

theorem checkCompressionLevel_frame (z : Zlib σ) (fuel : Nat) (s : ZlibOutStream σ) :
    SameBuffer s (checkCompressionLevel z fuel s).st := by
  by_cases hl : s.newLevel = s.compressionLevel
  · rw [checkCompressionLevel_eq_of_eq z fuel s hl]
    exact SameBuffer.rfl_ s
  · rw [checkCompressionLevel_eq_of_ne z fuel s hl]
    split
    · exact (deflate_frame z fuel s _).1
    · exact SameBuffer.trans_ (deflate_frame z fuel s _).1 (changeLevel_frame z _).1

theorem flush_of_check_halt (z : Zlib σ) (fuel : Nat) (s : ZlibOutStream σ) (e : Halt)
    (h : (checkCompressionLevel z fuel s).halt = some e) :
    flush z fuel s = checkCompressionLevel z fuel s := by
  unfold flush
  simp only [h]

theorem flush_of_deflate_halt (z : Zlib σ) (fuel : Nat) (s : ZlibOutStream σ) (e : Halt)
    (h : (checkCompressionLevel z fuel s).halt = none)
    (h2 : (deflate z fuel (flushInput (checkCompressionLevel z fuel s).st)
            (flushMode (checkCompressionLevel z fuel s).st)).halt = some e) :
    flush z fuel s = deflate z fuel (flushInput (checkCompressionLevel z fuel s).st)
            (flushMode (checkCompressionLevel z fuel s).st) := by
  unfold flush
  simp only [h, h2]

theorem flush_of_ok (z : Zlib σ) (fuel : Nat) (s : ZlibOutStream σ)
    (h : (checkCompressionLevel z fuel s).halt = none)
    (h2 : (deflate z fuel (flushInput (checkCompressionLevel z fuel s).st)
            (flushMode (checkCompressionLevel z fuel s).st)).halt = none) :
    flush z fuel s = ⟨flushShift (deflate z fuel (flushInput (checkCompressionLevel z fuel s).st)
            (flushMode (checkCompressionLevel z fuel s).st)).st, none⟩ := by
  unfold flush
  simp only [h, h2]

/-- A flush that returns has passed both the level check and the drain. -/
theorem flush_ok_inv (z : Zlib σ) (fuel : Nat) (s : ZlibOutStream σ)
    (h : (flush z fuel s).halt = none) :
    (checkCompressionLevel z fuel s).halt = none ∧
    (deflate z fuel (flushInput (checkCompressionLevel z fuel s).st)
            (flushMode (checkCompressionLevel z fuel s).st)).halt = none := by
  cases hc : (checkCompressionLevel z fuel s).halt with
  | some e =>
    rw [flush_of_check_halt z fuel s e hc, hc] at h
    cases h
  | none =>
    refine ⟨rfl, ?_⟩
    cases hd : (deflate z fuel (flushInput (checkCompressionLevel z fuel s).st)
            (flushMode (checkCompressionLevel z fuel s).st)).halt with
    | some e =>
      rw [flush_of_deflate_halt z fuel s e hc hd, hd] at h
      cases h
    | none => rfl

/-- The tail of `flush` on a window that lies inside `start .. ptr`. -/
theorem flushShift_spec (t : ZlibOutStream σ) (h : t.zs.next_in + t.zs.avail_in = t.ptr) :
    (flushShift t).offset = t.offset + t.zs.next_in ∧
    (flushShift t).ptr = t.ptr - t.zs.next_in ∧
    (∀ i, i < t.ptr - t.zs.next_in → (flushShift t).buf i = t.buf (t.zs.next_in + i)) := by
  unfold flushShift
  split
  · rename_i h0
    have hp : t.zs.next_in = t.ptr := by omega
    refine ⟨by dsimp only; rw [hp], by dsimp only; omega, ?_⟩
    intro i hi
    omega
  · refine ⟨rfl, rfl, ?_⟩
    intro i hi
    simp [memmove, hi]

theorem flushShift_frame (t : ZlibOutStream σ) :
    (flushShift t).zs = t.zs ∧ (flushShift t).underlying = t.underlying ∧
    (flushShift t).compressionLevel = t.compressionLevel ∧
    (flushShift t).newLevel = t.newLevel ∧ (flushShift t).bufSize = t.bufSize ∧
    (flushShift t).corked = t.corked ∧ (flushShift t).log = t.log := by
  unfold flushShift
  split <;> exact ⟨rfl, rfl, rfl, rfl, rfl, rfl, rfl⟩

/-- The state after the drain inside `flush`: the block, the cursor and the
offset are as before the call, and zlib has moved `next_in` by what it took. -/
theorem flush_drain (z : Zlib σ) (hz : z.Sane) (fuel : Nat) (s : ZlibOutStream σ) :
    SameBuffer s (deflate z fuel (flushInput (checkCompressionLevel z fuel s).st)
            (flushMode (checkCompressionLevel z fuel s).st)).st ∧
    (deflate z fuel (flushInput (checkCompressionLevel z fuel s).st)
        (flushMode (checkCompressionLevel z fuel s).st)).st.zs.next_in +
      (deflate z fuel (flushInput (checkCompressionLevel z fuel s).st)
        (flushMode (checkCompressionLevel z fuel s).st)).st.zs.avail_in = s.ptr ∧
    (deflate z fuel (flushInput (checkCompressionLevel z fuel s).st)
        (flushMode (checkCompressionLevel z fuel s).st)).st.zs.total_in
      = (checkCompressionLevel z fuel s).st.zs.total_in ++
        readMem s.buf 0 (deflate z fuel (flushInput (checkCompressionLevel z fuel s).st)
          (flushMode (checkCompressionLevel z fuel s).st)).st.zs.next_in := by
  have hc := checkCompressionLevel_frame z fuel s
  have hi : SameBuffer (checkCompressionLevel z fuel s).st
      (flushInput (checkCompressionLevel z fuel s).st) := ⟨rfl, rfl, rfl, rfl, rfl, rfl⟩
  have hd := deflate_frame z fuel (flushInput (checkCompressionLevel z fuel s).st)
    (flushMode (checkCompressionLevel z fuel s).st)
  obtain ⟨w1, -, w3⟩ := deflate_window z hz fuel (flushInput (checkCompressionLevel z fuel s).st)
    (flushMode (checkCompressionLevel z fuel s).st)
  have e1 : (flushInput (checkCompressionLevel z fuel s).st).zs.next_in = 0 := rfl
  have e2 : (flushInput (checkCompressionLevel z fuel s).st).zs.avail_in = s.ptr := hc.1
  have e3 : (flushInput (checkCompressionLevel z fuel s).st).buf = s.buf := hc.2.2.1
  have e4 : (flushInput (checkCompressionLevel z fuel s).st).zs.total_in
      = (checkCompressionLevel z fuel s).st.zs.total_in := rfl
  refine ⟨SameBuffer.trans_ hc (SameBuffer.trans_ hi hd.1), ?_, ?_⟩
  · rw [w1, e1, e2, Nat.zero_add]
  · rw [w3, e1, e3, e4, Nat.sub_zero]

/-- Whether it returns or throws, `flush` keeps `length()`. -/
theorem flush_length (z : Zlib σ) (hz : z.Sane) (fuel : Nat) (s : ZlibOutStream σ) :
    length (flush z fuel s).st = length s := by
  cases hc : (checkCompressionLevel z fuel s).halt with
  | some e =>
    rw [flush_of_check_halt z fuel s e hc]
    obtain ⟨a1, a2, -⟩ := checkCompressionLevel_frame z fuel s
    simp [length, a1, a2]
  | none =>
    obtain ⟨⟨a1, a2, -⟩, w, -⟩ := flush_drain z hz fuel s
    cases hd : (deflate z fuel (flushInput (checkCompressionLevel z fuel s).st)
            (flushMode (checkCompressionLevel z fuel s).st)).halt with
    | some e =>
      rw [flush_of_deflate_halt z fuel s e hc hd]
      simp [length, a1, a2]
    | none =>
      rw [flush_of_ok z fuel s hc hd]
      rw [← a1] at w
      obtain ⟨b1, b2, -⟩ := flushShift_spec _ w
      simp only [length, b1, b2, a1, a2]
      rw [a1] at w
      omega

theorem overrunLoop_length (z : Zlib σ) (hz : z.Sane) (fuel needed n : Nat)
    (s : ZlibOutStream σ) :
    length (overrunLoop z fuel needed n s).st = length s := by
  induction n generalizing s with
  | zero =>
    unfold overrunLoop
    split <;> rfl
  | succ n ih =>
    unfold overrunLoop
    split
    · dsimp only
      split
      · exact flush_length z hz fuel _
      · rw [ih]
        exact flush_length z hz fuel _
    · rfl

/-- Whether it returns or throws, `overrun` keeps `length()`. -/
theorem overrun_length (z : Zlib σ) (hz : z.Sane) (fuel : Nat) (s : ZlibOutStream σ)
    (needed : Nat) : length (overrun z fuel s needed).st = length s := by
  have hc : length (checkCompressionLevel z fuel s).st = length s := by
    obtain ⟨a1, a2, -⟩ := checkCompressionLevel_frame z fuel s
    simp [length, a1, a2]
  unfold overrun
  split
  · rfl
  · dsimp only
    split
    · exact hc
    · rw [overrunLoop_length z hz, hc]

theorem step_length (z : Zlib σ) (hz : z.Sane) (fuel : Nat) (s : ZlibOutStream σ) (op : Op)
    (h : (step z fuel s op).halt = none) :
    length (step z fuel s op).st = length s + (written [op]).length := by
  cases op with
  | write bs =>
    have hr : length (reserve z fuel s bs.length).st = length s := by
      unfold reserve
      split
      · exact overrun_length z hz fuel s _
      · rfl
    simp only [step, write] at h ⊢
    cases he : (reserve z fuel s bs.length).halt with
    | some e =>
      simp only [he] at h
      cases h
    | none =>
      simp only [he] at h ⊢
      unfold commit at h ⊢
      by_cases hle : bs.length ≤ avail (reserve z fuel s bs.length).st
      · simp only [hle, if_true, length, written, List.append_nil] at hr ⊢
        omega
      · simp only [hle, if_false] at h
        cases h
  | flush => simpa [step, written] using flush_length z hz fuel s
  | overrun needed => simpa [step, written] using overrun_length z hz fuel s needed
  | cork enable =>
    simp only [step, cork, written]
    split <;> rfl
  | setCompressionLevel level => rfl
  | setUnderlying os => rfl

theorem written_cons (op : Op) (ops : List Op) :
    written (op :: ops) = written [op] ++ written ops := by
  cases op <;> simp [written]

/-- After a sequence of calls that all return, `length()` has grown by the
number of bytes written. -/
theorem run_length (z : Zlib σ) (hz : z.Sane) (fuel : Nat) (ops : List Op)
    (s : ZlibOutStream σ) (h : (run z fuel s ops).halt = none) :
    length (run z fuel s ops).st = length s + (written ops).length := by
  induction ops generalizing s with
  | nil => simp [run, written]
  | cons op ops ih =>
    unfold run at h ⊢
    dsimp only at h ⊢
    cases he : (step z fuel s op).halt with
    | some e =>
      simp only [he] at h
      cases h
    | none =>
      simp only [he] at h ⊢
      rw [ih _ h, step_length z hz fuel s op he, written_cons op ops, List.length_append]
      omega

/-! ## Levels -/

theorem checkCompressionLevel_level (z : Zlib σ) (fuel : Nat) (s : ZlibOutStream σ)
    (h : (checkCompressionLevel z fuel s).halt = none) :
    (checkCompressionLevel z fuel s).st.compressionLevel = s.newLevel := by
  by_cases hl : s.newLevel = s.compressionLevel
  · rw [checkCompressionLevel_eq_of_eq z fuel s hl]
    exact hl.symm
  · rw [checkCompressionLevel_eq_of_ne z fuel s hl] at h ⊢
    cases hd : (deflate z fuel s Z_SYNC_FLUSH).halt with
    | some e =>
      simp only [hd] at h
      cases h
    | none =>
      simp only [hd] at h ⊢
      rw [changeLevel_level z _ h]
      exact (deflate_frame z fuel s _).1.2.2.2.1

theorem flush_level (z : Zlib σ) (fuel : Nat) (s : ZlibOutStream σ)
    (h : (flush z fuel s).halt = none) :
    (flush z fuel s).st.compressionLevel = s.newLevel ∧
    (flush z fuel s).st.newLevel = s.newLevel := by
  obtain ⟨hc, hd⟩ := flush_ok_inv z fuel s h
  rw [flush_of_ok z fuel s hc hd]
  obtain ⟨-, -, f3, f4, -⟩ := flushShift_frame (deflate z fuel
    (flushInput (checkCompressionLevel z fuel s).st)
    (flushMode (checkCompressionLevel z fuel s).st)).st
  obtain ⟨⟨-, -, -, d4, -, -⟩, d7⟩ := deflate_frame z fuel
    (flushInput (checkCompressionLevel z fuel s).st)
    (flushMode (checkCompressionLevel z fuel s).st)
  obtain ⟨-, -, -, c4, -, -⟩ := checkCompressionLevel_frame z fuel s
  dsimp only
  refine ⟨?_, ?_⟩
  · rw [f3, d7]
    exact checkCompressionLevel_level z fuel s hc
  · rw [f4, d4]
    exact c4

theorem overrunLoop_level (z : Zlib σ) (fuel needed n : Nat) (s : ZlibOutStream σ)
    (hs : s.compressionLevel = s.newLevel)
    (h : (overrunLoop z fuel needed n s).halt = none) :
    (overrunLoop z fuel needed n s).st.compressionLevel = s.newLevel ∧
    (overrunLoop z fuel needed n s).st.newLevel = s.newLevel := by
  induction n generalizing s with
  | zero =>
    unfold overrunLoop
    split <;> exact ⟨hs, rfl⟩
  | succ n ih =>
    unfold overrunLoop at h ⊢
    by_cases ha : avail s < needed
    · simp only [ha, if_true] at h ⊢
      cases hf : (flush z fuel { s with corked := true }).halt with
      | some e =>
        simp only [hf] at h
        cases h
      | none =>
        simp only [hf] at h ⊢
        obtain ⟨l1, l2⟩ := flush_level z fuel _ hf
        have := ih { (flush z fuel { s with corked := true }).st with corked := false }
          (l1.trans l2.symm) h
        exact ⟨this.1.trans l2, this.2.trans l2⟩
    · rw [if_neg ha]
      exact ⟨hs, rfl⟩

theorem overrun_level (z : Zlib σ) (fuel : Nat) (s : ZlibOutStream σ) (needed : Nat)
    (h : (overrun z fuel s needed).halt = none) :
    (overrun z fuel s needed).st.compressionLevel = s.newLevel := by
  unfold overrun at h ⊢
  by_cases hn : needed > s.bufSize
  · simp only [hn, if_true] at h
    cases h
  · simp only [hn, if_false] at h ⊢
    cases hc : (checkCompressionLevel z fuel s).halt with
    | some e =>
      simp only [hc] at h
      cases h
    | none =>
      simp only [hc] at h ⊢
      have l1 := checkCompressionLevel_level z fuel s hc
      have l2 := (checkCompressionLevel_frame z fuel s).2.2.2.1
      exact ((overrunLoop_level z fuel needed fuel _ (l1.trans l2.symm) h).1).trans l2

/-! ## Draining with no underlying stream -/

theorem deflate_no_underlying (z : Zlib σ) (fuel : Nat) (s : ZlibOutStream σ) (fl : Int)
    (h : s.underlying = none) : deflate z fuel s fl = ⟨s, some .underlyingNotSet⟩ := by
  unfold deflate
  simp only [h]

theorem checkCompressionLevel_no_underlying (z : Zlib σ) (fuel : Nat) (s : ZlibOutStream σ)
    (h : s.underlying = none) :
    checkCompressionLevel z fuel s
      = ⟨s, if s.newLevel ≠ s.compressionLevel then some .underlyingNotSet else none⟩ := by
  by_cases hl : s.newLevel = s.compressionLevel
  · rw [checkCompressionLevel_eq_of_eq z fuel s hl]
    simp only [hl, ne_eq, not_true_eq_false, if_false]
  · rw [checkCompressionLevel_eq_of_ne z fuel s hl, deflate_no_underlying z fuel s _ h]
    simp only [hl, ne_eq, not_false_eq_true, if_true]

theorem flush_no_underlying (z : Zlib σ) (fuel : Nat) (s : ZlibOutStream σ)
    (h : s.underlying = none) :
    flush z fuel s
      = ⟨if s.newLevel ≠ s.compressionLevel then s else flushInput s,
         some .underlyingNotSet⟩ := by
  by_cases hl : s.newLevel ≠ s.compressionLevel
  · have hc : (checkCompressionLevel z fuel s).halt = some .underlyingNotSet := by
      rw [checkCompressionLevel_no_underlying z fuel s h, if_pos hl]
    rw [flush_of_check_halt z fuel s _ hc, checkCompressionLevel_no_underlying z fuel s h,
      if_pos hl, if_pos hl]
  · have hc : checkCompressionLevel z fuel s = ⟨s, none⟩ := by
      rw [checkCompressionLevel_no_underlying z fuel s h, if_neg hl]
    have hu : (flushInput s).underlying = none := h
    have hd := deflate_no_underlying z fuel (flushInput s) (flushMode s) hu
    have hc2 : (checkCompressionLevel z fuel s).halt = none := by rw [hc]
    rw [flush_of_deflate_halt z fuel s .underlyingNotSet hc2 (by rw [hc, hd]), hc, hd, if_neg hl]

/-! ## What a flush takes -/

/-- A flush that returns: with `k` the part of the buffer zlib took in the drain
(`avail_in` is `ptr - k` afterwards), `offset` grows by `k`, the buffer loses
its first `k` bytes, and these are what zlib took after the level check. -/
theorem flush_taken (z : Zlib σ) (hz : z.Sane) (fuel : Nat) (s : ZlibOutStream σ)
    (hret : (flush z fuel s).halt = none) :
    ∃ k, (flush z fuel s).st.zs.avail_in + k = s.ptr ∧
      (flush z fuel s).st.offset = s.offset + k ∧
      (flush z fuel s).st.ptr = s.ptr - k ∧
      buffered (flush z fuel s).st = (buffered s).drop k ∧
      (flush z fuel s).st.zs.total_in
        = (checkCompressionLevel z fuel s).st.zs.total_in ++ (buffered s).take k := by
  obtain ⟨hc, hd⟩ := flush_ok_inv z fuel s hret
  obtain ⟨⟨a1, a2, a3, -, -, -⟩, w, t⟩ := flush_drain z hz fuel s
  rw [flush_of_ok z fuel s hc hd]
  dsimp only
  generalize (deflate z fuel (flushInput (checkCompressionLevel z fuel s).st)
    (flushMode (checkCompressionLevel z fuel s).st)).st = d at a1 a2 a3 w t ⊢
  have hz1 := (flushShift_frame d).1
  rw [hz1]
  rw [← a1] at w
  obtain ⟨b1, b2, b3⟩ := flushShift_spec d w
  refine ⟨d.zs.next_in, by omega, by rw [b1, a2], by rw [b2, a1], ?_, ?_⟩
  · unfold buffered
    rw [readMem_drop _ _ _ _ (by omega), b2, a1, Nat.zero_add]
    unfold readMem
    apply List.map_congr_left
    intro i hi
    rw [List.mem_range] at hi
    rw [Nat.zero_add, b3 i (by rw [a1]; exact hi), a3]
  · unfold buffered
    rw [t, readMem_take _ _ _ _ (by omega)]

theorem changeLevel_clean (z : Zlib σ) (t : ZlibOutStream σ)
    (h0 : t.zs.avail_in = 0) :
    (changeLevel z t).st.zs.total_in = t.zs.total_in ∧
    (changeLevel z t).st.zs.avail_in = 0 := by
  have hin : readMem t.buf t.zs.next_in t.zs.avail_in = [] := by
    rw [h0]
    rfl
  unfold changeLevel
  dsimp only
  rw [hin]
  split
  · dsimp only
    rw [List.take_nil, List.append_nil]
    exact ⟨rfl, by omega⟩
  · dsimp only
    rw [List.take_nil, List.append_nil]
    exact ⟨rfl, by omega⟩

/-- With an empty input window the level check hands zlib no input. -/
theorem checkCompressionLevel_clean (z : Zlib σ) (hz : z.Sane) (fuel : Nat)
    (s : ZlibOutStream σ) (h0 : s.zs.avail_in = 0) :
    (checkCompressionLevel z fuel s).st.zs.total_in = s.zs.total_in ∧
    (checkCompressionLevel z fuel s).st.zs.avail_in = 0 := by
  by_cases hl : s.newLevel = s.compressionLevel
  · rw [checkCompressionLevel_eq_of_eq z fuel s hl]
    exact ⟨rfl, h0⟩
  · rw [checkCompressionLevel_eq_of_ne z fuel s hl]
    obtain ⟨w1, w2, w3⟩ := deflate_window z hz fuel s Z_SYNC_FLUSH
    have hni : (deflate z fuel s Z_SYNC_FLUSH).st.zs.next_in = s.zs.next_in := by omega
    have ha : (deflate z fuel s Z_SYNC_FLUSH).st.zs.avail_in = 0 := by omega
    have hti : (deflate z fuel s Z_SYNC_FLUSH).st.zs.total_in = s.zs.total_in := by
      rw [w3, hni, Nat.sub_self]
      simp [readMem]
    split
    · exact ⟨hti, ha⟩
    · obtain ⟨c1, c2⟩ := changeLevel_clean z _ ha
      exact ⟨c1.trans hti, c2⟩

/-- With no level change pending, the drains of the overrun loop take a prefix
of the buffer and leave the rest, in order. -/
theorem overrunLoop_taken (z : Zlib σ) (hz : z.Sane) (fuel needed n : Nat)
    (s : ZlibOutStream σ) (hs : s.newLevel = s.compressionLevel)
    (h : (overrunLoop z fuel needed n s).halt = none) :
    ∃ taken, (overrunLoop z fuel needed n s).st.zs.total_in = s.zs.total_in ++ taken ∧
      taken ++ buffered (overrunLoop z fuel needed n s).st = buffered s := by
  induction n generalizing s with
  | zero =>
    unfold overrunLoop
    split <;> exact ⟨[], (List.append_nil _).symm, rfl⟩
  | succ n ih =>
    unfold overrunLoop at h ⊢
    by_cases ha : avail s < needed
    · rw [if_pos ha] at h ⊢
      dsimp only at h ⊢
      cases hf : (flush z fuel { s with corked := true }).halt with
      | some e =>
        simp only [hf] at h
        cases h
      | none =>
        simp only [hf] at h ⊢
        obtain ⟨k, -, -, -, t3, t4⟩ := flush_taken z hz fuel _ hf
        rw [checkCompressionLevel_eq_of_eq z fuel { s with corked := true } hs] at t4
        obtain ⟨l1, l2⟩ := flush_level z fuel _ hf
        obtain ⟨taken, u1, u2⟩ :=
          ih { (flush z fuel { s with corked := true }).st with corked := false }
            (l2.trans l1.symm) h
        refine ⟨(buffered s).take k ++ taken, ?_, ?_⟩
        · rw [u1]
          show (flush z fuel { s with corked := true }).st.zs.total_in ++ taken = _
          rw [t4, List.append_assoc]
          rfl
        · rw [List.append_assoc, u2]
          show List.take k (buffered s) ++ buffered (flush z fuel { s with corked := true }).st
            = buffered s
          rw [t3]
          exact List.take_append_drop k _
    · rw [if_neg ha]
      exact ⟨[], (List.append_nil _).symm, rfl⟩

/-- Outside the stale-window case — zlib's input window is empty on entry, or no
level change is pending — an `overrun` that returns has handed zlib a prefix of
the buffer and kept the rest: nothing dropped, doubled or reordered. -/
theorem overrun_taken (z : Zlib σ) (hz : z.Sane) (fuel : Nat) (s : ZlibOutStream σ)
    (needed : Nat) (hclean : s.zs.avail_in = 0 ∨ s.newLevel = s.compressionLevel)
    (h : (overrun z fuel s needed).halt = none) :
    ∃ taken, (overrun z fuel s needed).st.zs.total_in = s.zs.total_in ++ taken ∧
      taken ++ buffered (overrun z fuel s needed).st = buffered s := by
  unfold overrun at h ⊢
  by_cases hn : needed > s.bufSize
  · rw [if_pos hn] at h
    cases h
  · rw [if_neg hn] at h ⊢
    dsimp only at h ⊢
    cases hc : (checkCompressionLevel z fuel s).halt with
    | some e =>
      simp only [hc] at h
      cases h
    | none =>
      simp only [hc] at h ⊢
      obtain ⟨f1, -, f3, f4, -, -⟩ := checkCompressionLevel_frame z fuel s
      have hlv : (checkCompressionLevel z fuel s).st.newLevel
          = (checkCompressionLevel z fuel s).st.compressionLevel :=
        f4.trans (checkCompressionLevel_level z fuel s hc).symm
      have hti : (checkCompressionLevel z fuel s).st.zs.total_in = s.zs.total_in := by
        rcases hclean with h0 | hl
        · exact (checkCompressionLevel_clean z hz fuel s h0).1
        · rw [checkCompressionLevel_eq_of_eq z fuel s hl]
      have hbuf : buffered (checkCompressionLevel z fuel s).st = buffered s := by
        unfold buffered
        rw [f1, f3]
      obtain ⟨taken, u1, u2⟩ := overrunLoop_taken z hz fuel needed fuel _ hlv h
      exact ⟨taken, by rw [u1, hti], by rw [u2, hbuf]⟩

/-! ## The stand-in library keeps the calling convention -/

theorem storeZ_sane (lim : Option Nat) : (storeZ lim).Sane := by
  refine ⟨?_, ?_, ?_, ?_⟩
  · intro st inp ao fl
    simp only [storeZ]
    split
    · cases lim with
      | none => exact Nat.le_refl _
      | some l => exact Nat.min_le_right _ _
    · split
      · exact Nat.zero_le _
      · exact Nat.le_refl _
  · intro st inp ao fl
    simp only [storeZ]
    split
    · exact Nat.zero_le _
    · split
      · exact Nat.zero_le _
      · simp only [List.length_take]
        exact Nat.min_le_left _ _
  · intro st inp ao lv sg
    exact Nat.zero_le _
  · intro st inp ao lv sg
    exact Nat.zero_le _

/-! ## The claims -/

/-- C2. `length()` is `offset + (ptr - start)`; every `flush()` and every
`overrun()` that returns leaves `length()` unchanged, whatever part of its
input (none of it up to all of it) zlib took; hence after any sequence of
producer calls that all return, `length()` has grown by exactly the number of
bytes the producer wrote — starting from zero for a newly constructed stream. -/
theorem length_accounting (z : Zlib σ) (hz : z.Sane) (fuel : Nat) :
    (∀ s : ZlibOutStream σ, length s = s.offset + s.ptr) ∧
    (∀ s : ZlibOutStream σ, (flush z fuel s).halt = none →
      length (flush z fuel s).st = length s) ∧
    (∀ (s : ZlibOutStream σ) (needed : Nat), (overrun z fuel s needed).halt = none →
      length (overrun z fuel s needed).st = length s) ∧
    (∀ (s : ZlibOutStream σ) (ops : List Op), (run z fuel s ops).halt = none →
      length (run z fuel s ops).st = length s + (written ops).length) ∧
    (∀ (os : Option OutStream) (level : Int) (mem : Nat → U8) (s0 : ZlibOutStream σ)
       (ops : List Op), ZlibOutStream.new z os level mem = .ok s0 →
      (run z fuel s0 ops).halt = none →
      length (run z fuel s0 ops).st = (written ops).length) := by
  refine ⟨fun _ => rfl, fun s _ => flush_length z hz fuel s,
    fun s needed _ => overrun_length z hz fuel s needed,
    fun s ops h => run_length z hz fuel ops s h, ?_⟩
  intro os level mem s0 ops hnew h
  have h0 : length s0 = 0 := by
    unfold ZlibOutStream.new at hnew
    dsimp only at hnew
    split at hnew
    · cases hnew
    · cases hnew
      rfl
  rw [run_length z hz fuel ops s0 h, h0, Nat.zero_add]

/-- Witness for C2: three producer calls on a stream that holds two bytes at
offset ten; the second write overruns, and zlib takes one byte a call. -/
theorem length_accounting_witness :
    (run (storeZ (some 1)) 5 (demo true 6 6) [.write [1, 2], .write [3], .flush]).halt = none ∧
    length (run (storeZ (some 1)) 5 (demo true 6 6) [.write [1, 2], .write [3], .flush]).st
      = 12 + 3 :=
  ⟨by decide,
   (length_accounting (storeZ (some 1)) (storeZ_sane _) 5).2.2.2.1 (demo true 6 6)
     [.write [1, 2], .write [3], .flush] (by decide)⟩

/-- C3. Flush consumption handling: when `flush()` returns and the drain inside
it has left `avail_in = n - k` of the `n = ptr - start` buffered bytes (zlib took
`k` of them), then `offset` has grown by exactly `k`, the cursor is `n - k`, the
block now starts with the old bytes `k .. n` in order, and the bytes zlib took
in that drain are the old bytes `0 .. k`; with `k = n` the cursor is `0`. -/
theorem flush_consumption (z : Zlib σ) (hz : z.Sane) (fuel : Nat) (s : ZlibOutStream σ)
    (k : Nat) (hret : (flush z fuel s).halt = none)
    (hk : (flush z fuel s).st.zs.avail_in + k = s.ptr) :
    (flush z fuel s).st.offset = s.offset + k ∧
    (flush z fuel s).st.ptr = s.ptr - k ∧
    buffered (flush z fuel s).st = (buffered s).drop k ∧
    (flush z fuel s).st.zs.total_in
      = (checkCompressionLevel z fuel s).st.zs.total_in ++ (buffered s).take k ∧
    (k = s.ptr → (flush z fuel s).st.ptr = 0) := by
  obtain ⟨k1, e0, e1, e2, e3, e4⟩ := flush_taken z hz fuel s hret
  have hkk : k1 = k := by omega
  subst hkk
  exact ⟨e1, e2, e3, e4, fun h => by rw [e2, h, Nat.sub_self]⟩

/-- Witness for C3: a corked flush of two buffered bytes where zlib takes one. -/
theorem flush_consumption_witness :
    (flush (storeZ (some 1)) 5 (demo true 6 6)).st.offset = 10 + 1 ∧
    (flush (storeZ (some 1)) 5 (demo true 6 6)).st.ptr = 2 - 1 ∧
    buffered (flush (storeZ (some 1)) 5 (demo true 6 6)).st = [9] :=
  have h := flush_consumption (storeZ (some 1)) (storeZ_sane _) 5 (demo true 6 6) 1
    (by decide) (by decide)
  ⟨h.1, h.2.1, h.2.2.1⟩

/-- C5. Capacity violation: in every state (any fill, corked or not, level
change pending or not, underlying stream set or not) `overrun(needed)` with
`needed > bufSize` throws the buffer-size exception at once: no level change,
no drain, no call into zlib or into the sink, and every member as before. -/
theorem overrun_exceeding_capacity (z : Zlib σ) (fuel : Nat) (s : ZlibOutStream σ)
    (needed : Nat) (h : needed > s.bufSize) :
    overrun z fuel s needed = ⟨s, some .bufferSizeExceeded⟩ := by
  unfold overrun
  rw [if_pos h]

/-- Witness for C5: `capacity + 1` on a corked stream with a level change pending. -/
theorem overrun_exceeding_capacity_witness :
    overrun (storeZ none) 5 (demo true 6 1) (4 + 1)
      = ⟨demo true 6 1, some .bufferSizeExceeded⟩ :=
  overrun_exceeding_capacity (storeZ none) 5 (demo true 6 1) (4 + 1) (by decide)

/-- C7. Configuration error: with no underlying stream, `flush()` throws the
"underlying OutStream has not been set" exception, and so does `overrun(needed)`
when `needed` is within the capacity but exceeds the free space; no call into
zlib or the sink is made (the call log and zlib's state and byte counts are as
before).  Nothing is asked of the fill or of `corked`, so this covers an
empty, corked stream. -/
theorem drain_without_underlying (z : Zlib σ) (fuel : Nat) (s : ZlibOutStream σ)
    (h : s.underlying = none) :
    ((flush z fuel s).halt = some .underlyingNotSet ∧
      (flush z fuel s).st.log = s.log ∧
      (flush z fuel s).st.zs.state = s.zs.state ∧
      (flush z fuel s).st.zs.total_in = s.zs.total_in ∧
      (flush z fuel s).st.zs.total_out = s.zs.total_out) ∧
    (∀ needed, needed ≤ s.bufSize → avail s < needed → 0 < fuel →
      (overrun z fuel s needed).halt = some .underlyingNotSet ∧
      (overrun z fuel s needed).st.log = s.log ∧
      (overrun z fuel s needed).st.zs.state = s.zs.state ∧
      (overrun z fuel s needed).st.zs.total_in = s.zs.total_in ∧
      (overrun z fuel s needed).st.zs.total_out = s.zs.total_out) := by
  have hflush : ∀ t : ZlibOutStream σ, t.underlying = none →
      (flush z fuel t).halt = some .underlyingNotSet ∧
      (flush z fuel t).st.log = t.log ∧
      (flush z fuel t).st.zs.state = t.zs.state ∧
      (flush z fuel t).st.zs.total_in = t.zs.total_in ∧
      (flush z fuel t).st.zs.total_out = t.zs.total_out := by
    intro t ht
    rw [flush_no_underlying z fuel t ht]
    dsimp only
    split <;> exact ⟨rfl, rfl, rfl, rfl, rfl⟩
  refine ⟨hflush s h, ?_⟩
  intro needed hn ha hfuel
  unfold overrun
  rw [if_neg (Nat.not_lt.mpr hn)]
  dsimp only
  rw [checkCompressionLevel_no_underlying z fuel s h]
  by_cases hl : s.newLevel ≠ s.compressionLevel
  · rw [if_pos hl]
    exact ⟨rfl, rfl, rfl, rfl, rfl⟩
  · rw [if_neg hl]
    dsimp only
    obtain ⟨n, rfl⟩ := Nat.exists_eq_succ_of_ne_zero (Nat.pos_iff_ne_zero.mp hfuel)
    unfold overrunLoop
    rw [if_pos ha]
    have hc : ({ s with corked := true } : ZlibOutStream σ).underlying = none := h
    obtain ⟨f1, f2, f3, f4, f5⟩ := hflush { s with corked := true } hc
    simp only [f1]
    exact ⟨trivial, f2, f3, f4, f5⟩

/-- Witness for C7: an empty, corked stream with no underlying stream. -/
theorem drain_without_underlying_witness :
    (flush (storeZ none) 5 demoUnbound).halt = some .underlyingNotSet ∧
    (flush (storeZ none) 5 demoUnbound).st.log = [] ∧
    (overrun (storeZ none) 5 { demoUnbound with ptr := 3 } 2).halt = some .underlyingNotSet :=
  ⟨(drain_without_underlying (storeZ none) 5 demoUnbound rfl).1.1,
   (drain_without_underlying (storeZ none) 5 demoUnbound rfl).1.2.1,
   ((drain_without_underlying (storeZ none) 5 { demoUnbound with ptr := 3 } rfl).2 2
      (by decide) (by decide) (by decide)).1⟩

theorem setCompressionLevel_newLevel (s : ZlibOutStream σ) (n : Int) :
    (setCompressionLevel s n).newLevel
      = (if -1 ≤ n ∧ n ≤ 9 then n else Z_DEFAULT_COMPRESSION) := by
  unfold setCompressionLevel
  dsimp only
  by_cases h : n < -1 ∨ n > 9
  · rw [if_pos h, if_neg (by omega)]
  · rw [if_neg h, if_pos (by omega)]

/-- C8. Level normalization: for every integer `n`, `setCompressionLevel(n)`
returns (it has no failing path) with `newLevel = n` when `-1 ≤ n ≤ 9` and with
`newLevel = -1`, the default level, otherwise; so `newLevel` lies in `-1 .. 9`. -/
theorem setCompressionLevel_normalizes (s : ZlibOutStream σ) (n : Int) :
    (setCompressionLevel s n).newLevel
      = (if -1 ≤ n ∧ n ≤ 9 then n else Z_DEFAULT_COMPRESSION) ∧
    -1 ≤ (setCompressionLevel s n).newLevel ∧ (setCompressionLevel s n).newLevel ≤ 9 := by
  refine ⟨setCompressionLevel_newLevel s n, ?_⟩
  rw [setCompressionLevel_newLevel s n]
  by_cases h : -1 ≤ n ∧ n ≤ 9
  · rw [if_pos h]
    exact h
  · rw [if_neg h]
    exact ⟨by decide, by decide⟩

/-- C9. Deferred level change: `setCompressionLevel(n)` changes `newLevel` and
nothing else — `compressionLevel`, the block, the cursor, the offset, `corked`,
the `z_stream` and the underlying stream are as before and the call log has
no new entry.  The level becomes `compressionLevel` in the next `flush()` or
`overrun()` that returns; `cork`, `setUnderlying` and a producer commit leave
`compressionLevel` alone. -/
theorem setCompressionLevel_deferred (z : Zlib σ) (fuel : Nat) (s : ZlibOutStream σ)
    (n : Int) :
    setCompressionLevel s n
      = { s with newLevel := if -1 ≤ n ∧ n ≤ 9 then n else Z_DEFAULT_COMPRESSION } ∧
    (setCompressionLevel s n).compressionLevel = s.compressionLevel ∧
    (setCompressionLevel s n).log = s.log ∧
    ((flush z fuel (setCompressionLevel s n)).halt = none →
      (flush z fuel (setCompressionLevel s n)).st.compressionLevel
        = (setCompressionLevel s n).newLevel) ∧
    (∀ needed, (overrun z fuel (setCompressionLevel s n) needed).halt = none →
      (overrun z fuel (setCompressionLevel s n) needed).st.compressionLevel
        = (setCompressionLevel s n).newLevel) ∧
    (∀ enable, (cork (setCompressionLevel s n) enable).st.compressionLevel
        = s.compressionLevel) ∧
    (∀ os, (setUnderlying (setCompressionLevel s n) os).compressionLevel
        = s.compressionLevel) ∧
    (∀ bs, (commit (setCompressionLevel s n) bs).st.compressionLevel
        = s.compressionLevel) := by
  refine ⟨?_, rfl, rfl, fun h => (flush_level z fuel _ h).1,
    fun needed h => overrun_level z fuel _ needed h, ?_, fun _ => rfl, ?_⟩
  · have := setCompressionLevel_newLevel s n
    unfold setCompressionLevel at this ⊢
    dsimp only at this ⊢
    rw [this]
  · intro enable
    unfold cork
    dsimp only
    split <;> rfl
  · intro bs
    unfold commit
    split <;> rfl

/-- Witness for C9: the level `3` is asked for on a stream at level `6` and is
adopted by the flush that follows. -/
theorem setCompressionLevel_deferred_witness :
    (setCompressionLevel (demo false 6 6) 3).compressionLevel = 6 ∧
    (flush (storeZ none) 5 (setCompressionLevel (demo false 6 6) 3)).halt = none ∧
    (flush (storeZ none) 5 (setCompressionLevel (demo false 6 6) 3)).st.compressionLevel = 3 :=
  ⟨(setCompressionLevel_deferred (storeZ none) 5 (demo false 6 6) 3).2.1,
   by decide,
   (setCompressionLevel_deferred (storeZ none) 5 (demo false 6 6) 3).2.2.2.1 (by decide)⟩

/-! ## Repeated flush -/

theorem getptr_one (os os1 : OutStream) (h : os.getptr 1 = some os1) :
    os1.bufSize = os.bufSize ∧ os1.sent = os.sent ∧ 0 < os1.avail ∧ 1 ≤ os.bufSize := by
  unfold OutStream.getptr at h
  split at h
  · cases h
  · split at h
    · cases h
      exact ⟨rfl, rfl, by simp only [OutStream.avail]; omega, by omega⟩
    · cases h
      exact ⟨rfl, rfl, by simp only [OutStream.avail]; omega, by omega⟩

theorem getptr_one_of_room (os : OutStream) (h : 1 ≤ os.bufSize) :
    ∃ os1, os.getptr 1 = some os1 := by
  unfold OutStream.getptr
  rw [if_neg (by omega)]
  split
  · exact ⟨_, rfl⟩
  · exact ⟨_, rfl⟩

/-- A drain loop that returns has run at least once and leaves an underlying
stream that can hand out a byte. -/
theorem deflateLoop_ok_sink (z : Zlib σ) (fl : Int) (fuel : Nat) (os : OutStream)
    (s : ZlibOutStream σ) (h : (deflateLoop z fl fuel os s).halt = none) :
    0 < fuel ∧ 1 ≤ os.bufSize ∧
    ∃ os1, (deflateLoop z fl fuel os s).st.underlying = some os1 ∧ os1.bufSize = os.bufSize := by
  induction fuel generalizing os s with
  | zero =>
    unfold deflateLoop at h
    cases h
  | succ n ih =>
    refine ⟨Nat.succ_pos n, ?_⟩
    unfold deflateLoop at h ⊢
    cases hg : os.getptr 1 with
    | none =>
      simp only [hg] at h
      cases h
    | some os1 =>
      obtain ⟨g1, -, -, g4⟩ := getptr_one os os1 hg
      refine ⟨g4, ?_⟩
      simp only [hg] at h ⊢
      split
      · split
        · exact ⟨_, rfl, g1⟩
        · exact ⟨_, rfl, g1⟩
      · rename_i hrc
        rw [if_neg hrc] at h
        split
        · rename_i h0
          rw [if_pos h0] at h
          obtain ⟨-, -, os2, e1, e2⟩ := ih _ _ h
          exact ⟨os2, e1, e2.trans g1⟩
        · exact ⟨_, rfl, g1⟩

theorem deflate_ok_underlying (z : Zlib σ) (fuel : Nat) (s : ZlibOutStream σ) (fl : Int)
    (h : (deflate z fuel s fl).halt = none) :
    ∃ os, s.underlying = some os ∧
      ∃ os1, (deflate z fuel s fl).st.underlying = some os1 ∧ os1.bufSize = os.bufSize ∧
        (¬ (fl = Z_NO_FLUSH ∧ s.zs.avail_in = 0) → 0 < fuel ∧ 1 ≤ os.bufSize) := by
  unfold deflate at h ⊢
  cases hu : s.underlying with
  | none =>
    simp only [hu] at h
    cases h
  | some os =>
    refine ⟨os, rfl, ?_⟩
    simp only [hu] at h ⊢
    split
    · rename_i hq
      exact ⟨os, hu, rfl, fun hn => absurd hq hn⟩
    · rename_i hq
      rw [if_neg hq] at h
      obtain ⟨a, b, os1, c, d⟩ := deflateLoop_ok_sink z fl fuel os s h
      exact ⟨os1, c, d, fun _ => ⟨a, b⟩⟩

/-- A flush that throws has not touched the cursor, the offset or the block. -/
theorem flush_halt_same (z : Zlib σ) (fuel : Nat) (s : ZlibOutStream σ) (e : Halt)
    (h : (flush z fuel s).halt = some e) : SameBuffer s (flush z fuel s).st := by
  have hc := checkCompressionLevel_frame z fuel s
  cases hch : (checkCompressionLevel z fuel s).halt with
  | some e1 =>
    rw [flush_of_check_halt z fuel s e1 hch]
    exact hc
  | none =>
    have hi : SameBuffer (checkCompressionLevel z fuel s).st
        (flushInput (checkCompressionLevel z fuel s).st) := ⟨rfl, rfl, rfl, rfl, rfl, rfl⟩
    have hd := (deflate_frame z fuel (flushInput (checkCompressionLevel z fuel s).st)
      (flushMode (checkCompressionLevel z fuel s).st)).1
    cases hdh : (deflate z fuel (flushInput (checkCompressionLevel z fuel s).st)
        (flushMode (checkCompressionLevel z fuel s).st)).halt with
    | some e2 =>
      rw [flush_of_deflate_halt z fuel s e2 hch hdh]
      exact SameBuffer.trans_ hc (SameBuffer.trans_ hi hd)
    | none =>
      rw [flush_of_ok z fuel s hch hdh] at h
      cases h

/-- Whether it returns or throws, a flush does not move the cursor up and does
not change the capacity. -/
theorem flush_ptr_le (z : Zlib σ) (hz : z.Sane) (fuel : Nat) (s : ZlibOutStream σ) :
    (flush z fuel s).st.ptr ≤ s.ptr ∧ (flush z fuel s).st.bufSize = s.bufSize := by
  cases hh : (flush z fuel s).halt with
  | some e =>
    obtain ⟨a1, -, -, -, a5, -⟩ := flush_halt_same z fuel s e hh
    exact ⟨Nat.le_of_eq a1, a5⟩
  | none =>
    obtain ⟨k, -, -, e2, -, -⟩ := flush_taken z hz fuel s hh
    obtain ⟨hc, hd⟩ := flush_ok_inv z fuel s hh
    refine ⟨by rw [e2]; exact Nat.sub_le _ _, ?_⟩
    rw [flush_of_ok z fuel s hc hd]
    dsimp only
    rw [(flushShift_frame _).2.2.2.2.1]
    exact (flush_drain z hz fuel s).1.2.2.2.2.1

theorem flush_eq_of_level_eq (z : Zlib σ) (fuel : Nat) (t : ZlibOutStream σ)
    (hl : t.newLevel = t.compressionLevel) :
    flush z fuel t
      = match (deflate z fuel (flushInput t) (flushMode t)).halt with
        | some _ => deflate z fuel (flushInput t) (flushMode t)
        | none => ⟨flushShift (deflate z fuel (flushInput t) (flushMode t)).st, none⟩ := by
  unfold flush
  rw [checkCompressionLevel_eq_of_eq z fuel t hl]

/-- A corked flush of an empty buffer with nothing pending: no call is made. -/
theorem flush_idle_corked (z : Zlib σ) (fuel : Nat) (t : ZlibOutStream σ) (os : OutStream)
    (hl : t.newLevel = t.compressionLevel) (hu : t.underlying = some os)
    (hc : t.corked = true) (hp : t.ptr = 0) :
    (flush z fuel t).halt = none ∧ (flush z fuel t).st.ptr = t.ptr ∧
    (flush z fuel t).st.offset = t.offset ∧ (flush z fuel t).st.log = t.log ∧
    (flush z fuel t).st.buf = t.buf ∧ (flush z fuel t).st.zs.state = t.zs.state ∧
    (flush z fuel t).st.underlying = t.underlying := by
  have hd : deflate z fuel (flushInput t) (flushMode t) = ⟨flushInput t, none⟩ := by
    unfold deflate
    have hu2 : (flushInput t).underlying = some os := hu
    have hm : flushMode t = Z_NO_FLUSH := by unfold flushMode; rw [if_pos hc]
    have ha : (flushInput t).zs.avail_in = 0 := hp
    simp only [hu2]
    rw [if_pos ⟨hm, ha⟩]
  rw [flush_eq_of_level_eq z fuel t hl, hd]
  dsimp only
  have ha : (flushInput t).zs.avail_in = 0 := hp
  unfold flushShift
  rw [if_pos ha]
  refine ⟨rfl, hp.symm, ?_, rfl, rfl, rfl, rfl⟩
  show t.offset + t.ptr = t.offset
  rw [hp]
  rfl

/-- A drain with `Z_NO_FLUSH` that returns has handed zlib all the input, when
zlib takes all it is given whenever it returns with output room left. -/
theorem deflateLoop_hold_drains (z : Zlib σ) (hg : z.Greedy) (fuel : Nat)
    (os : OutStream) (s : ZlibOutStream σ)
    (h : (deflateLoop z Z_NO_FLUSH fuel os s).halt = none) :
    (deflateLoop z Z_NO_FLUSH fuel os s).st.zs.avail_in = 0 := by
  induction fuel generalizing os s with
  | zero =>
    unfold deflateLoop at h
    cases h
  | succ n ih =>
    unfold deflateLoop at h ⊢
    cases hgp : os.getptr 1 with
    | none =>
      simp only [hgp] at h
      cases h
    | some os1 =>
      simp only [hgp] at h ⊢
      by_cases hrc : (deflateReply z Z_NO_FLUSH os1 s).rc < 0
      · rw [if_pos hrc, if_neg (fun hh => hh.2 rfl)] at h
        cases h
      · rw [if_neg hrc] at h ⊢
        by_cases h0 : (afterDeflate z Z_NO_FLUSH os1 s).zs.avail_out = 0
        · rw [if_pos h0] at h ⊢
          exact ih _ _ h
        · rw [if_neg h0]
          have e0 : (afterDeflate z Z_NO_FLUSH os1 s).zs.avail_out
              = os1.avail % UINT_RANGE - (deflateReply z Z_NO_FLUSH os1 s).out.length := rfl
          have hroom : (deflateReply z Z_NO_FLUSH os1 s).out.length < os1.avail % UINT_RANGE := by
            rw [e0] at h0
            omega
          have hall := hg.takes_all s.zs.state (readMem s.buf s.zs.next_in s.zs.avail_in)
            (os1.avail % UINT_RANGE) Z_NO_FLUSH (not_lt.mp hrc) hroom
          rw [readMem_length] at hall
          show s.zs.avail_in - (deflateReply z Z_NO_FLUSH os1 s).nin = 0
          unfold deflateReply
          rw [hall, Nat.sub_self]

/-- A drain that returns over a sink whose buffer is smaller than `2^32` bytes
has handed zlib all the input, when zlib takes all it is given whenever it
returns with output room left and refuses a call that has output room only
when it was given nothing. -/
theorem deflateLoop_drains_small (z : Zlib σ) (hg : z.Greedy) (fl : Int) (fuel : Nat)
    (os : OutStream) (s : ZlibOutStream σ) (hsz : os.bufSize < UINT_RANGE)
    (h : (deflateLoop z fl fuel os s).halt = none) :
    (deflateLoop z fl fuel os s).st.zs.avail_in = 0 := by
  induction fuel generalizing os s with
  | zero =>
    unfold deflateLoop at h
    cases h
  | succ n ih =>
    unfold deflateLoop at h ⊢
    cases hgp : os.getptr 1 with
    | none =>
      simp only [hgp] at h
      cases h
    | some os1 =>
      obtain ⟨gb, -, ga, -⟩ := getptr_one os os1 hgp
      simp only [hgp] at h ⊢
      have hsz1 : os1.bufSize < UINT_RANGE := by rw [gb]; exact hsz
      have hav : os1.avail % UINT_RANGE = os1.avail :=
        Nat.mod_eq_of_lt (Nat.lt_of_le_of_lt (Nat.sub_le _ _) hsz1)
      have hlen : (readMem s.buf s.zs.next_in s.zs.avail_in).length = s.zs.avail_in :=
        readMem_length _ _ _
      by_cases hrc : (deflateReply z fl os1 s).rc < 0
      · rw [if_pos hrc] at h ⊢
        by_cases hb : (deflateReply z fl os1 s).rc = Z_BUF_ERROR ∧ fl ≠ Z_NO_FLUSH
        · rw [if_pos hb]
          have hempty : readMem s.buf s.zs.next_in s.zs.avail_in = [] :=
            hg.refuses_empty s.zs.state _ (os1.avail % UINT_RANGE) fl hb.1
              (by rw [hav]; exact ga)
          have ha0 : s.zs.avail_in = 0 := by rw [← hlen, hempty]; rfl
          show s.zs.avail_in - (deflateReply z fl os1 s).nin = 0
          rw [ha0, Nat.zero_sub]
        · rw [if_neg hb] at h
          cases h
      · rw [if_neg hrc] at h ⊢
        by_cases h0 : (afterDeflate z fl os1 s).zs.avail_out = 0
        · rw [if_pos h0] at h ⊢
          exact ih _ _ (by
            show (sinkAfterSetptr z fl os1 s).bufSize < UINT_RANGE
            exact hsz1) h
        · rw [if_neg h0]
          have e0 : (afterDeflate z fl os1 s).zs.avail_out
              = os1.avail % UINT_RANGE - (deflateReply z fl os1 s).out.length := rfl
          have hroom : (deflateReply z fl os1 s).out.length < os1.avail % UINT_RANGE := by
            rw [e0] at h0
            omega
          have hall := hg.takes_all s.zs.state (readMem s.buf s.zs.next_in s.zs.avail_in)
            (os1.avail % UINT_RANGE) fl (not_lt.mp hrc) hroom
          rw [readMem_length] at hall
          show s.zs.avail_in - (deflateReply z fl os1 s).nin = 0
          unfold deflateReply
          rw [hall, Nat.sub_self]

/-- A flush that returns over a sink whose buffer is smaller than `2^32` bytes
leaves the buffer empty, for a zlib as in `deflateLoop_drains_small`. -/
theorem flush_empties_small (z : Zlib σ) (hg : z.Greedy) (fuel : Nat)
    (s : ZlibOutStream σ) (os : OutStream) (h1 : (flush z fuel s).halt = none)
    (hu : (flush z fuel s).st.underlying = some os) (hsz : os.bufSize < UINT_RANGE) :
    (flush z fuel s).st.ptr = 0 := by
  obtain ⟨hck, hd⟩ := flush_ok_inv z fuel s h1
  have hfs := flushShift_frame (deflate z fuel (flushInput (checkCompressionLevel z fuel s).st)
    (flushMode (checkCompressionLevel z fuel s).st)).st
  have hst : (flush z fuel s).st = flushShift (deflate z fuel
      (flushInput (checkCompressionLevel z fuel s).st)
      (flushMode (checkCompressionLevel z fuel s).st)).st := by
    rw [flush_of_ok z fuel s hck hd]
  obtain ⟨os0, u0, os1, u1, u2, -⟩ := deflate_ok_underlying z fuel _ _ hd
  have hos : os1 = os := by
    rw [hst, hfs.2.1, u1] at hu
    exact Option.some.inj hu
  have hsz0 : os0.bufSize < UINT_RANGE := by
    rw [← u2, hos]
    exact hsz
  have ha : (deflate z fuel (flushInput (checkCompressionLevel z fuel s).st)
      (flushMode (checkCompressionLevel z fuel s).st)).st.zs.avail_in = 0 := by
    unfold deflate at hd ⊢
    simp only [u0] at hd ⊢
    split
    · rename_i hq
      exact hq.2
    · rename_i hq
      rw [if_neg hq] at hd
      exact deflateLoop_drains_small z hg _ fuel os0 _ hsz0 hd
  rw [hst]
  unfold flushShift
  rw [if_pos ha]

/-- A corked flush that returns leaves the buffer empty, when zlib takes all it
is given whenever it returns with output room left. -/
theorem flush_corked_empties (z : Zlib σ) (hg : z.Greedy) (fuel : Nat)
    (s : ZlibOutStream σ) (h1 : (flush z fuel s).halt = none)
    (hc : (flush z fuel s).st.corked = true) : (flush z fuel s).st.ptr = 0 := by
  obtain ⟨hck, hd⟩ := flush_ok_inv z fuel s h1
  have hfs := flushShift_frame (deflate z fuel (flushInput (checkCompressionLevel z fuel s).st)
    (flushMode (checkCompressionLevel z fuel s).st)).st
  have hst : (flush z fuel s).st = flushShift (deflate z fuel
      (flushInput (checkCompressionLevel z fuel s).st)
      (flushMode (checkCompressionLevel z fuel s).st)).st := by
    rw [flush_of_ok z fuel s hck hd]
  have hcc : (checkCompressionLevel z fuel s).st.corked = true := by
    rw [← hc, hst, hfs.2.2.2.2.2.1]
    exact (deflate_frame z fuel (flushInput (checkCompressionLevel z fuel s).st) _).1.2.2.2.2.2.symm
  have hm : flushMode (checkCompressionLevel z fuel s).st = Z_NO_FLUSH := by
    unfold flushMode
    rw [if_pos hcc]
  rw [hm] at hd hst
  have ha : (deflate z fuel (flushInput (checkCompressionLevel z fuel s).st) Z_NO_FLUSH).st.zs.avail_in
      = 0 := by
    unfold deflate at hd ⊢
    cases hu : (flushInput (checkCompressionLevel z fuel s).st).underlying with
    | none =>
      simp only [hu] at hd
      cases hd
    | some os =>
      simp only [hu] at hd ⊢
      split
      · rename_i hq
        exact hq.2
      · rename_i hq
        rw [if_neg hq] at hd
        exact deflateLoop_hold_drains z hg fuel os _ hd
  rw [hst]
  unfold flushShift
  rw [if_pos ha]

/-- An uncorked flush with no level change pending, in which zlib takes nothing
and either refuses the forced flush with `Z_BUF_ERROR` or returns success with
output room left: the flush returns (a refusal is swallowed) and the buffer
stays as it is. -/
theorem flush_idle_sync (z : Zlib σ) (n : Nat) (t : ZlibOutStream σ) (os os1 : OutStream)
    (hl : t.newLevel = t.compressionLevel) (hu : t.underlying = some os)
    (hg : os.getptr 1 = some os1) (hc : t.corked = false)
    (hnin : (deflateReply z Z_SYNC_FLUSH os1 (flushInput t)).nin = 0)
    (hrc : (deflateReply z Z_SYNC_FLUSH os1 (flushInput t)).rc = Z_BUF_ERROR ∨
      (0 ≤ (deflateReply z Z_SYNC_FLUSH os1 (flushInput t)).rc ∧
        (deflateReply z Z_SYNC_FLUSH os1 (flushInput t)).out.length
          < os1.avail % UINT_RANGE)) :
    (flush z (n + 1) t).halt = none ∧ (flush z (n + 1) t).st.ptr = t.ptr ∧
    (flush z (n + 1) t).st.offset = t.offset := by
  have hm : flushMode t = Z_SYNC_FLUSH := by unfold flushMode; rw [if_neg (by simp [hc])]
  have hd : (deflate z (n + 1) (flushInput t) (flushMode t)).halt = none ∧
      (deflate z (n + 1) (flushInput t) (flushMode t)).st.ptr = t.ptr ∧
      (deflate z (n + 1) (flushInput t) (flushMode t)).st.offset = t.offset ∧
      (deflate z (n + 1) (flushInput t) (flushMode t)).st.zs.next_in = 0 ∧
      (deflate z (n + 1) (flushInput t) (flushMode t)).st.zs.avail_in = t.ptr := by
    unfold deflate
    have hu2 : (flushInput t).underlying = some os := hu
    simp only [hu2]
    rw [hm, if_neg (fun h => absurd h.1 (by decide))]
    unfold deflateLoop
    simp only [hg]
    have e1 : (afterDeflate z Z_SYNC_FLUSH os1 (flushInput t)).zs.next_in = 0 := by
      show 0 + (deflateReply z Z_SYNC_FLUSH os1 (flushInput t)).nin = 0
      rw [hnin]
    have e2 : (afterDeflate z Z_SYNC_FLUSH os1 (flushInput t)).zs.avail_in = t.ptr := by
      show t.ptr - (deflateReply z Z_SYNC_FLUSH os1 (flushInput t)).nin = t.ptr
      rw [hnin]
      rfl
    rcases hrc with hb | ⟨hok, hroom⟩
    · rw [if_pos (by rw [hb]; decide), if_pos ⟨hb, by decide⟩]
      exact ⟨rfl, rfl, rfl, e1, e2⟩
    · have e3 : (afterDeflate z Z_SYNC_FLUSH os1 (flushInput t)).zs.avail_out ≠ 0 := by
        show os1.avail % UINT_RANGE
          - (deflateReply z Z_SYNC_FLUSH os1 (flushInput t)).out.length ≠ 0
        omega
      rw [if_neg (not_lt.mpr hok), if_neg e3]
      exact ⟨rfl, rfl, rfl, e1, e2⟩
  obtain ⟨d0, d1, d2, d3, d4⟩ := hd
  rw [flush_eq_of_level_eq z (n + 1) t hl]
  simp only [d0]
  have hw : (deflate z (n + 1) (flushInput t) (flushMode t)).st.zs.next_in +
      (deflate z (n + 1) (flushInput t) (flushMode t)).st.zs.avail_in
      = (deflate z (n + 1) (flushInput t) (flushMode t)).st.ptr := by
    rw [d1, d3, d4, Nat.zero_add]
  obtain ⟨b1, b2, -⟩ := flushShift_spec _ hw
  refine ⟨trivial, ?_, ?_⟩
  · rw [b2, d1, d3]; rfl
  · rw [b1, d2, d3]; rfl

theorem storeZ_deflate_sync (pend inp : List U8) (ao : Nat) (fl : Int)
    (hfl : fl ≠ Z_NO_FLUSH) :
    (storeZ none).deflate pend inp ao fl
      = if pend ++ inp = [] then ⟨Z_BUF_ERROR, 0, [], []⟩
        else ⟨Z_OK, inp.length, (pend ++ inp).take ao, (pend ++ inp).drop ao⟩ := by
  simp only [storeZ]
  rw [if_neg hfl]

theorem storeZ_deflate_hold (pend inp : List U8) (ao : Nat) :
    (storeZ none).deflate pend inp ao Z_NO_FLUSH
      = ⟨Z_OK, inp.length, [], pend ++ inp.take inp.length⟩ := by
  simp only [storeZ]
  rfl

theorem storeZ_greedy : (storeZ none).Greedy := by
  refine ⟨?_, ?_⟩
  · intro st inp ao fl h1 _
    by_cases hfl : fl = Z_NO_FLUSH
    · subst hfl
      rw [storeZ_deflate_hold]
    · rw [storeZ_deflate_sync st inp ao fl hfl] at h1 ⊢
      split
      · rename_i he
        rw [if_pos he] at h1
        exact absurd h1 (by dsimp only; decide)
      · rfl
  · intro st inp ao fl h1 _
    by_cases hfl : fl = Z_NO_FLUSH
    · subst hfl
      rw [storeZ_deflate_hold] at h1
      exact absurd h1 (by dsimp only; decide)
    · rw [storeZ_deflate_sync st inp ao fl hfl] at h1
      by_cases he : st ++ inp = []
      · exact (List.append_eq_nil.mp he).2
      · rw [if_neg he] at h1
        exact absurd h1 (by dsimp only; decide)

theorem markZ_sane : markZ.Sane := by
  refine ⟨?_, ?_, ?_, ?_⟩
  · intro st inp ao fl
    simp only [markZ]
    split <;> exact Nat.le_refl _
  · intro st inp ao fl
    simp only [markZ]
    split
    · exact Nat.zero_le _
    · exact List.length_take_le _ _
  · intro st inp ao lv sg
    exact Nat.zero_le _
  · intro st inp ao lv sg
    exact Nat.zero_le _

theorem markZ_greedy : markZ.Greedy := by
  refine ⟨?_, ?_⟩
  · intro st inp ao fl _ _
    simp only [markZ]
    split <;> rfl
  · intro st inp ao fl h1 _
    simp only [markZ] at h1
    split at h1 <;> exact absurd h1 (by dsimp only; decide)

/-- With `markZ`, the uncorked `demo` stream has been flushed once: the sink
holds three bytes in its buffer of eight, and to the repeated forced flush the
library answers success, storing the marker byte in a region of five. -/
theorem markZ_reply (os os1 : OutStream)
    (hu : (flush markZ 5 (demo false 6 6)).st.underlying = some os)
    (hg : os.getptr 1 = some os1) :
    (deflateReply markZ Z_SYNC_FLUSH os1
      (flushInput (flush markZ 5 (demo false 6 6)).st)).nin = 0 ∧
    ((deflateReply markZ Z_SYNC_FLUSH os1
        (flushInput (flush markZ 5 (demo false 6 6)).st)).rc = Z_BUF_ERROR ∨
      (0 ≤ (deflateReply markZ Z_SYNC_FLUSH os1
          (flushInput (flush markZ 5 (demo false 6 6)).st)).rc ∧
        (deflateReply markZ Z_SYNC_FLUSH os1
          (flushInput (flush markZ 5 (demo false 6 6)).st)).out.length
          < os1.avail % UINT_RANGE)) := by
  have hp : Option.map OutStream.ptr (flush markZ 5 (demo false 6 6)).st.underlying
      = some 3 := by decide
  have hb : Option.map OutStream.bufSize (flush markZ 5 (demo false 6 6)).st.underlying
      = some 8 := by decide
  rw [hu] at hp hb
  have hp1 : os.ptr = 3 := Option.some.inj hp
  have hb1 : os.bufSize = 8 := Option.some.inj hb
  have h1 : os1 = os := by
    unfold OutStream.getptr at hg
    rw [hb1, hp1] at hg
    rw [if_neg (by decide), if_neg (by decide)] at hg
    exact (Option.some.inj hg).symm
  subst h1
  have hav : os1.avail % UINT_RANGE = 5 := by
    unfold OutStream.avail
    rw [hb1, hp1]
    rfl
  unfold deflateReply
  rw [hav]
  decide

/-- C6. Idempotent flush: let `flush()` return and be called again with no call
in between, zlib being one that keeps the calling convention, takes all the
input it is given whenever it returns with output room left, and refuses a
call that has output room only when it was given nothing.
* If the stream is corked, the second flush returns, having made no call into
  zlib or the sink.
* If it is not corked, zlib is called with `Z_SYNC_FLUSH`; when zlib answers
  that repeated forced flush by taking no input and returning `Z_BUF_ERROR` —
  or success with output room left — the second flush returns: the refusal is
  swallowed.
In both cases the cursor, `offset` and `length()` are as they were.
* Over a sink whose buffer is smaller than `2^32` bytes the first flush has
  emptied the buffer, and the second flush leaves the cursor, `offset` and
  `length()` as they were whatever zlib answers.
(A flush that returns had an underlying stream.) -/
theorem repeated_flush (z : Zlib σ) (hs : z.Sane) (hg : z.Greedy) (fuel : Nat)
    (s : ZlibOutStream σ) (h1 : (flush z fuel s).halt = none) :
    ((flush z fuel s).st.corked = true →
      (flush z fuel (flush z fuel s).st).halt = none ∧
      (flush z fuel (flush z fuel s).st).st.log = (flush z fuel s).st.log ∧
      (flush z fuel (flush z fuel s).st).st.ptr = (flush z fuel s).st.ptr ∧
      (flush z fuel (flush z fuel s).st).st.offset = (flush z fuel s).st.offset ∧
      length (flush z fuel (flush z fuel s).st).st = length (flush z fuel s).st) ∧
    ((flush z fuel s).st.corked = false →
      (∀ os os1, (flush z fuel s).st.underlying = some os → os.getptr 1 = some os1 →
        (deflateReply z Z_SYNC_FLUSH os1 (flushInput (flush z fuel s).st)).nin = 0 ∧
        ((deflateReply z Z_SYNC_FLUSH os1 (flushInput (flush z fuel s).st)).rc
            = Z_BUF_ERROR ∨
          (0 ≤ (deflateReply z Z_SYNC_FLUSH os1 (flushInput (flush z fuel s).st)).rc ∧
            (deflateReply z Z_SYNC_FLUSH os1 (flushInput (flush z fuel s).st)).out.length
              < os1.avail % UINT_RANGE))) →
      (flush z fuel (flush z fuel s).st).halt = none ∧
      (flush z fuel (flush z fuel s).st).st.ptr = (flush z fuel s).st.ptr ∧
      (flush z fuel (flush z fuel s).st).st.offset = (flush z fuel s).st.offset ∧
      length (flush z fuel (flush z fuel s).st).st = length (flush z fuel s).st) ∧
    (∀ os, (flush z fuel s).st.underlying = some os → os.bufSize < UINT_RANGE →
      (flush z fuel s).st.ptr = 0 ∧
      (flush z fuel (flush z fuel s).st).st.ptr = (flush z fuel s).st.ptr ∧
      (flush z fuel (flush z fuel s).st).st.offset = (flush z fuel s).st.offset ∧
      length (flush z fuel (flush z fuel s).st).st = length (flush z fuel s).st) := by
  obtain ⟨hc, hd⟩ := flush_ok_inv z fuel s h1
  obtain ⟨l1, l2⟩ := flush_level z fuel s h1
  have hl : (flush z fuel s).st.newLevel = (flush z fuel s).st.compressionLevel :=
    l2.trans l1.symm
  obtain ⟨os, -, os1, u1, u2, u3⟩ := deflate_ok_underlying z fuel _ _ hd
  have hfs := flushShift_frame (deflate z fuel (flushInput (checkCompressionLevel z fuel s).st)
    (flushMode (checkCompressionLevel z fuel s).st)).st
  have hst : (flush z fuel s).st = flushShift (deflate z fuel
      (flushInput (checkCompressionLevel z fuel s).st)
      (flushMode (checkCompressionLevel z fuel s).st)).st := by
    rw [flush_of_ok z fuel s hc hd]
  have hu : (flush z fuel s).st.underlying = some os1 := by
    rw [hst, hfs.2.1]
    exact u1
  have hck : (flush z fuel s).st.corked = (checkCompressionLevel z fuel s).st.corked := by
    rw [hst, hfs.2.2.2.2.2.1]
    exact (deflate_frame z fuel _ _).1.2.2.2.2.2
  refine ⟨?_, ?_, ?_⟩
  · intro hcork
    have hp : (flush z fuel s).st.ptr = 0 := flush_corked_empties z hg fuel s h1 hcork
    obtain ⟨r0, r1, r2, r3, -⟩ := flush_idle_corked z fuel _ os1 hl hu hcork hp
    exact ⟨r0, r3, r1, r2, by simp only [length, r1, r2]⟩
  · intro hcork hans
    have hm : flushMode (checkCompressionLevel z fuel s).st = Z_SYNC_FLUSH := by
      unfold flushMode
      rw [← hck, hcork]
      rfl
    rw [hm] at u3
    obtain ⟨f1, f2⟩ := u3 (fun h => absurd h.1 (by decide))
    obtain ⟨n, rfl⟩ := Nat.exists_eq_succ_of_ne_zero (Nat.pos_iff_ne_zero.mp f1)
    obtain ⟨os2, hg2⟩ := getptr_one_of_room os1 (by omega)
    obtain ⟨a1, a2⟩ := hans os1 os2 hu hg2
    obtain ⟨r0, r1, r2⟩ := flush_idle_sync z n _ os1 os2 hl hu hg2 hcork a1 a2
    exact ⟨r0, r1, r2, by simp only [length, r1, r2]⟩
  · intro os3 hu3 hsz
    have hp : (flush z fuel s).st.ptr = 0 := flush_empties_small z hg fuel s os3 h1 hu3 hsz
    have hle := (flush_ptr_le z hs fuel (flush z fuel s).st).1
    have hlen := flush_length z hs fuel (flush z fuel s).st
    have hp2 : (flush z fuel (flush z fuel s).st).st.ptr = (flush z fuel s).st.ptr := by
      omega
    refine ⟨hp, hp2, ?_, hlen⟩
    unfold length at hlen
    omega

/-- Witness for C6: a corked stream, whose second flush makes no call; an
uncorked stream whose second forced flush zlib refuses; an uncorked stream
whose second forced flush zlib answers with success, storing one byte; and the
second flush over the eight-byte sink. -/
theorem repeated_flush_witness :
    ((flush (storeZ none) 5 (flush (storeZ none) 5 (demo true 6 6)).st).halt = none ∧
      (flush (storeZ none) 5 (flush (storeZ none) 5 (demo true 6 6)).st).st.log
        = (flush (storeZ none) 5 (demo true 6 6)).st.log) ∧
    ((flush (storeZ none) 5 (flush (storeZ none) 5 (demo false 6 6)).st).halt = none ∧
      (flush (storeZ none) 5 (flush (storeZ none) 5 (demo false 6 6)).st).st.ptr
        = (flush (storeZ none) 5 (demo false 6 6)).st.ptr) ∧
    ((flush markZ 5 (flush markZ 5 (demo false 6 6)).st).halt = none ∧
      length (flush markZ 5 (flush markZ 5 (demo false 6 6)).st).st
        = length (flush markZ 5 (demo false 6 6)).st ∧
      callsSince (flush markZ 5 (demo false 6 6)).st
          (flush markZ 5 (flush markZ 5 (demo false 6 6)).st).st
        = [.getptr 1, .deflate 2 0 5 0 0 1, .setptr 1]) ∧
    ((flush (storeZ none) 5 (demo false 6 6)).st.ptr = 0 ∧
      (flush (storeZ none) 5 (flush (storeZ none) 5 (demo false 6 6)).st).st.offset
        = (flush (storeZ none) 5 (demo false 6 6)).st.offset) :=
  have a := (repeated_flush (storeZ none) (storeZ_sane none) storeZ_greedy 5 (demo true 6 6)
    (by decide)).1 (by decide)
  have b := (repeated_flush (storeZ none) (storeZ_sane none) storeZ_greedy 5 (demo false 6 6)
    (by decide)).2.1 (by decide) (fun _ _ _ _ => ⟨rfl, Or.inl rfl⟩)
  have c := (repeated_flush markZ markZ_sane markZ_greedy 5 (demo false 6 6)
    (by decide)).2.1 (by decide) (fun os os1 hu hg => markZ_reply os os1 hu hg)
  have d := (repeated_flush (storeZ none) (storeZ_sane none) storeZ_greedy 5 (demo false 6 6)
    (by decide)).2.2 ((sink8.store 0 [7, 9]).setptr 2) rfl (by decide)
  ⟨⟨a.1, a.2.1⟩, ⟨b.1, b.2.1⟩, ⟨c.1, c.2.2.2, by decide⟩, ⟨d.1, d.2.2.1⟩⟩

/-! ## A level change with a stale input window -/

/-- C10 (the code at the failing inputs).  First: a new stream is corked, given
`7, 9` and flushed, zlib taking `7` only; level 1 is then asked for.  The block
holds `9` at the cursor's start and zlib's window still points at offset 1.
The next `flush()` returns, and in it zlib takes `9, 9` — the sync flush of the
level change reads the stale window, the drain then reads the buffer — while the
buffer held the single byte `9` and `offset` grows by 1.  Second: a stream with
no underlying stream holds `7, 9`; `flush()` throws, the caller sets an
underlying stream and asks for level 1; the next `flush()` hands `7, 9` to zlib
twice and the sink receives `7, 9, 7, 9`. -/
theorem level_change_reads_stale_window :
    (ZlibOutStream.new (storeZ (some 1)) (some sink8) 6 (fun _ => 0) = .ok freshStream ∧
      (run (storeZ (some 1)) 5 freshStream shortDrainOps).halt = none ∧
      buffered shortDrained = [9] ∧ shortDrained.zs.total_in = [7] ∧
      shortDrained.newLevel ≠ shortDrained.compressionLevel ∧
      (flush (storeZ (some 1)) 5 shortDrained).halt = none ∧
      (flush (storeZ (some 1)) 5 shortDrained).st.zs.total_in = [7] ++ [9, 9] ∧
      (flush (storeZ (some 1)) 5 shortDrained).st.offset = shortDrained.offset + 1) ∧
    (buffered reboundAfterThrow = [7, 9] ∧ reboundAfterThrow.zs.total_in = [] ∧
      reboundAfterThrow.newLevel ≠ reboundAfterThrow.compressionLevel ∧
      (flush (storeZ none) 5 reboundAfterThrow).halt = none ∧
      (flush (storeZ none) 5 reboundAfterThrow).st.zs.total_in = [7, 9] ++ [7, 9] ∧
      (flush (storeZ none) 5 reboundAfterThrow).st.underlying.map OutStream.sent
        = some [7, 9, 7, 9] ∧
      (flush (storeZ none) 5 reboundAfterThrow).st.offset = reboundAfterThrow.offset + 2) := by
  refine ⟨⟨rfl, ?_⟩, ?_⟩ <;> decide

/-- C4 (the code at the failing inputs).  In the states `shortDrained` and
`reboundAfterThrow` — a level change pending while zlib's input window still
covers bytes of the block — `overrun(16384)` returns, and what
zlib took during the call followed by what is left in the buffer is not the
buffer from before the call: `9` became `9, 9`, and `7, 9` became `7, 9, 7, 9`. -/
theorem overrun_reads_stale_window :
    (buffered shortDrained = [9] ∧ shortDrained.zs.total_in = [7] ∧
      16384 ≤ shortDrained.bufSize ∧ avail shortDrained < 16384 ∧
      (overrun (storeZ (some 1)) 5 shortDrained 16384).halt = none ∧
      (overrun (storeZ (some 1)) 5 shortDrained 16384).st.zs.total_in = [7] ++ [9, 9] ∧
      buffered (overrun (storeZ (some 1)) 5 shortDrained 16384).st = []) ∧
    (ZlibOutStream.new (storeZ none) none 6 (fun _ => 0)
        = .ok { freshStream with underlying := none } ∧
      (run (storeZ none) 5 { freshStream with underlying := none } [.write [7, 9]]).halt
        = none ∧
      (flush (storeZ none) 5
        (run (storeZ none) 5 { freshStream with underlying := none } [.write [7, 9]]).st).halt
        = some .underlyingNotSet ∧
      buffered reboundAfterThrow = [7, 9] ∧ reboundAfterThrow.zs.total_in = [] ∧
      16384 ≤ reboundAfterThrow.bufSize ∧ avail reboundAfterThrow < 16384 ∧
      (overrun (storeZ none) 5 reboundAfterThrow 16384).halt = none ∧
      (overrun (storeZ none) 5 reboundAfterThrow 16384).st.zs.total_in
        = [7, 9] ++ [7, 9] ∧
      buffered (overrun (storeZ none) 5 reboundAfterThrow 16384).st = []) := by
  refine ⟨?_, rfl, ?_⟩ <;> decide

/-! ## Round trip -/

/-- Bytes stored in a block are read back from the place they were stored at. -/
theorem readMem_stored (buf : Nat → U8) (p : Nat) (bs : List U8) :
    readMem (writeMem buf p bs) p bs.length = bs := by
  apply List.ext_getElem
  · rw [readMem_length]
  · intro i h1 h2
    unfold readMem writeMem
    rw [List.getElem_map, List.getElem_range]
    rw [if_pos (by omega)]
    rw [List.getD_eq_getElem?_getD, show p + i - p = i by omega,
      List.getElem?_eq_getElem h2]
    rfl

/-- Over a sink whose buffer is smaller than `2^32` bytes, `avail_out` holds the
size of the region, and the amount committed is what zlib stored: the sink
receives exactly those bytes. -/
theorem sinkAfterSetptr_small (z : Zlib σ) (hs : z.Sane) (fl : Int) (os1 : OutStream)
    (s : ZlibOutStream σ) (hsz : os1.bufSize < UINT_RANGE) :
    (sinkAfterSetptr z fl os1 s).sent = os1.sent ++ (deflateReply z fl os1 s).out ∧
    (sinkAfterSetptr z fl os1 s).bufSize = os1.bufSize ∧
    commitAmount z fl os1 s = (deflateReply z fl os1 s).out.length ∧
    os1.avail % UINT_RANGE = os1.avail := by
  have hav : os1.avail % UINT_RANGE = os1.avail :=
    Nat.mod_eq_of_lt (Nat.lt_of_le_of_lt (Nat.sub_le _ _) hsz)
  have hout : (deflateReply z fl os1 s).out.length ≤ os1.avail % UINT_RANGE :=
    hs.deflate_out s.zs.state (readMem s.buf s.zs.next_in s.zs.avail_in)
      (os1.avail % UINT_RANGE) fl
  have hc : commitAmount z fl os1 s = (deflateReply z fl os1 s).out.length := by
    show os1.avail - (os1.avail % UINT_RANGE - (deflateReply z fl os1 s).out.length) = _
    rw [hav] at hout ⊢
    omega
  refine ⟨?_, rfl, hc, hav⟩
  unfold sinkAfterSetptr OutStream.setptr OutStream.store
  dsimp only
  rw [hc, readMem_stored]

/-- A drain that returns, on a zlib that is greedy and lossless and over a sink
whose buffer is smaller than `2^32` bytes: the input window is empty
afterwards, zlib's state accounts for what was sent, and after a sync flush
the bytes sent decompress to the input taken. -/
theorem deflateLoop_linked (z : Zlib σ) (hs : z.Sane) (hg : z.Greedy)
    (dec : List U8 → List U8) (J : σ → List U8 → List U8 → Prop) (hl : z.Lossless dec J)
    (fl : Int) (fuel : Nat) (os : OutStream) (s : ZlibOutStream σ)
    (hsz : os.bufSize < UINT_RANGE)
    (hJ : J s.zs.state s.zs.total_in os.sent)
    (h : (deflateLoop z fl fuel os s).halt = none) :
    ∃ os1, (deflateLoop z fl fuel os s).st.underlying = some os1 ∧
      os1.bufSize = os.bufSize ∧
      (deflateLoop z fl fuel os s).st.zs.avail_in = 0 ∧
      J (deflateLoop z fl fuel os s).st.zs.state (deflateLoop z fl fuel os s).st.zs.total_in
        os1.sent ∧
      (fl = Z_SYNC_FLUSH → dec os1.sent = (deflateLoop z fl fuel os s).st.zs.total_in) := by
  induction fuel generalizing os s with
  | zero =>
    unfold deflateLoop at h
    cases h
  | succ n ih =>
    unfold deflateLoop at h ⊢
    cases hg1 : os.getptr 1 with
    | none =>
      simp only [hg1] at h
      cases h
    | some os1 =>
      obtain ⟨gb, gs, ga, -⟩ := getptr_one os os1 hg1
      simp only [hg1] at h ⊢
      have hsz1 : os1.bufSize < UINT_RANGE := by rw [gb]; exact hsz
      obtain ⟨k1, k2, -, hav⟩ := sinkAfterSetptr_small z hs fl os1 s hsz1
      have hlen : (readMem s.buf s.zs.next_in s.zs.avail_in).length = s.zs.avail_in :=
        readMem_length _ _ _
      have hnin : (deflateReply z fl os1 s).nin ≤ s.zs.avail_in := by
        have := hs.deflate_nin s.zs.state (readMem s.buf s.zs.next_in s.zs.avail_in)
          (os1.avail % UINT_RANGE) fl
        rw [hlen] at this
        exact this
      have hok : 0 ≤ (deflateReply z fl os1 s).rc →
          J (deflateReply z fl os1 s).state
            (s.zs.total_in ++ (readMem s.buf s.zs.next_in s.zs.avail_in).take
              (deflateReply z fl os1 s).nin)
            (os1.sent ++ (deflateReply z fl os1 s).out) := by
        intro h0
        rw [gs]
        exact hl.deflate_ok s.zs.state s.zs.total_in os.sent
          (readMem s.buf s.zs.next_in s.zs.avail_in) (os1.avail % UINT_RANGE) fl hJ h0
      by_cases hrc : (deflateReply z fl os1 s).rc < 0
      · rw [if_pos hrc] at h ⊢
        by_cases hb : (deflateReply z fl os1 s).rc = Z_BUF_ERROR ∧ fl ≠ Z_NO_FLUSH
        · rw [if_pos hb]
          have hroom : 0 < os1.avail % UINT_RANGE := by rw [hav]; exact ga
          have hempty : readMem s.buf s.zs.next_in s.zs.avail_in = [] :=
            hg.refuses_empty s.zs.state _ (os1.avail % UINT_RANGE) fl hb.1 hroom
          have ha0 : s.zs.avail_in = 0 := by rw [← hlen, hempty]; rfl
          have hr : deflateReply z fl os1 s
              = z.deflate s.zs.state [] (os1.avail % UINT_RANGE) fl := by
            unfold deflateReply
            rw [hempty]
          have hb1 : (z.deflate s.zs.state [] (os1.avail % UINT_RANGE) fl).rc = Z_BUF_ERROR := by
            rw [← hr]
            exact hb.1
          refine ⟨_, rfl, gb, ?_, ?_, ?_⟩
          · show s.zs.avail_in - (deflateReply z fl os1 s).nin = 0
            omega
          · show J (deflateReply z fl os1 s).state
              (s.zs.total_in ++ (readMem s.buf s.zs.next_in s.zs.avail_in).take
                (deflateReply z fl os1 s).nin) os1.sent
            rw [hempty, List.take_nil, List.append_nil, gs, hr]
            exact hl.deflate_refused s.zs.state s.zs.total_in os.sent _ fl hJ hb1
          · intro hsync
            show dec os1.sent = s.zs.total_in ++
              (readMem s.buf s.zs.next_in s.zs.avail_in).take (deflateReply z fl os1 s).nin
            rw [hempty, List.take_nil, List.append_nil, gs]
            subst hsync
            exact hl.nothing_to_flush s.zs.state s.zs.total_in os.sent _ hJ hroom hb1
        · rw [if_neg hb] at h
          cases h
      · rw [if_neg hrc] at h ⊢
        have hrc0 : 0 ≤ (deflateReply z fl os1 s).rc := Int.not_lt.mp hrc
        have e0 : (afterDeflate z fl os1 s).zs.avail_out
            = os1.avail % UINT_RANGE - (deflateReply z fl os1 s).out.length := rfl
        by_cases h0 : (afterDeflate z fl os1 s).zs.avail_out = 0
        · rw [if_pos h0] at h ⊢
          obtain ⟨os2, i1, i2, i3, i4, i5⟩ := ih (sinkAfterSetptr z fl os1 s)
            (afterSetptr z fl os1 s) (by rw [k2]; exact hsz1)
            (by rw [k1]; exact hok hrc0) h
          exact ⟨os2, i1, by rw [i2, k2, gb], i3, i4, i5⟩
        · rw [if_neg h0]
          have hroom : (deflateReply z fl os1 s).out.length < os1.avail % UINT_RANGE := by
            rw [e0] at h0
            omega
          have hall : (deflateReply z fl os1 s).nin = s.zs.avail_in := by
            rw [← hlen]
            exact hg.takes_all s.zs.state _ (os1.avail % UINT_RANGE) fl hrc0 hroom
          refine ⟨_, rfl, by rw [k2, gb], ?_, ?_, ?_⟩
          · show s.zs.avail_in - (deflateReply z fl os1 s).nin = 0
            omega
          · show J (deflateReply z fl os1 s).state
              (s.zs.total_in ++ (readMem s.buf s.zs.next_in s.zs.avail_in).take
                (deflateReply z fl os1 s).nin) (sinkAfterSetptr z fl os1 s).sent
            rw [k1]
            exact hok hrc0
          · intro hsync
            show dec (sinkAfterSetptr z fl os1 s).sent = s.zs.total_in ++
              (readMem s.buf s.zs.next_in s.zs.avail_in).take (deflateReply z fl os1 s).nin
            rw [k1, hall, readMem_take _ _ _ _ (Nat.le_refl _), gs]
            subst hsync
            exact hl.flushed s.zs.state s.zs.total_in os.sent _ _ hJ hrc0 hroom

theorem deflate_linked (z : Zlib σ) (hs : z.Sane) (hg : z.Greedy)
    (dec : List U8 → List U8) (J : σ → List U8 → List U8 → Prop) (hl : z.Lossless dec J)
    (fl : Int) (fuel : Nat) (os : OutStream) (s : ZlibOutStream σ)
    (hu : s.underlying = some os) (hsz : os.bufSize < UINT_RANGE)
    (hJ : J s.zs.state s.zs.total_in os.sent)
    (h : (deflate z fuel s fl).halt = none) :
    ∃ os1, (deflate z fuel s fl).st.underlying = some os1 ∧
      os1.bufSize = os.bufSize ∧
      (deflate z fuel s fl).st.zs.avail_in = 0 ∧
      J (deflate z fuel s fl).st.zs.state (deflate z fuel s fl).st.zs.total_in os1.sent ∧
      (fl = Z_SYNC_FLUSH → dec os1.sent = (deflate z fuel s fl).st.zs.total_in) := by
  unfold deflate at h ⊢
  simp only [hu] at h ⊢
  by_cases hq : fl = Z_NO_FLUSH ∧ s.zs.avail_in = 0
  · rw [if_pos hq]
    refine ⟨os, hu, rfl, hq.2, hJ, ?_⟩
    intro hsync
    rw [hq.1] at hsync
    exact absurd hsync (by decide)
  · rw [if_neg hq] at h ⊢
    exact deflateLoop_linked z hs hg dec J hl fl fuel os s hsz hJ h

/-- With an empty input window the level check takes no input and keeps the link. -/
theorem checkCompressionLevel_linked (z : Zlib σ) (hs : z.Sane) (hg : z.Greedy)
    (dec : List U8 → List U8) (J : σ → List U8 → List U8 → Prop) (hl : z.Lossless dec J)
    (fuel : Nat) (W : List U8) (s : ZlibOutStream σ) (hL : Linked J W s)
    (h : (checkCompressionLevel z fuel s).halt = none) :
    Linked J W (checkCompressionLevel z fuel s).st := by
  obtain ⟨os, hu, hz, ha, hJ, hW⟩ := hL
  by_cases hlv : s.newLevel = s.compressionLevel
  · rw [checkCompressionLevel_eq_of_eq z fuel s hlv]
    exact ⟨os, hu, hz, ha, hJ, hW⟩
  · rw [checkCompressionLevel_eq_of_ne z fuel s hlv] at h ⊢
    cases hd : (deflate z fuel s Z_SYNC_FLUSH).halt with
    | some e =>
      simp only [hd] at h
      cases h
    | none =>
      simp only [hd] at h ⊢
      obtain ⟨os1, u1, b1, a1, J1, S1⟩ :=
        deflate_linked z hs hg dec J hl _ fuel os s hu hz hJ hd
      have S2 := S1 rfl
      obtain ⟨w1, w2, w3⟩ := deflate_window z hs fuel s Z_SYNC_FLUSH
      obtain ⟨⟨f1, -, f3, -, -, -⟩, -⟩ := deflate_frame z fuel s Z_SYNC_FLUSH
      have hni : (deflate z fuel s Z_SYNC_FLUSH).st.zs.next_in = s.zs.next_in := by omega
      rw [hni, Nat.sub_self] at w3
      have hti : (deflate z fuel s Z_SYNC_FLUSH).st.zs.total_in = s.zs.total_in := by
        rw [w3]
        simp [readMem]
      have hbuf : buffered (deflate z fuel s Z_SYNC_FLUSH).st = buffered s := by
        unfold buffered
        rw [f1, f3]
      rw [hti] at J1 S2
      generalize deflate z fuel s Z_SYNC_FLUSH = d at h u1 a1 J1 hti hbuf ⊢
      have hin : readMem d.st.buf d.st.zs.next_in d.st.zs.avail_in = [] := by
        rw [a1]
        rfl
      have hp := hl.params d.st.zs.state s.zs.total_in os1.sent d.st.zs.avail_out
        d.st.newLevel Z_DEFAULT_STRATEGY J1 S2
      unfold changeLevel at h ⊢
      dsimp only at h ⊢
      rw [hin] at h ⊢
      by_cases hbad : (z.deflateParams d.st.zs.state [] d.st.zs.avail_out d.st.newLevel
          Z_DEFAULT_STRATEGY).rc < 0 ∧
          (z.deflateParams d.st.zs.state [] d.st.zs.avail_out d.st.newLevel
          Z_DEFAULT_STRATEGY).rc ≠ Z_BUF_ERROR
      · rw [if_pos hbad] at h
        cases h
      · rw [if_neg hbad]
        refine ⟨os1.store d.st.zs.next_out (z.deflateParams d.st.zs.state [] d.st.zs.avail_out
          d.st.newLevel Z_DEFAULT_STRATEGY).out, ?_, ?_, ?_, ?_, ?_⟩
        · dsimp only
          rw [u1]
          rfl
        · exact b1.trans_lt hz
        · dsimp only
          omega
        · dsimp only
          rw [hti, List.take_nil, List.append_nil]
          exact hp hbad
        · show (d.st.zs.total_in ++ List.take _ []) ++ buffered d.st = W
          rw [hti, List.take_nil, List.append_nil, hbuf]
          exact hW

/-- A flush that returns keeps the link, empties the buffer, and — when the
stream is not corked — leaves in the sink bytes that decompress to all the
producer has written. -/
theorem flush_linked (z : Zlib σ) (hs : z.Sane) (hg : z.Greedy)
    (dec : List U8 → List U8) (J : σ → List U8 → List U8 → Prop) (hl : z.Lossless dec J)
    (fuel : Nat) (W : List U8) (s : ZlibOutStream σ) (hL : Linked J W s)
    (h : (flush z fuel s).halt = none) :
    Linked J W (flush z fuel s).st ∧ (flush z fuel s).st.ptr = 0 ∧
    (s.corked = false →
      ∃ os1, (flush z fuel s).st.underlying = some os1 ∧ dec os1.sent = W) := by
  obtain ⟨hc, hd⟩ := flush_ok_inv z fuel s h
  obtain ⟨os, cu, cz, ca, cJ, cW⟩ :=
    checkCompressionLevel_linked z hs hg dec J hl fuel W s hL hc
  obtain ⟨⟨a1, a2, a3, -, -, a6⟩, w, t⟩ := flush_drain z hs fuel s
  obtain ⟨-, -, c3, -, -, c6⟩ := checkCompressionLevel_frame z fuel s
  have cp := (checkCompressionLevel_frame z fuel s).1
  have hJi : J (flushInput (checkCompressionLevel z fuel s).st).zs.state
      (flushInput (checkCompressionLevel z fuel s).st).zs.total_in os.sent := cJ
  obtain ⟨os1, u1, b1, d0, dJ, dsync⟩ := deflate_linked z hs hg dec J hl
    (flushMode (checkCompressionLevel z fuel s).st) fuel os
    (flushInput (checkCompressionLevel z fuel s).st) cu cz hJi hd
  rw [flush_of_ok z fuel s hc hd]
  dsimp only
  have hbc : buffered (checkCompressionLevel z fuel s).st = buffered s := by
    unfold buffered
    rw [cp, c3]
  generalize (deflate z fuel (flushInput (checkCompressionLevel z fuel s).st)
    (flushMode (checkCompressionLevel z fuel s).st)).st = d at a1 a2 a3 a6 w t u1 d0 dJ dsync ⊢
  have hni : d.zs.next_in = s.ptr := by omega
  have hsh : flushShift d = { d with offset := d.offset + d.ptr, ptr := 0 } := by
    unfold flushShift
    rw [if_pos d0]
  have htot : d.zs.total_in = W := by
    rw [t, hni, ← cW, hbc]
    rfl
  rw [hsh]
  refine ⟨⟨os1, u1, by rw [b1]; exact cz, d0, dJ, ?_⟩, rfl, ?_⟩
  · show d.zs.total_in ++ readMem d.buf 0 0 = W
    rw [htot]
    simp [readMem]
  · intro hunc
    refine ⟨os1, u1, ?_⟩
    rw [← htot]
    apply dsync
    unfold flushMode
    rw [c6, hunc]
    rfl

theorem Linked.of_corked (J : σ → List U8 → List U8 → Prop) (W : List U8)
    (s : ZlibOutStream σ) (b : Bool) (h : Linked J W s) :
    Linked J W { s with corked := b } := h

theorem overrunLoop_linked (z : Zlib σ) (hs : z.Sane) (hg : z.Greedy)
    (dec : List U8 → List U8) (J : σ → List U8 → List U8 → Prop) (hl : z.Lossless dec J)
    (fuel needed : Nat) (W : List U8) (n : Nat) (s : ZlibOutStream σ) (hL : Linked J W s)
    (h : (overrunLoop z fuel needed n s).halt = none) :
    Linked J W (overrunLoop z fuel needed n s).st := by
  induction n generalizing s with
  | zero =>
    unfold overrunLoop
    split <;> exact hL
  | succ n ih =>
    unfold overrunLoop at h ⊢
    by_cases ha : avail s < needed
    · rw [if_pos ha] at h ⊢
      dsimp only at h ⊢
      cases hf : (flush z fuel { s with corked := true }).halt with
      | some e =>
        simp only [hf] at h
        cases h
      | none =>
        simp only [hf] at h ⊢
        have h1 := (flush_linked z hs hg dec J hl fuel W _
          (Linked.of_corked J W s true hL) hf).1
        exact ih _ (Linked.of_corked J W _ false h1) h
    · rw [if_neg ha]
      exact hL

theorem overrun_linked (z : Zlib σ) (hs : z.Sane) (hg : z.Greedy)
    (dec : List U8 → List U8) (J : σ → List U8 → List U8 → Prop) (hl : z.Lossless dec J)
    (fuel needed : Nat) (W : List U8) (s : ZlibOutStream σ) (hL : Linked J W s)
    (h : (overrun z fuel s needed).halt = none) :
    Linked J W (overrun z fuel s needed).st := by
  unfold overrun at h ⊢
  by_cases hn : needed > s.bufSize
  · rw [if_pos hn] at h
    cases h
  · rw [if_neg hn] at h ⊢
    dsimp only at h ⊢
    cases hc : (checkCompressionLevel z fuel s).halt with
    | some e =>
      simp only [hc] at h
      cases h
    | none =>
      simp only [hc] at h ⊢
      exact overrunLoop_linked z hs hg dec J hl fuel needed W fuel _
        (checkCompressionLevel_linked z hs hg dec J hl fuel W s hL hc) h

theorem readMem_writeMem (buf : Nat → U8) (p : Nat) (bs : List U8) :
    readMem (writeMem buf p bs) 0 (p + bs.length) = readMem buf 0 p ++ bs := by
  rw [readMem_add]
  congr 1
  · unfold readMem
    apply List.map_congr_left
    intro i hi
    rw [List.mem_range] at hi
    unfold writeMem
    rw [if_neg (by omega)]
  · apply List.ext_getElem
    · rw [readMem_length]
    · intro i h1 h2
      unfold readMem writeMem
      rw [List.getElem_map, List.getElem_range]
      rw [if_pos (by omega)]
      rw [List.getD_eq_getElem?_getD, show 0 + p + i - p = i by omega,
        List.getElem?_eq_getElem h2]
      rfl

theorem commit_linked (J : σ → List U8 → List U8 → Prop) (W : List U8)
    (s : ZlibOutStream σ) (bs : List U8) (hL : Linked J W s)
    (h : (commit s bs).halt = none) : Linked J (W ++ bs) (commit s bs).st := by
  obtain ⟨os, hu, hz, ha, hJ, hW⟩ := hL
  unfold commit at h ⊢
  by_cases hle : bs.length ≤ avail s
  · rw [if_pos hle]
    refine ⟨os, hu, hz, ha, hJ, ?_⟩
    show s.zs.total_in ++ readMem (writeMem s.buf s.ptr bs) 0 (s.ptr + bs.length) = W ++ bs
    rw [readMem_writeMem, ← List.append_assoc]
    exact congrArg (· ++ bs) hW
  · rw [if_neg hle] at h
    cases h

theorem step_linked (z : Zlib σ) (hs : z.Sane) (hg : z.Greedy)
    (dec : List U8 → List U8) (J : σ → List U8 → List U8 → Prop) (hl : z.Lossless dec J)
    (fuel : Nat) (W : List U8) (s : ZlibOutStream σ) (op : Op) (hL : Linked J W s)
    (hk : op.rebinds = false) (h : (step z fuel s op).halt = none) :
    Linked J (W ++ written [op]) (step z fuel s op).st := by
  cases op with
  | write bs =>
    simp only [step, write, written, List.append_nil] at h ⊢
    cases hr : (reserve z fuel s bs.length).halt with
    | some e =>
      simp only [hr] at h
      cases h
    | none =>
      simp only [hr] at h ⊢
      refine commit_linked J W _ bs ?_ h
      unfold reserve at hr ⊢
      by_cases hn : bs.length > avail s
      · rw [if_pos hn] at hr ⊢
        exact overrun_linked z hs hg dec J hl fuel _ W s hL hr
      · rw [if_neg hn]
        exact hL
  | flush =>
    simp only [step, written, List.append_nil] at h ⊢
    exact (flush_linked z hs hg dec J hl fuel W s hL h).1
  | overrun needed =>
    simp only [step, written, List.append_nil] at h ⊢
    exact overrun_linked z hs hg dec J hl fuel needed W s hL h
  | cork enable =>
    obtain ⟨os, hu, hz, ha, hJ, hW⟩ := hL
    simp only [step, cork, written, List.append_nil, hu]
    exact ⟨os.cork enable, rfl, hz, ha, hJ, hW⟩
  | setCompressionLevel level =>
    simp only [step, written, List.append_nil]
    exact hL
  | setUnderlying os => cases hk

theorem run_append_one (z : Zlib σ) (fuel : Nat) (s : ZlibOutStream σ) (ops : List Op)
    (op : Op) :
    run z fuel s (ops ++ [op])
      = match (run z fuel s ops).halt with
        | some _ => run z fuel s ops
        | none => step z fuel (run z fuel s ops).st op := by
  induction ops generalizing s with
  | nil =>
    simp only [List.nil_append, run]
    generalize step z fuel s op = r
    obtain ⟨st, halt⟩ := r
    cases halt <;> rfl
  | cons o ops ih =>
    simp only [List.cons_append, run]
    cases hh : (step z fuel s o).halt with
    | some e => simp only [hh]
    | none =>
      simp only [hh]
      exact ih _

theorem run_linked (z : Zlib σ) (hs : z.Sane) (hg : z.Greedy)
    (dec : List U8 → List U8) (J : σ → List U8 → List U8 → Prop) (hl : z.Lossless dec J)
    (fuel : Nat) (ops : List Op) (W : List U8) (s : ZlibOutStream σ) (hL : Linked J W s)
    (hk : ∀ op ∈ ops, op.rebinds = false) (h : (run z fuel s ops).halt = none) :
    Linked J (W ++ written ops) (run z fuel s ops).st := by
  induction ops generalizing s W with
  | nil =>
    simp only [run, written, List.append_nil]
    exact hL
  | cons op ops ih =>
    unfold run at h ⊢
    dsimp only at h ⊢
    cases he : (step z fuel s op).halt with
    | some e =>
      simp only [he] at h
      cases h
    | none =>
      simp only [he] at h ⊢
      have h1 := step_linked z hs hg dec J hl fuel W s op hL
        (hk op (List.mem_cons_self _ _)) he
      have h2 := ih _ _ h1 (fun o ho => hk o (List.mem_cons_of_mem _ ho)) h
      rw [written_cons op ops, ← List.append_assoc]
      exact h2

/-! ## The stand-in library is greedy and lossless -/

theorem storeZ_lossless : (storeZ none).Lossless storeDec storeJ := by
  refine ⟨?_, ?_, ?_, ?_, ?_, ?_⟩
  · intro lv _
    rfl
  · intro st fed out inp ao fl hJ h1
    unfold storeJ at hJ ⊢
    by_cases hfl : fl = Z_NO_FLUSH
    · subst hfl
      rw [storeZ_deflate_hold]
      dsimp only
      rw [List.append_nil, ← List.append_assoc, hJ]
    · rw [storeZ_deflate_sync st inp ao fl hfl] at h1 ⊢
      by_cases he : st ++ inp = []
      · rw [if_pos he] at h1
        exact absurd h1 (by dsimp only; decide)
      · rw [if_neg he]
        dsimp only
        rw [List.take_length, List.append_assoc, List.take_append_drop,
          ← List.append_assoc, hJ]
  · intro st fed out ao fl hJ h1
    unfold storeJ at hJ ⊢
    by_cases hfl : fl = Z_NO_FLUSH
    · subst hfl
      rw [storeZ_deflate_hold] at h1
      exact absurd h1 (by dsimp only; decide)
    · rw [storeZ_deflate_sync st [] ao fl hfl] at h1 ⊢
      by_cases he : st ++ [] = []
      · rw [if_pos he]
        dsimp only
        rw [List.append_nil] at he ⊢
        rw [he, List.append_nil] at hJ
        exact hJ
      · rw [if_neg he] at h1
        exact absurd h1 (by dsimp only; decide)
  · intro st fed out ao lv sg hJ _ _
    exact hJ
  · intro st fed out inp ao hJ h1 h2
    unfold storeJ at hJ
    unfold storeDec
    rw [storeZ_deflate_sync st inp ao _ (by decide)] at h1 h2 ⊢
    by_cases he : st ++ inp = []
    · rw [if_pos he] at h1
      exact absurd h1 (by dsimp only; decide)
    · rw [if_neg he] at h2 ⊢
      dsimp only at h2 ⊢
      rw [List.length_take] at h2
      rw [List.take_of_length_le (by omega), ← List.append_assoc, hJ]
  · intro st fed out ao hJ _ h1
    unfold storeJ at hJ
    unfold storeDec
    rw [storeZ_deflate_sync st [] ao _ (by decide)] at h1
    by_cases he : st ++ [] = []
    · rw [List.append_nil] at he
      rw [he, List.append_nil] at hJ
      exact hJ
    · rw [if_neg he] at h1
      exact absurd h1 (by dsimp only; decide)

theorem heldZ_deflate (pend inp : List U8) (ao : Nat) (fl : Int) :
    heldZ.deflate pend inp ao fl
      = if ao = 0 then ⟨Z_BUF_ERROR, 0, [], pend⟩
        else if fl = Z_NO_FLUSH then ⟨Z_OK, inp.length, [], pend ++ inp⟩
        else if pend ++ inp = [] then ⟨Z_BUF_ERROR, 0, [], []⟩
        else ⟨Z_OK, inp.length, (pend ++ inp).take ao, (pend ++ inp).drop ao⟩ := rfl

theorem heldZ_sane : heldZ.Sane := by
  refine ⟨?_, ?_, ?_, ?_⟩
  · intro st inp ao fl
    rw [heldZ_deflate]
    split
    · exact Nat.zero_le _
    · split
      · exact Nat.le_refl _
      · split
        · exact Nat.zero_le _
        · exact Nat.le_refl _
  · intro st inp ao fl
    rw [heldZ_deflate]
    split
    · exact Nat.zero_le _
    · split
      · exact Nat.zero_le _
      · split
        · exact Nat.zero_le _
        · exact List.length_take_le _ _
  · intro st inp ao lv sg
    exact Nat.zero_le _
  · intro st inp ao lv sg
    exact List.length_take_le _ _

theorem heldZ_greedy : heldZ.Greedy := by
  refine ⟨?_, ?_⟩
  · intro st inp ao fl h1 _
    rw [heldZ_deflate] at h1 ⊢
    by_cases h0 : ao = 0
    · rw [if_pos h0] at h1
      exact absurd h1 (by dsimp only; decide)
    · rw [if_neg h0] at h1 ⊢
      by_cases hfl : fl = Z_NO_FLUSH
      · rw [if_pos hfl]
      · rw [if_neg hfl] at h1 ⊢
        by_cases he : st ++ inp = []
        · rw [if_pos he] at h1
          exact absurd h1 (by dsimp only; decide)
        · rw [if_neg he]
  · intro st inp ao fl h1 hpos
    rw [heldZ_deflate, if_neg (Nat.pos_iff_ne_zero.mp hpos)] at h1
    by_cases hfl : fl = Z_NO_FLUSH
    · rw [if_pos hfl] at h1
      exact absurd h1 (by dsimp only; decide)
    · rw [if_neg hfl] at h1
      by_cases he : st ++ inp = []
      · exact (List.append_eq_nil.mp he).2
      · rw [if_neg he] at h1
        exact absurd h1 (by dsimp only; decide)

theorem heldZ_lossless : heldZ.Lossless storeDec storeJ := by
  refine ⟨?_, ?_, ?_, ?_, ?_, ?_⟩
  · intro lv _
    rfl
  · intro st fed out inp ao fl hJ h1
    unfold storeJ at hJ ⊢
    rw [heldZ_deflate] at h1 ⊢
    by_cases h0 : ao = 0
    · rw [if_pos h0] at h1
      exact absurd h1 (by dsimp only; decide)
    · rw [if_neg h0] at h1 ⊢
      by_cases hfl : fl = Z_NO_FLUSH
      · rw [if_pos hfl]
        dsimp only
        rw [List.take_length, List.append_nil, ← List.append_assoc, hJ]
      · rw [if_neg hfl] at h1 ⊢
        by_cases he : st ++ inp = []
        · rw [if_pos he] at h1
          exact absurd h1 (by dsimp only; decide)
        · rw [if_neg he]
          dsimp only
          rw [List.take_length, List.append_assoc, List.take_append_drop,
            ← List.append_assoc, hJ]
  · intro st fed out ao fl hJ h1
    unfold storeJ at hJ ⊢
    rw [heldZ_deflate] at h1 ⊢
    by_cases h0 : ao = 0
    · rw [if_pos h0]
      exact hJ
    · rw [if_neg h0] at h1 ⊢
      by_cases hfl : fl = Z_NO_FLUSH
      · rw [if_pos hfl] at h1
        exact absurd h1 (by dsimp only; decide)
      · rw [if_neg hfl] at h1 ⊢
        by_cases he : st ++ [] = []
        · rw [if_pos he]
          dsimp only
          rw [List.append_nil] at he ⊢
          rw [he, List.append_nil] at hJ
          exact hJ
        · rw [if_neg he] at h1
          exact absurd h1 (by dsimp only; decide)
  · intro st fed out ao lv sg hJ hd _
    unfold storeJ at hJ ⊢
    unfold storeDec at hd
    rw [← hd] at hJ
    have hst : st = [] := List.append_right_eq_self.mp hJ
    subst hst
    show out ++ List.drop ao [] = fed
    rw [List.drop_nil, List.append_nil]
    exact hd
  · intro st fed out inp ao hJ h1 h2
    unfold storeJ at hJ
    unfold storeDec
    rw [heldZ_deflate] at h1 h2 ⊢
    by_cases h0 : ao = 0
    · rw [if_pos h0] at h1
      exact absurd h1 (by dsimp only; decide)
    · rw [if_neg h0, if_neg (by decide)] at h1 h2 ⊢
      by_cases he : st ++ inp = []
      · rw [if_pos he] at h1
        exact absurd h1 (by dsimp only; decide)
      · rw [if_neg he] at h2 ⊢
        dsimp only at h2 ⊢
        rw [List.length_take] at h2
        rw [List.take_of_length_le (by omega), ← List.append_assoc, hJ]
  · intro st fed out ao hJ hpos h1
    unfold storeJ at hJ
    unfold storeDec
    rw [heldZ_deflate, if_neg (Nat.pos_iff_ne_zero.mp hpos), if_neg (by decide)] at h1
    by_cases he : st ++ [] = []
    · rw [List.append_nil] at he
      rw [he, List.append_nil] at hJ
      exact hJ
    · rw [if_neg he] at h1
      exact absurd h1 (by dsimp only; decide)

/-- C1 (amended). Round trip: take a zlib that keeps the calling convention, is
greedy and is lossless with decompressor `dec`, and a stream newly constructed
over a sink that has sent nothing and whose buffer is smaller than `2^32`
bytes.  After any sequence of producer calls — writes, cork and uncork, flush,
overrun, setCompressionLevel — that all return, followed by a `flush()` that
returns and finds the stream uncorked, decompressing the bytes committed to the
sink gives exactly the bytes the producer wrote, in order. -/
theorem round_trip (z : Zlib σ) (hs : z.Sane) (hg : z.Greedy)
    (dec : List U8 → List U8) (J : σ → List U8 → List U8 → Prop) (hl : z.Lossless dec J)
    (fuel : Nat) (os : OutStream) (level : Int) (mem : Nat → U8) (s0 : ZlibOutStream σ)
    (ops : List Op) (hsent : os.sent = []) (hsize : os.bufSize < UINT_RANGE)
    (hnew : ZlibOutStream.new z (some os) level mem = .ok s0)
    (hkeep : ∀ op ∈ ops, op.rebinds = false)
    (hrun : (run z fuel s0 (ops ++ [.flush])).halt = none)
    (hunc : (run z fuel s0 ops).st.corked = false) :
    ∃ os1, (run z fuel s0 (ops ++ [.flush])).st.underlying = some os1 ∧
      dec os1.sent = written ops := by
  have h0 : Linked J [] s0 := by
    unfold ZlibOutStream.new at hnew
    dsimp only at hnew
    by_cases hi : (z.deflateInit level).1 ≠ Z_OK
    · rw [if_pos hi] at hnew
      cases hnew
    · rw [if_neg hi] at hnew
      cases hnew
      refine ⟨os, rfl, hsize, rfl, ?_, ?_⟩
      · rw [hsent]
        exact hl.init level (not_not.mp hi)
      · rfl
  rw [run_append_one] at hrun ⊢
  cases hr : (run z fuel s0 ops).halt with
  | some e =>
    simp only [hr] at hrun
    cases hrun
  | none =>
    simp only [hr] at hrun ⊢
    have h1 := run_linked z hs hg dec J hl fuel ops [] s0 h0 hkeep hr
    rw [List.nil_append] at h1
    exact (flush_linked z hs hg dec J hl fuel _ _ h1 hrun).2.2 hunc

/-- Witness for C1 (amended): `sessionOps` on a new stream over `sink8`, with
the stand-in library `heldZ`, then a flush: the sink holds `7, 9, 1, 4`. -/
theorem round_trip_witness :
    sink8.bufSize < UINT_RANGE ∧
    (run heldZ 5 freshStream (sessionOps ++ [.flush])).halt = none ∧
    Option.map storeDec
      (Option.map OutStream.sent
        (run heldZ 5 freshStream (sessionOps ++ [.flush])).st.underlying)
      = some [7, 9, 1, 4] := by
  refine ⟨by decide, by decide, ?_⟩
  obtain ⟨os1, h1, h2⟩ := round_trip heldZ heldZ_sane heldZ_greedy storeDec
    storeJ heldZ_lossless 5 sink8 6 (fun _ => 0) freshStream sessionOps rfl (by decide) rfl
    (by decide) (by decide) (by decide)
  rw [h1]
  exact congrArg some h2

/-- Counterexample to C1 as stated: the producer corks a new stream, writes
`7, 9` and flushes; every call returns, yet nothing has been committed to the
sink (zlib, asked with `Z_NO_FLUSH`, holds the bytes), so what the sink holds
does not decompress to what was written. -/
theorem corked_flush_sends_nothing :
    ZlibOutStream.new (storeZ none) (some sink8) 6 (fun _ => 0) = .ok freshStream ∧
    (run (storeZ none) 5 freshStream [.cork true, .write [7, 9], .flush]).halt = none ∧
    written [.cork true, .write [7, 9], .flush] = [7, 9] ∧
    Option.map OutStream.sent
      (run (storeZ none) 5 freshStream [.cork true, .write [7, 9], .flush]).st.underlying
      = some [] ∧
    Option.map storeDec
      (Option.map OutStream.sent
        (run (storeZ none) 5 freshStream [.cork true, .write [7, 9], .flush]).st.underlying)
      ≠ some (written [.cork true, .write [7, 9], .flush]) := by
  refine ⟨rfl, ?_⟩
  decide

/-! ## The outcome of a level change -/

theorem changeLevel_outcome (z : Zlib σ) (t : ZlibOutStream σ) :
    (¬ ((z.deflateParams t.zs.state (readMem t.buf t.zs.next_in t.zs.avail_in)
          t.zs.avail_out t.newLevel Z_DEFAULT_STRATEGY).rc < 0 ∧
        (z.deflateParams t.zs.state (readMem t.buf t.zs.next_in t.zs.avail_in)
          t.zs.avail_out t.newLevel Z_DEFAULT_STRATEGY).rc ≠ Z_BUF_ERROR) →
      (changeLevel z t).halt = none ∧ (changeLevel z t).st.compressionLevel = t.newLevel) ∧
    (((z.deflateParams t.zs.state (readMem t.buf t.zs.next_in t.zs.avail_in)
          t.zs.avail_out t.newLevel Z_DEFAULT_STRATEGY).rc < 0 ∧
        (z.deflateParams t.zs.state (readMem t.buf t.zs.next_in t.zs.avail_in)
          t.zs.avail_out t.newLevel Z_DEFAULT_STRATEGY).rc ≠ Z_BUF_ERROR) →
      (changeLevel z t).halt = some .deflateParamsFailed ∧
      (changeLevel z t).st.compressionLevel = t.compressionLevel) := by
  unfold changeLevel
  dsimp only
  refine ⟨fun h => ?_, fun h => ?_⟩
  · rw [if_neg h]
    exact ⟨rfl, rfl⟩
  · rw [if_pos h]
    exact ⟨rfl, rfl⟩

/-- With no level change pending, a flush leaves both levels alone, whether it
returns or throws. -/
theorem flush_levels_of_eq (z : Zlib σ) (fuel : Nat) (s : ZlibOutStream σ)
    (hl : s.newLevel = s.compressionLevel) :
    (flush z fuel s).st.compressionLevel = s.compressionLevel ∧
    (flush z fuel s).st.newLevel = s.newLevel := by
  obtain ⟨⟨-, -, -, d4, -, -⟩, d7⟩ := deflate_frame z fuel (flushInput s) (flushMode s)
  rw [flush_eq_of_level_eq z fuel s hl]
  split
  · exact ⟨d7, d4⟩
  · obtain ⟨-, -, f3, f4, -⟩ := flushShift_frame (deflate z fuel (flushInput s) (flushMode s)).st
    exact ⟨f3.trans d7, f4.trans d4⟩

theorem overrunLoop_levels_of_eq (z : Zlib σ) (fuel needed n : Nat) (s : ZlibOutStream σ)
    (hl : s.newLevel = s.compressionLevel) :
    (overrunLoop z fuel needed n s).st.compressionLevel = s.compressionLevel ∧
    (overrunLoop z fuel needed n s).st.newLevel = s.newLevel := by
  induction n generalizing s with
  | zero =>
    unfold overrunLoop
    split <;> exact ⟨rfl, rfl⟩
  | succ n ih =>
    unfold overrunLoop
    by_cases ha : avail s < needed
    · rw [if_pos ha]
      dsimp only
      obtain ⟨l1, l2⟩ := flush_levels_of_eq z fuel { s with corked := true } hl
      split
      · exact ⟨l1, l2⟩
      · obtain ⟨m1, m2⟩ := ih { (flush z fuel { s with corked := true }).st with corked := false }
          (l2.trans (hl.trans l1.symm))
        exact ⟨m1.trans l1, m2.trans l2⟩
    · rw [if_neg ha]
      exact ⟨rfl, rfl⟩

/-- A flush leaves `compressionLevel` as the level check left it. -/
theorem flush_level_of_check (z : Zlib σ) (fuel : Nat) (s : ZlibOutStream σ) :
    (flush z fuel s).st.compressionLevel
      = (checkCompressionLevel z fuel s).st.compressionLevel := by
  cases hc : (checkCompressionLevel z fuel s).halt with
  | some e => rw [flush_of_check_halt z fuel s e hc]
  | none =>
    have d7 := (deflate_frame z fuel (flushInput (checkCompressionLevel z fuel s).st)
      (flushMode (checkCompressionLevel z fuel s).st)).2
    cases hd : (deflate z fuel (flushInput (checkCompressionLevel z fuel s).st)
        (flushMode (checkCompressionLevel z fuel s).st)).halt with
    | some e =>
      rw [flush_of_deflate_halt z fuel s e hc hd]
      exact d7
    | none =>
      rw [flush_of_ok z fuel s hc hd]
      exact ((flushShift_frame _).2.2.1).trans d7

/-- An overrun within the capacity leaves `compressionLevel` as the level check
left it, provided the check returned. -/
theorem overrun_level_of_check (z : Zlib σ) (fuel : Nat) (s : ZlibOutStream σ)
    (needed : Nat) (hn : needed ≤ s.bufSize)
    (hc : (checkCompressionLevel z fuel s).halt = none) :
    (overrun z fuel s needed).st.compressionLevel
      = (checkCompressionLevel z fuel s).st.compressionLevel := by
  unfold overrun
  rw [if_neg (Nat.not_lt.mpr hn)]
  simp only [hc]
  have l1 := checkCompressionLevel_level z fuel s hc
  have l2 := (checkCompressionLevel_frame z fuel s).2.2.2.1
  exact (overrunLoop_levels_of_eq z fuel needed fuel _ (l2.trans l1.symm)).1

/-- C11. Level-change failure handling: a level change is pending and the sync
flush before `deflateParams` has returned.  (a) If `deflateParams` answers a
non-negative code or `Z_BUF_ERROR`, `checkCompressionLevel` returns, the new
level is adopted, and it is the level the `flush()` or `overrun()` in progress
ends with.  (b) If it answers any other negative code, `checkCompressionLevel`
throws "deflateParams failed", and so do `flush()` and `overrun()`, with
`compressionLevel` at its old value. -/
theorem level_change_outcome (z : Zlib σ) (fuel : Nat) (s : ZlibOutStream σ)
    (hl : s.newLevel ≠ s.compressionLevel)
    (hd : (deflate z fuel s Z_SYNC_FLUSH).halt = none) :
    ((0 ≤ (levelChangeReply z fuel s).rc ∨ (levelChangeReply z fuel s).rc = Z_BUF_ERROR) →
      (checkCompressionLevel z fuel s).halt = none ∧
      (checkCompressionLevel z fuel s).st.compressionLevel = s.newLevel ∧
      (flush z fuel s).st.compressionLevel = s.newLevel ∧
      (∀ needed, needed ≤ s.bufSize →
        (overrun z fuel s needed).st.compressionLevel = s.newLevel)) ∧
    (((levelChangeReply z fuel s).rc < 0 ∧ (levelChangeReply z fuel s).rc ≠ Z_BUF_ERROR) →
      (checkCompressionLevel z fuel s).halt = some .deflateParamsFailed ∧
      (checkCompressionLevel z fuel s).st.compressionLevel = s.compressionLevel ∧
      (flush z fuel s).halt = some .deflateParamsFailed ∧
      (flush z fuel s).st.compressionLevel = s.compressionLevel ∧
      (∀ needed, needed ≤ s.bufSize →
        (overrun z fuel s needed).halt = some .deflateParamsFailed ∧
        (overrun z fuel s needed).st.compressionLevel = s.compressionLevel)) := by
  have hck : checkCompressionLevel z fuel s = changeLevel z (deflate z fuel s Z_SYNC_FLUSH).st := by
    rw [checkCompressionLevel_eq_of_ne z fuel s hl]
    simp only [hd]
  obtain ⟨⟨-, -, -, d4, -, -⟩, d7⟩ := deflate_frame z fuel s Z_SYNC_FLUSH
  obtain ⟨ha, hb⟩ := changeLevel_outcome z (deflate z fuel s Z_SYNC_FLUSH).st
  refine ⟨fun h => ?_, fun h => ?_⟩
  · have hnot : ¬ ((levelChangeReply z fuel s).rc < 0 ∧
        (levelChangeReply z fuel s).rc ≠ Z_BUF_ERROR) := by
      rintro ⟨h1, h2⟩
      rcases h with h | h
      · omega
      · exact h2 h
    obtain ⟨a1, a2⟩ := ha hnot
    have c1 : (checkCompressionLevel z fuel s).halt = none := by rw [hck]; exact a1
    have c2 : (checkCompressionLevel z fuel s).st.compressionLevel = s.newLevel := by
      rw [hck, a2]; exact d4
    refine ⟨c1, c2, ?_, ?_⟩
    · rw [flush_level_of_check, c2]
    · intro needed hn
      rw [overrun_level_of_check z fuel s needed hn c1, c2]
  · obtain ⟨b1, b2⟩ := hb h
    have c1 : (checkCompressionLevel z fuel s).halt = some .deflateParamsFailed := by
      rw [hck]; exact b1
    have c2 : (checkCompressionLevel z fuel s).st.compressionLevel = s.compressionLevel := by
      rw [hck, b2]; exact d7
    refine ⟨c1, c2, ?_, ?_, ?_⟩
    · rw [flush_of_check_halt z fuel s _ c1]; exact c1
    · rw [flush_of_check_halt z fuel s _ c1]; exact c2
    · intro needed hn
      unfold overrun
      rw [if_neg (Nat.not_lt.mpr hn)]
      simp only [c1]
      exact ⟨trivial, c2⟩

/-- Witness for C11: a stream at level 6 asked for level 1; `deflateParams`
answers `Z_BUF_ERROR` (the level is adopted) or `-2` (the flush throws and the
level stays 6). -/
theorem level_change_outcome_witness :
    ((flush (paramsZ Z_BUF_ERROR) 5 (demo false 6 1)).st.compressionLevel = 1 ∧
      (checkCompressionLevel (paramsZ Z_BUF_ERROR) 5 (demo false 6 1)).halt = none) ∧
    ((flush (paramsZ (-2)) 5 (demo false 6 1)).halt = some .deflateParamsFailed ∧
      (flush (paramsZ (-2)) 5 (demo false 6 1)).st.compressionLevel = 6) :=
  have a := (level_change_outcome (paramsZ Z_BUF_ERROR) 5 (demo false 6 1) (by decide)
    (by decide)).1 (Or.inr (by decide))
  have b := (level_change_outcome (paramsZ (-2)) 5 (demo false 6 1) (by decide)
    (by decide)).2 (by decide)
  ⟨⟨a.2.2.1, a.1⟩, ⟨b.2.2.1, b.2.2.2.1⟩⟩

/-! ## The cursor and the buffer across a flush -/

theorem overrunLoop_ptr_le (z : Zlib σ) (hz : z.Sane) (fuel needed n : Nat)
    (s : ZlibOutStream σ) :
    (overrunLoop z fuel needed n s).st.ptr ≤ s.ptr ∧
    (overrunLoop z fuel needed n s).st.bufSize = s.bufSize := by
  induction n generalizing s with
  | zero =>
    unfold overrunLoop
    split <;> exact ⟨Nat.le_refl _, rfl⟩
  | succ n ih =>
    unfold overrunLoop
    by_cases ha : avail s < needed
    · rw [if_pos ha]
      dsimp only
      obtain ⟨f1, f2⟩ := flush_ptr_le z hz fuel { s with corked := true }
      split
      · exact ⟨f1, f2⟩
      · obtain ⟨m1, m2⟩ :=
          ih { (flush z fuel { s with corked := true }).st with corked := false }
        exact ⟨Nat.le_trans m1 f1, m2.trans f2⟩
    · rw [if_neg ha]
      exact ⟨Nat.le_refl _, rfl⟩

theorem overrun_ptr_le (z : Zlib σ) (hz : z.Sane) (fuel : Nat) (s : ZlibOutStream σ)
    (needed : Nat) :
    (overrun z fuel s needed).st.ptr ≤ s.ptr ∧
    (overrun z fuel s needed).st.bufSize = s.bufSize := by
  obtain ⟨c1, -, -, -, c5, -⟩ := checkCompressionLevel_frame z fuel s
  unfold overrun
  split
  · exact ⟨Nat.le_refl _, rfl⟩
  · dsimp only
    split
    · exact ⟨Nat.le_of_eq c1, c5⟩
    · obtain ⟨m1, m2⟩ := overrunLoop_ptr_le z hz fuel needed fuel
        (checkCompressionLevel z fuel s).st
      exact ⟨Nat.le_trans m1 (Nat.le_of_eq c1), m2.trans c5⟩

/-- C16. No-op when nothing is pending: in a state with an underlying stream,
`corked` set, no level change pending and an empty buffer, `flush()` returns
having made no call into zlib and no `getptr`/`setptr` call on the sink (the
call log, zlib's state and the sink are as before), and the cursor, `offset`
and the block are unchanged. -/
theorem flush_nothing_pending (z : Zlib σ) (fuel : Nat) (s : ZlibOutStream σ)
    (os : OutStream) (hu : s.underlying = some os) (hc : s.corked = true)
    (hl : s.compressionLevel = s.newLevel) (hp : s.ptr = 0) :
    (flush z fuel s).halt = none ∧
    (flush z fuel s).st.log = s.log ∧
    (flush z fuel s).st.zs.state = s.zs.state ∧
    (flush z fuel s).st.underlying = some os ∧
    (flush z fuel s).st.ptr = 0 ∧
    (flush z fuel s).st.offset = s.offset ∧
    (flush z fuel s).st.buf = s.buf := by
  obtain ⟨r0, r1, r2, r3, r4, r5, r6⟩ := flush_idle_corked z fuel s os hl.symm hu hc hp
  exact ⟨r0, r3, r5, r6.trans hu, r1.trans hp, r2, r4⟩

/-- Witness for C16: a corked stream over `sink8` with an empty buffer. -/
theorem flush_nothing_pending_witness :
    (flush (storeZ none) 5 { demo true 6 6 with ptr := 0 }).halt = none ∧
    (flush (storeZ none) 5 { demo true 6 6 with ptr := 0 }).st.log = [] :=
  have h := flush_nothing_pending (storeZ none) 5 { demo true 6 6 with ptr := 0 } sink8
    rfl rfl rfl rfl
  ⟨h.1, h.2.1⟩

/-- C18. Cursor bound: after construction the cursor is at `start`, within the
capacity; for a zlib that takes no more input than it is given, `flush()` and
`overrun()` — whether they return or throw — never move the cursor up and never
change the capacity, so `ptr ≤ bufSize` is kept. -/
theorem cursor_bound (z : Zlib σ) (hz : z.Sane) (fuel : Nat) :
    (∀ (os : Option OutStream) (level : Int) (mem : Nat → U8) (s0 : ZlibOutStream σ),
      ZlibOutStream.new z os level mem = .ok s0 → s0.ptr = 0 ∧ s0.ptr ≤ s0.bufSize) ∧
    (∀ s : ZlibOutStream σ, (flush z fuel s).st.ptr ≤ s.ptr) ∧
    (∀ s : ZlibOutStream σ, s.ptr ≤ s.bufSize →
      (flush z fuel s).st.ptr ≤ (flush z fuel s).st.bufSize) ∧
    (∀ (s : ZlibOutStream σ) (needed : Nat), s.ptr ≤ s.bufSize →
      (overrun z fuel s needed).st.ptr ≤ (overrun z fuel s needed).st.bufSize) := by
  refine ⟨?_, fun s => (flush_ptr_le z hz fuel s).1, ?_, ?_⟩
  · intro os level mem s0 hnew
    unfold ZlibOutStream.new at hnew
    dsimp only at hnew
    split at hnew
    · cases hnew
    · cases hnew
      exact ⟨rfl, Nat.zero_le _⟩
  · intro s hs
    obtain ⟨f1, f2⟩ := flush_ptr_le z hz fuel s
    rw [f2]
    exact Nat.le_trans f1 hs
  · intro s needed hs
    obtain ⟨f1, f2⟩ := overrun_ptr_le z hz fuel s needed
    rw [f2]
    exact Nat.le_trans f1 hs

/-- Witness for C18: a flush and an overrun on a stream of capacity 4 holding 2. -/
theorem cursor_bound_witness :
    (flush (storeZ (some 1)) 5 (demo true 6 1)).st.ptr ≤ 4 ∧
    (overrun (storeZ (some 1)) 5 (demo true 6 1) 3).st.ptr ≤ 4 :=
  ⟨(cursor_bound (storeZ (some 1)) (storeZ_sane _) 5).2.2.1 (demo true 6 1) (by decide),
   (cursor_bound (storeZ (some 1)) (storeZ_sane _) 5).2.2.2 (demo true 6 1) 3 (by decide)⟩

/-- C19. Flush failure keeps the buffer: when `flush()` does not return — no
underlying stream, "deflate failed", or any other exception on the way — the
cursor, `offset` and the block are exactly as before the call, so `length()`
and the buffered bytes are unchanged. -/
theorem flush_failure_keeps_buffer (z : Zlib σ) (fuel : Nat) (s : ZlibOutStream σ)
    (e : Halt) (h : (flush z fuel s).halt = some e) :
    (flush z fuel s).st.ptr = s.ptr ∧
    (flush z fuel s).st.offset = s.offset ∧
    (flush z fuel s).st.buf = s.buf ∧
    length (flush z fuel s).st = length s ∧
    buffered (flush z fuel s).st = buffered s := by
  obtain ⟨a1, a2, a3, -, -, -⟩ := flush_halt_same z fuel s e h
  refine ⟨a1, a2, a3, ?_, ?_⟩
  · unfold length
    rw [a1, a2]
  · unfold buffered
    rw [a1, a3]

/-- Witness for C19: a flush with no underlying stream, and a corked flush in
which zlib answers `Z_BUF_ERROR`, which is fatal under `Z_NO_FLUSH`. -/
theorem flush_failure_keeps_buffer_witness :
    (buffered (flush (storeZ none) 5 (setUnderlying (demo false 6 6) none)).st = [7, 9] ∧
      (flush (storeZ none) 5 (setUnderlying (demo false 6 6) none)).halt
        = some .underlyingNotSet) ∧
    (buffered (flush onceZ 5 (flush onceZ 5 corkedTwo).st).st
        = buffered (flush onceZ 5 corkedTwo).st ∧
      (flush onceZ 5 (flush onceZ 5 corkedTwo).st).halt = some .deflateFailed) :=
  ⟨⟨(flush_failure_keeps_buffer (storeZ none) 5 (setUnderlying (demo false 6 6) none)
      .underlyingNotSet (by decide)).2.2.2.2, by decide⟩,
   ⟨(flush_failure_keeps_buffer onceZ 5 (flush onceZ 5 corkedTwo).st
      .deflateFailed (by decide)).2.2.2.2, by decide⟩⟩

/-! ## The calls a drain makes -/

theorem deflateModes_append (a b : List Call) :
    deflateModes (a ++ b) = deflateModes a ++ deflateModes b := by
  induction a with
  | nil => rfl
  | cons c a ih => cases c <;> simp [deflateModes, ih]

theorem paramsCalls_append (a b : List Call) :
    paramsCalls (a ++ b) = paramsCalls a + paramsCalls b := by
  induction a with
  | nil => simp [paramsCalls]
  | cons c a ih =>
    cases c <;> simp [paramsCalls, ih]
    all_goals omega

theorem committed_append (a b : List Call) :
    committed (a ++ b) = committed a + committed b := by
  induction a with
  | nil => simp [committed]
  | cons c a ih =>
    cases c <;> simp [committed, ih]
    all_goals omega

theorem produced_append (a b : List Call) :
    produced (a ++ b) = produced a + produced b := by
  induction a with
  | nil => simp [produced]
  | cons c a ih =>
    cases c <;> simp [produced, ih]
    all_goals omega

theorem onlyMode_append (fl : Int) (a b : List Call) (ha : onlyMode fl a)
    (hb : onlyMode fl b) : onlyMode fl (a ++ b) := by
  intro m hm
  rw [deflateModes_append, List.mem_append] at hm
  rcases hm with h | h
  · exact ha m h
  · exact hb m h

theorem callsSince_of_log (s t : ZlibOutStream σ) (added : List Call)
    (h : t.log = s.log ++ added) : callsSince s t = added := by
  unfold callsSince
  rw [h, List.drop_left]

theorem onlyMode_of_none (fl : Int) (l : List Call) (h : deflateModes l = []) :
    onlyMode fl l := by
  intro m hm
  rw [h] at hm
  cases hm

theorem DrainOnly.same (fl : Int) (s t : ZlibOutStream σ) (h : t.log = s.log) :
    DrainOnly fl s t :=
  ⟨[], by rw [h, List.append_nil], onlyMode_of_none fl [] rfl, rfl⟩

theorem DrainOnly.step {fl : Int} {s t u : ZlibOutStream σ} (h1 : DrainOnly fl s t)
    (h2 : DrainOnly fl t u) : DrainOnly fl s u := by
  obtain ⟨a, a1, a2, a3⟩ := h1
  obtain ⟨b, b1, b2, b3⟩ := h2
  refine ⟨a ++ b, ?_, onlyMode_append fl a b a2 b2, ?_⟩
  · rw [b1, a1, List.append_assoc]
  · rw [paramsCalls_append, a3, b3]

theorem afterDeflate_log (z : Zlib σ) (fl : Int) (os1 : OutStream) (s : ZlibOutStream σ) :
    (afterDeflate z fl os1 s).log = s.log ++ [.getptr 1,
      .deflate fl s.zs.avail_in (os1.avail % UINT_RANGE) (deflateReply z fl os1 s).rc
        (deflateReply z fl os1 s).nin (deflateReply z fl os1 s).out.length] := rfl

theorem afterSetptr_log (z : Zlib σ) (fl : Int) (os1 : OutStream) (s : ZlibOutStream σ) :
    (afterSetptr z fl os1 s).log = s.log ++ [.getptr 1,
      .deflate fl s.zs.avail_in (os1.avail % UINT_RANGE) (deflateReply z fl os1 s).rc
        (deflateReply z fl os1 s).nin (deflateReply z fl os1 s).out.length,
      .setptr (commitAmount z fl os1 s)] := by
  show (s.log ++ _) ++ _ = _
  rw [List.append_assoc]
  rfl

theorem deflateLoop_calls (z : Zlib σ) (fl : Int) (fuel : Nat) (os : OutStream)
    (s : ZlibOutStream σ) : DrainOnly fl s (deflateLoop z fl fuel os s).st := by
  induction fuel generalizing os s with
  | zero => exact DrainOnly.same fl _ _ rfl
  | succ n ih =>
    unfold deflateLoop
    split
    · exact ⟨[.getptr 1], rfl, onlyMode_of_none fl _ rfl, rfl⟩
    · rename_i os1 _
      have hone : ∀ (ai ao : Nat) (rc : Int) (ni no : Nat),
          onlyMode fl [.getptr 1, .deflate fl ai ao rc ni no] := by
        intro ai ao rc ni no m hm
        simp only [deflateModes, List.mem_singleton] at hm
        exact hm
      split
      · split
        · exact ⟨_, afterDeflate_log z fl os1 s, hone _ _ _ _ _, rfl⟩
        · exact ⟨_, afterDeflate_log z fl os1 s, hone _ _ _ _ _, rfl⟩
      · have hfirst : DrainOnly fl s (afterSetptr z fl os1 s) := by
          refine ⟨_, afterSetptr_log z fl os1 s, ?_, rfl⟩
          intro m hm
          simp only [deflateModes, List.mem_singleton] at hm
          exact hm
        split
        · exact DrainOnly.step hfirst (ih _ _)
        · exact hfirst

theorem deflate_calls (z : Zlib σ) (fuel : Nat) (s : ZlibOutStream σ) (fl : Int) :
    DrainOnly fl s (deflate z fuel s fl).st := by
  unfold deflate
  split
  · exact DrainOnly.same fl _ _ rfl
  · split
    · exact DrainOnly.same fl _ _ rfl
    · exact deflateLoop_calls z fl fuel _ s

/-- With no level change pending, the calls of a flush are those of its drain. -/
theorem flush_calls_of_eq (z : Zlib σ) (fuel : Nat) (s : ZlibOutStream σ)
    (hl : s.newLevel = s.compressionLevel) :
    DrainOnly (flushMode s) s (flush z fuel s).st ∧
    (flush z fuel s).st.log = (deflate z fuel (flushInput s) (flushMode s)).st.log := by
  have hd : DrainOnly (flushMode s) s (deflate z fuel (flushInput s) (flushMode s)).st := by
    obtain ⟨a, a1, a2, a3⟩ := deflate_calls z fuel (flushInput s) (flushMode s)
    exact ⟨a, a1, a2, a3⟩
  rw [flush_eq_of_level_eq z fuel s hl]
  split
  · exact ⟨hd, rfl⟩
  · have hf := (flushShift_frame (deflate z fuel (flushInput s) (flushMode s)).st).2.2.2.2.2.2
    obtain ⟨a, a1, a2, a3⟩ := hd
    exact ⟨⟨a, hf.trans a1, a2, a3⟩, hf⟩

theorem overrunLoop_calls_of_eq (z : Zlib σ) (fuel needed n : Nat) (s : ZlibOutStream σ)
    (hl : s.newLevel = s.compressionLevel) :
    DrainOnly Z_NO_FLUSH s (overrunLoop z fuel needed n s).st := by
  induction n generalizing s with
  | zero =>
    unfold overrunLoop
    split <;> exact DrainOnly.same _ _ _ rfl
  | succ n ih =>
    unfold overrunLoop
    by_cases ha : avail s < needed
    · rw [if_pos ha]
      dsimp only
      have hf : DrainOnly Z_NO_FLUSH s (flush z fuel { s with corked := true }).st := by
        obtain ⟨a, a1, a2, a3⟩ := (flush_calls_of_eq z fuel { s with corked := true } hl).1
        exact ⟨a, a1, a2, a3⟩
      obtain ⟨l1, l2⟩ := flush_levels_of_eq z fuel { s with corked := true } hl
      split
      · exact hf
      · have hn := ih { (flush z fuel { s with corked := true }).st with corked := false }
          (l2.trans (hl.trans l1.symm))
        obtain ⟨b, b1, b2, b3⟩ := hn
        exact DrainOnly.step hf ⟨b, b1, b2, b3⟩
    · rw [if_neg ha]
      exact DrainOnly.same _ _ _ rfl

theorem DrainOnly.calls {fl : Int} {s t : ZlibOutStream σ} (h : DrainOnly fl s t) :
    onlyMode fl (callsSince s t) ∧ paramsCalls (callsSince s t) = 0 := by
  obtain ⟨a, a1, a2, a3⟩ := h
  rw [callsSince_of_log s t a a1]
  exact ⟨a2, a3⟩

/-- A drain loop that returns has called `deflate` at least once. -/
theorem deflateLoop_called (z : Zlib σ) (fl : Int) (fuel : Nat) (os : OutStream)
    (s : ZlibOutStream σ) (h : (deflateLoop z fl fuel os s).halt = none) :
    deflateModes (callsSince s (deflateLoop z fl fuel os s).st) ≠ [] := by
  cases fuel with
  | zero =>
    unfold deflateLoop at h
    cases h
  | succ n =>
    unfold deflateLoop at h ⊢
    cases hg : os.getptr 1 with
    | none =>
      simp only [hg] at h
      cases h
    | some os1 =>
      simp only [hg] at h ⊢
      split
      · split
        · rw [callsSince_of_log _ _ _ (afterDeflate_log z fl os1 s)]
          simp [deflateModes]
        · rw [callsSince_of_log _ _ _ (afterDeflate_log z fl os1 s)]
          simp [deflateModes]
      · split
        · obtain ⟨b, b1, -, -⟩ := deflateLoop_calls z fl n
            (sinkAfterSetptr z fl os1 s) (afterSetptr z fl os1 s)
          rw [callsSince_of_log _ _ _ (b1.trans (by
            rw [afterSetptr_log, List.append_assoc]))]
          simp [deflateModes]
        · rw [callsSince_of_log _ _ _ (afterSetptr_log z fl os1 s)]
          simp [deflateModes]

theorem overrun_calls_of_eq (z : Zlib σ) (fuel : Nat) (s : ZlibOutStream σ) (needed : Nat)
    (hl : s.newLevel = s.compressionLevel) :
    DrainOnly Z_NO_FLUSH s (overrun z fuel s needed).st ∧
    (overrun z fuel s needed).st.compressionLevel = s.compressionLevel ∧
    (overrun z fuel s needed).st.newLevel = s.newLevel := by
  unfold overrun
  split
  · exact ⟨DrainOnly.same _ _ _ rfl, rfl, rfl⟩
  · rw [checkCompressionLevel_eq_of_eq z fuel s hl]
    dsimp only
    exact ⟨overrunLoop_calls_of_eq z fuel needed fuel s hl,
      overrunLoop_levels_of_eq z fuel needed fuel s hl⟩

/-- C14. Flush mode selection: with no level change pending, every call into
zlib's `deflate` made by `flush()` has mode `Z_NO_FLUSH` when `corked` is set and
`Z_SYNC_FLUSH` when it is not, and a flush that returns has made such a call
unless the stream is corked with an empty buffer; every `deflate` call made by
`overrun()` has mode `Z_NO_FLUSH`, whatever `corked` was on entry.  The drains
of the overrun loop use `Z_NO_FLUSH` also after a level change: the calls made
after the level check are all of that mode. -/
theorem flush_mode_selection (z : Zlib σ) (fuel : Nat) :
    (∀ s : ZlibOutStream σ, s.compressionLevel = s.newLevel →
      (s.corked = true → onlyMode Z_NO_FLUSH (callsSince s (flush z fuel s).st)) ∧
      (s.corked = false → onlyMode Z_SYNC_FLUSH (callsSince s (flush z fuel s).st)) ∧
      ((flush z fuel s).halt = none → s.corked = false ∨ 0 < s.ptr →
        deflateModes (callsSince s (flush z fuel s).st) ≠ []) ∧
      (∀ needed, onlyMode Z_NO_FLUSH (callsSince s (overrun z fuel s needed).st))) ∧
    (∀ (s : ZlibOutStream σ) (needed : Nat), needed ≤ s.bufSize →
      (checkCompressionLevel z fuel s).halt = none →
      onlyMode Z_NO_FLUSH
        (callsSince (checkCompressionLevel z fuel s).st (overrun z fuel s needed).st)) := by
  refine ⟨fun s hl => ?_, fun s needed hn hc => ?_⟩
  · obtain ⟨hcalls, hlog⟩ := flush_calls_of_eq z fuel s hl.symm
    have hm := hcalls.calls.1
    refine ⟨fun hc => ?_, fun hc => ?_, fun hret hsome => ?_,
      fun needed => (overrun_calls_of_eq z fuel s needed hl.symm).1.calls.1⟩
    · have : flushMode s = Z_NO_FLUSH := by unfold flushMode; rw [if_pos hc]
      rw [← this]
      exact hm
    · have : flushMode s = Z_SYNC_FLUSH := by
        unfold flushMode
        rw [hc]
        rfl
      rw [← this]
      exact hm
    · have hd : (deflate z fuel (flushInput s) (flushMode s)).halt = none := by
        have := (flush_ok_inv z fuel s hret).2
        rw [checkCompressionLevel_eq_of_eq z fuel s hl.symm] at this
        exact this
      have hq : ¬ (flushMode s = Z_NO_FLUSH ∧ (flushInput s).zs.avail_in = 0) := by
        rintro ⟨q1, q2⟩
        have q3 : s.ptr = 0 := q2
        rcases hsome with h | h
        · unfold flushMode at q1
          rw [h] at q1
          exact absurd q1 (by decide)
        · omega
      have hcs : callsSince s (flush z fuel s).st
          = callsSince (flushInput s) (deflate z fuel (flushInput s) (flushMode s)).st := by
        unfold callsSince
        rw [hlog]
        rfl
      rw [hcs]
      unfold deflate at hd ⊢
      cases hu : (flushInput s).underlying with
      | none =>
        simp only [hu] at hd
        cases hd
      | some os =>
        simp only [hu] at hd ⊢
        rw [if_neg hq] at hd ⊢
        exact deflateLoop_called z _ fuel os _ hd
  · have l1 := checkCompressionLevel_level z fuel s hc
    have l2 := (checkCompressionLevel_frame z fuel s).2.2.2.1
    have hloop := overrunLoop_calls_of_eq z fuel needed fuel
      (checkCompressionLevel z fuel s).st (l2.trans l1.symm)
    unfold overrun
    rw [if_neg (Nat.not_lt.mpr hn)]
    simp only [hc]
    exact hloop.calls.1

/-- Witness for C14: a corked and an uncorked flush of two bytes, and an overrun
on an uncorked stream with a level change pending. -/
theorem flush_mode_selection_witness :
    onlyMode Z_NO_FLUSH (callsSince (demo true 6 6) (flush (storeZ none) 5 (demo true 6 6)).st) ∧
    onlyMode Z_SYNC_FLUSH
      (callsSince (demo false 6 6) (flush (storeZ none) 5 (demo false 6 6)).st) ∧
    deflateModes (callsSince (demo false 6 6) (flush (storeZ none) 5 (demo false 6 6)).st)
      ≠ [] ∧
    onlyMode Z_NO_FLUSH
      (callsSince (checkCompressionLevel (storeZ none) 5 (demo false 6 1)).st
        (overrun (storeZ none) 5 (demo false 6 1) 3).st) :=
  have a := (flush_mode_selection (storeZ none) 5).1 (demo true 6 6) rfl
  have b := (flush_mode_selection (storeZ none) 5).1 (demo false 6 6) rfl
  ⟨a.1 rfl, b.2.1 rfl, b.2.2.1 (by decide) (Or.inl rfl),
   (flush_mode_selection (storeZ none) 5).2 (demo false 6 1) 3 (by decide) (by decide)⟩

/-- C17. No redundant parameter change: with no level change pending, `flush()`
makes no `deflateParams` call and no call beyond those of its own drain (its
call log is that of `deflate(corked ? Z_NO_FLUSH : Z_SYNC_FLUSH)` on the
buffer), `overrun()` makes no `deflateParams` call and no sync-flush call, and
both leave `compressionLevel` and `newLevel` as they were; and after any
`flush()` or `overrun()` that returns, the two levels are equal. -/
theorem no_redundant_level_change (z : Zlib σ) (fuel : Nat) :
    (∀ s : ZlibOutStream σ, s.compressionLevel = s.newLevel →
      paramsCalls (callsSince s (flush z fuel s).st) = 0 ∧
      (flush z fuel s).st.log = (deflate z fuel (flushInput s) (flushMode s)).st.log ∧
      (flush z fuel s).st.compressionLevel = s.compressionLevel ∧
      (flush z fuel s).st.newLevel = s.newLevel ∧
      (∀ needed,
        paramsCalls (callsSince s (overrun z fuel s needed).st) = 0 ∧
        onlyMode Z_NO_FLUSH (callsSince s (overrun z fuel s needed).st) ∧
        (overrun z fuel s needed).st.compressionLevel = s.compressionLevel ∧
        (overrun z fuel s needed).st.newLevel = s.newLevel)) ∧
    (∀ s : ZlibOutStream σ, (flush z fuel s).halt = none →
      (flush z fuel s).st.compressionLevel = (flush z fuel s).st.newLevel) ∧
    (∀ (s : ZlibOutStream σ) (needed : Nat), (overrun z fuel s needed).halt = none →
      (overrun z fuel s needed).st.compressionLevel
        = (overrun z fuel s needed).st.newLevel) := by
  refine ⟨fun s hl => ?_, fun s h => ?_, fun s needed h => ?_⟩
  · obtain ⟨hcalls, hlog⟩ := flush_calls_of_eq z fuel s hl.symm
    obtain ⟨l1, l2⟩ := flush_levels_of_eq z fuel s hl.symm
    refine ⟨hcalls.calls.2, hlog, l1, l2, fun needed => ?_⟩
    obtain ⟨o1, o2, o3⟩ := overrun_calls_of_eq z fuel s needed hl.symm
    exact ⟨o1.calls.2, o1.calls.1, o2, o3⟩
  · obtain ⟨l1, l2⟩ := flush_level z fuel s h
    rw [l1, l2]
  · have l1 := overrun_level z fuel s needed h
    rw [l1]
    unfold overrun at h ⊢
    by_cases hn : needed > s.bufSize
    · rw [if_pos hn] at h
      cases h
    · rw [if_neg hn] at h ⊢
      cases hc : (checkCompressionLevel z fuel s).halt with
      | some e =>
        simp only [hc] at h
        cases h
      | none =>
        simp only [hc] at h ⊢
        have c1 := checkCompressionLevel_level z fuel s hc
        have c2 := (checkCompressionLevel_frame z fuel s).2.2.2.1
        rw [(overrunLoop_levels_of_eq z fuel needed fuel _ (c2.trans c1.symm)).2]
        exact c2.symm

/-- Witness for C17: an uncorked flush at level 6 with level 6 asked for makes
no `deflateParams` call; a flush after a request for level 3 ends with both
levels at 3. -/
theorem no_redundant_level_change_witness :
    paramsCalls (callsSince (demo false 6 6) (flush (storeZ none) 5 (demo false 6 6)).st) = 0 ∧
    (flush (storeZ none) 5 (demo false 6 3)).st.compressionLevel
      = (flush (storeZ none) 5 (demo false 6 3)).st.newLevel :=
  ⟨((no_redundant_level_change (storeZ none) 5).1 (demo false 6 6) rfl).1,
   (no_redundant_level_change (storeZ none) 5).2.1 (demo false 6 3) (by decide)⟩

/-! ## What one drain commits -/

theorem DrainSteps.balance {fl : Int} {l : List Call} (h : DrainSteps fl l) :
    committed l = produced l := by
  induction h with
  | last ai chunk rc nin nout _ _ => simp [committed, produced]
  | refused ai chunk nin _ _ => simp [committed, produced]
  | more ai chunk rc nin rest _ _ ih => simp [committed, produced, ih]

theorem deflateLoop_steps (z : Zlib σ) (hz : z.Sane) (hq : z.Stalls) (fl : Int)
    (fuel : Nat) (os : OutStream) (s : ZlibOutStream σ) (hsz : os.bufSize < UINT_RANGE)
    (h : (deflateLoop z fl fuel os s).halt = none) :
    ∃ added, (deflateLoop z fl fuel os s).st.log = s.log ++ added ∧ DrainSteps fl added := by
  induction fuel generalizing os s with
  | zero =>
    unfold deflateLoop at h
    cases h
  | succ n ih =>
    unfold deflateLoop at h ⊢
    cases hg : os.getptr 1 with
    | none =>
      simp only [hg] at h
      cases h
    | some os1 =>
      obtain ⟨gb, -, ga, -⟩ := getptr_one os os1 hg
      simp only [hg] at h ⊢
      have hsz1 : os1.bufSize < UINT_RANGE := by rw [gb]; exact hsz
      obtain ⟨-, k2, k3, hav⟩ := sinkAfterSetptr_small z hz fl os1 s hsz1
      have hout : (deflateReply z fl os1 s).out.length ≤ os1.avail := by
        have hle : (deflateReply z fl os1 s).out.length ≤ os1.avail % UINT_RANGE :=
          hz.deflate_out s.zs.state (readMem s.buf s.zs.next_in s.zs.avail_in)
            (os1.avail % UINT_RANGE) fl
        rw [hav] at hle
        exact hle
      have hno : (deflateReply z fl os1 s).rc = Z_BUF_ERROR →
          (deflateReply z fl os1 s).out = [] :=
        hq.no_output s.zs.state (readMem s.buf s.zs.next_in s.zs.avail_in)
          (os1.avail % UINT_RANGE) fl
      have e0 : (afterDeflate z fl os1 s).zs.avail_out
          = os1.avail - (deflateReply z fl os1 s).out.length := by
        show os1.avail % UINT_RANGE - _ = _
        rw [hav]
      by_cases hrc : (deflateReply z fl os1 s).rc < 0
      · rw [if_pos hrc] at h ⊢
        by_cases hb : (deflateReply z fl os1 s).rc = Z_BUF_ERROR ∧ fl ≠ Z_NO_FLUSH
        · rw [if_pos hb]
          refine ⟨_, afterDeflate_log z fl os1 s, ?_⟩
          rw [hb.1, hno hb.1, hav, List.length_nil]
          exact DrainSteps.refused _ _ _ hb.2 ga
        · rw [if_neg hb] at h
          cases h
      · rw [if_neg hrc] at h ⊢
        have hrc0 : 0 ≤ (deflateReply z fl os1 s).rc := Int.not_lt.mp hrc
        by_cases h0 : (afterDeflate z fl os1 s).zs.avail_out = 0
        · rw [if_pos h0] at h ⊢
          obtain ⟨b, b1, b2⟩ := ih _ _ (by rw [k2]; exact hsz1) h
          have hfull : (deflateReply z fl os1 s).out.length = os1.avail := by
            rw [e0] at h0
            omega
          refine ⟨_, b1.trans ?_, DrainSteps.more s.zs.avail_in os1.avail
            (deflateReply z fl os1 s).rc (deflateReply z fl os1 s).nin b hrc0 b2⟩
          rw [afterSetptr_log, k3, hav, hfull, List.append_assoc]
          rfl
        · rw [if_neg h0]
          refine ⟨_, afterSetptr_log z fl os1 s, ?_⟩
          rw [k3, hav]
          exact DrainSteps.last _ _ _ _ _ hrc0 (by rw [e0] at h0; omega)

/-- Over a sink whose buffer is smaller than `2^32` bytes, and for a zlib that
keeps the calling convention and stores nothing when it answers `Z_BUF_ERROR`,
a `deflate(mode)` invocation that returns either made no call (mode
`Z_NO_FLUSH`, no input), or its calls form `DrainSteps`: every step commits to
the sink exactly what zlib stored in that step, and another step follows
exactly when the region was filled.  In total the amounts passed to `setptr`
add up to the bytes zlib stored. -/
theorem drain_commits_small (z : Zlib σ) (hz : z.Sane) (hq : z.Stalls) (fuel : Nat)
    (s : ZlibOutStream σ) (fl : Int) (os : OutStream) (hu : s.underlying = some os)
    (hsz : os.bufSize < UINT_RANGE) (h : (deflate z fuel s fl).halt = none) :
    (callsSince s (deflate z fuel s fl).st = [] ∨
      DrainSteps fl (callsSince s (deflate z fuel s fl).st)) ∧
    committed (callsSince s (deflate z fuel s fl).st)
      = produced (callsSince s (deflate z fuel s fl).st) := by
  have key : callsSince s (deflate z fuel s fl).st = [] ∨
      DrainSteps fl (callsSince s (deflate z fuel s fl).st) := by
    unfold deflate at h ⊢
    simp only [hu] at h ⊢
    by_cases hq0 : fl = Z_NO_FLUSH ∧ s.zs.avail_in = 0
    · rw [if_pos hq0]
      left
      exact callsSince_of_log s s [] (List.append_nil _).symm
    · rw [if_neg hq0] at h ⊢
      obtain ⟨b, b1, b2⟩ := deflateLoop_steps z hz hq fl fuel os s hsz h
      right
      rw [callsSince_of_log _ _ b b1]
      exact b2
  refine ⟨key, ?_⟩
  rcases key with h0 | h1
  · rw [h0]
    rfl
  · exact h1.balance

theorem storeZ_stalls (lim : Option Nat) : (storeZ lim).Stalls := by
  refine ⟨?_⟩
  intro st inp ao fl h
  simp only [storeZ] at h ⊢
  split
  · rfl
  · rename_i hfl
    rw [if_neg hfl] at h
    split
    · rfl
    · rename_i he
      rw [if_neg he] at h
      exact absurd h (by dsimp only; decide)

/-- What one step of the drain commits, for a zlib that keeps the calling
convention: the bytes zlib stored in the step and, beyond them, as many bytes
as the truncation to `uInt` took off the region's size. -/
theorem commitAmount_excess (z : Zlib σ) (hs : z.Sane) (fl : Int) (os1 : OutStream)
    (s : ZlibOutStream σ) :
    commitAmount z fl os1 s
      = (deflateReply z fl os1 s).out.length + (os1.avail - os1.avail % UINT_RANGE) := by
  have hout : (deflateReply z fl os1 s).out.length ≤ os1.avail % UINT_RANGE :=
    hs.deflate_out s.zs.state (readMem s.buf s.zs.next_in s.zs.avail_in)
      (os1.avail % UINT_RANGE) fl
  have hle : os1.avail % UINT_RANGE ≤ os1.avail := Nat.mod_le _ _
  show os1.avail - (os1.avail % UINT_RANGE - (deflateReply z fl os1 s).out.length) = _
  omega

/-- A sync flush of two bytes into a sink that offers one byte at a time takes
three steps — two full regions, then zlib's refusal — and commits what zlib
stored. -/
theorem drain_commits_narrow :
    callsSince demoNarrow (deflate (storeZ none) 5 demoNarrow Z_SYNC_FLUSH).st
      = [.getptr 1, .deflate 2 2 1 0 2 1, .setptr 1,
         .getptr 1, .deflate 2 0 1 0 0 1, .setptr 1,
         .getptr 1, .deflate 2 0 1 (-5) 0 0] ∧
    committed (callsSince demoNarrow (deflate (storeZ none) 5 demoNarrow Z_SYNC_FLUSH).st)
      = produced (callsSince demoNarrow (deflate (storeZ none) 5 demoNarrow Z_SYNC_FLUSH).st) :=
  ⟨by decide,
   (drain_commits_small (storeZ none) (storeZ_sane none) (storeZ_stalls none) 5 demoNarrow
     Z_SYNC_FLUSH sink1 rfl (by decide) (by decide)).2⟩

/-- C15 (the code at the failing input).  Drain-loop commit exactness fails over
a sink whose free region is `2^32` bytes or more: `zs->avail_out`, a 32-bit
`uInt`, receives `chunk` modulo `2^32`, and `setptr(chunk - zs->avail_out)`
subtracts what is left of that from the full `chunk`.  Here a new stream is
built over a sink that offers `2^32 + 8` bytes; the producer writes `7, 9` and
flushes.  The drain makes one step: zlib is given `avail_out = 8` and stores
two bytes, and the stream commits `4294967298` bytes — the two bytes and `2^32`
bytes zlib never wrote. -/
theorem drain_overcommits :
    ZlibOutStream.new (storeZ none) (some sinkWide) 6 (fun _ => 0) = .ok freshWide ∧
    sinkWide.avail = 4294967296 + 8 ∧
    (run (storeZ none) 5 freshWide [.write [7, 9], .flush]).halt = none ∧
    callsSince freshWide (run (storeZ none) 5 freshWide [.write [7, 9], .flush]).st
      = [.getptr 1, .deflate Z_SYNC_FLUSH 2 8 Z_OK 2 2, .setptr 4294967298] ∧
    produced (callsSince freshWide
      (run (storeZ none) 5 freshWide [.write [7, 9], .flush]).st) = 2 ∧
    committed (callsSince freshWide
      (run (storeZ none) 5 freshWide [.write [7, 9], .flush]).st) = 4294967298 ∧
    Option.map OutStream.ptr
      (run (storeZ none) 5 freshWide [.write [7, 9], .flush]).st.underlying
      = some 4294967298 := by
  refine ⟨rfl, ?_⟩
  decide

/-! ## The corked flag across an overrun -/

/-- The loop of `overrun` ends with `corked` cleared once it has run a round,
and leaves the flag alone when it has not. -/
theorem overrunLoop_corked (z : Zlib σ) (fuel needed n : Nat) (s : ZlibOutStream σ)
    (h : (overrunLoop z fuel needed n s).halt = none) :
    (overrunLoop z fuel needed n s).st.corked
      = if avail s < needed then false else s.corked := by
  induction n generalizing s with
  | zero =>
    unfold overrunLoop at h ⊢
    by_cases ha : avail s < needed
    · rw [if_pos ha] at h
      cases h
    · rw [if_neg ha, if_neg ha]
  | succ n ih =>
    unfold overrunLoop at h ⊢
    by_cases ha : avail s < needed
    · rw [if_pos ha] at h ⊢
      rw [if_pos ha]
      dsimp only at h ⊢
      cases hf : (flush z fuel { s with corked := true }).halt with
      | some e =>
        simp only [hf] at h
        cases h
      | none =>
        simp only [hf] at h ⊢
        rw [ih _ h]
        split <;> rfl
    · rw [if_neg ha, if_neg ha]

/-- An `overrun` that returns has cleared `corked` if its loop ran at all (the
free space was short of `needed`), and has left the flag alone otherwise. -/
theorem overrun_corked (z : Zlib σ) (fuel : Nat) (s : ZlibOutStream σ) (needed : Nat)
    (h : (overrun z fuel s needed).halt = none) :
    (overrun z fuel s needed).st.corked
      = if avail s < needed then false else s.corked := by
  obtain ⟨c1, -, -, -, c5, c6⟩ := checkCompressionLevel_frame z fuel s
  unfold overrun at h ⊢
  by_cases hn : needed > s.bufSize
  · rw [if_pos hn] at h
    cases h
  · rw [if_neg hn] at h ⊢
    cases hc : (checkCompressionLevel z fuel s).halt with
    | some e =>
      simp only [hc] at h
      cases h
    | none =>
      simp only [hc] at h ⊢
      rw [overrunLoop_corked z fuel needed fuel _ h, c6]
      unfold avail
      rw [c1, c5]

/-- C12 (the code at the failing input).  The producer corks a new stream and
writes `7, 9`; the stream is corked.  It then reserves the whole capacity, which
overruns: `overrun(16384)` returns, and the stream is no longer corked, though
the producer never uncorked it.  After one more byte, the explicit `flush()`
calls zlib's `deflate` with `Z_SYNC_FLUSH`.  (And when the drain inside
`overrun` throws — here for want of an underlying stream — a stream that was
not corked is left corked.) -/
theorem overrun_clears_cork :
    ZlibOutStream.new (storeZ none) (some sink8) 6 (fun _ => 0) = .ok freshStream ∧
    (run (storeZ none) 5 freshStream [.cork true, .write [7, 9]]).st.corked = true ∧
    (run (storeZ none) 5 freshStream corkedOverrunOps).halt = none ∧
    (run (storeZ none) 5 freshStream corkedOverrunOps).st.corked = false ∧
    (run (storeZ none) 5 freshStream (corkedOverrunOps ++ [.write [1], .flush])).halt = none ∧
    deflateModes
      (callsSince (run (storeZ none) 5 freshStream (corkedOverrunOps ++ [.write [1]])).st
        (run (storeZ none) 5 freshStream (corkedOverrunOps ++ [.write [1], .flush])).st)
      = [Z_SYNC_FLUSH] ∧
    (overrun (storeZ none) 5
        (run (storeZ none) 5 { freshStream with underlying := none } [.write [7, 9]]).st
        16384).halt = some .underlyingNotSet ∧
    (overrun (storeZ none) 5
        (run (storeZ none) 5 { freshStream with underlying := none } [.write [7, 9]]).st
        16384).st.corked = true := by
  refine ⟨rfl, ?_⟩
  decide

/-! ## Convergence of the overrun loop -/

/-- A flush never changes the capacity. -/
theorem flush_bufSize (z : Zlib σ) (fuel : Nat) (s : ZlibOutStream σ) :
    (flush z fuel s).st.bufSize = s.bufSize := by
  cases hh : (flush z fuel s).halt with
  | some e => exact (flush_halt_same z fuel s e hh).2.2.2.2.1
  | none =>
    obtain ⟨hc, hd⟩ := flush_ok_inv z fuel s hh
    rw [flush_of_ok z fuel s hc hd]
    dsimp only
    rw [(flushShift_frame _).2.2.2.2.1, (deflate_frame z fuel _ _).1.2.2.2.2.1]
    exact (checkCompressionLevel_frame z fuel s).2.2.2.2.1

theorem overrunLoop_converges (z : Zlib σ) (fuel needed n : Nat) (t : ZlibOutStream σ)
    (hn : needed ≤ t.bufSize) (hp : t.ptr ≤ n)
    (hd : drainsProgress z fuel needed n t = true) :
    (overrunLoop z fuel needed n t).halt = none ∧
    needed ≤ avail (overrunLoop z fuel needed n t).st := by
  induction n generalizing t with
  | zero =>
    have ha : ¬ avail t < needed := by
      unfold avail
      omega
    unfold overrunLoop
    rw [if_neg ha]
    exact ⟨rfl, Nat.not_lt.mp ha⟩
  | succ n ih =>
    unfold overrunLoop
    unfold drainsProgress at hd
    by_cases ha : avail t < needed
    · rw [if_pos ha] at hd ⊢
      dsimp only
      simp only [Bool.and_eq_true, decide_eq_true_eq, Option.isNone_iff_eq_none] at hd
      obtain ⟨⟨h1, h2⟩, h3⟩ := hd
      simp only [h1]
      have hb := flush_bufSize z fuel { t with corked := true }
      exact ih { (flush z fuel { t with corked := true }).st with corked := false }
        (by show needed ≤ (flush z fuel { t with corked := true }).st.bufSize
            rw [hb]; exact hn)
        (by show (flush z fuel { t with corked := true }).st.ptr ≤ n
            omega)
        h3
    · rw [if_neg ha]
      exact ⟨rfl, Nat.not_lt.mp ha⟩

/-- C13. Overrun convergence: let `needed` be within the capacity, let the level
check at the head of `overrun` return, and let every drain of the loop return
and take at least one byte (`drainsProgress`).  Then the loop ends within as
many rounds as there are bytes in the buffer — a bound of `n` rounds suffices
for every `n ≥ ptr - start`, in particular `n = ptr - start` — and on return
the free space `end - ptr` is at least `needed`; so `overrun(needed)` returns
with that much room. -/
theorem overrun_converges (z : Zlib σ) (fuel : Nat) (s : ZlibOutStream σ) (needed n : Nat)
    (hn : needed ≤ s.bufSize) (hc : (checkCompressionLevel z fuel s).halt = none)
    (hb : s.ptr ≤ n)
    (hd : drainsProgress z fuel needed n (checkCompressionLevel z fuel s).st = true) :
    (overrunLoop z fuel needed n (checkCompressionLevel z fuel s).st).halt = none ∧
    needed ≤ avail (overrunLoop z fuel needed n (checkCompressionLevel z fuel s).st).st ∧
    (n = fuel → (overrun z fuel s needed).halt = none ∧
      needed ≤ avail (overrun z fuel s needed).st) := by
  obtain ⟨c1, -, -, -, c5, -⟩ := checkCompressionLevel_frame z fuel s
  have key := overrunLoop_converges z fuel needed n (checkCompressionLevel z fuel s).st
    (by rw [c5]; exact hn) (by rw [c1]; exact hb) hd
  refine ⟨key.1, key.2, fun hfuel => ?_⟩
  subst hfuel
  unfold overrun
  rw [if_neg (Nat.not_lt.mpr hn)]
  simp only [hc]
  exact key

/-- Witness for C13: a stream of capacity 4 holding 2 bytes, zlib taking one
byte a call, and the whole capacity asked for: two rounds suffice. -/
theorem overrun_converges_witness :
    (overrunLoop (storeZ (some 1)) 5 4 2
      (checkCompressionLevel (storeZ (some 1)) 5 (demo true 6 6)).st).halt = none ∧
    4 ≤ avail (overrunLoop (storeZ (some 1)) 5 4 2
      (checkCompressionLevel (storeZ (some 1)) 5 (demo true 6 6)).st).st :=
  have h := overrun_converges (storeZ (some 1)) 5 (demo true 6 6) 4 2 (by decide) (by decide)
    (by decide) (by decide)
  ⟨h.1, h.2.1⟩

end rdr
